import Mathlib

/-!
# Todo alert system: the per-minute alert tick

A shallow embedding of the alerting engine of the repository:

* `src/database.js`: the `tasks`, `users` and `subtasks` tables, `taskDB.update`,
  `taskDB.create`, `subtaskDB.add`, `taskDB.getDueTasks`;
* `src/server.js`: the three channel adapters, the `cron.schedule` callback
  (the tick) and `calculateNextDate`.

Representation choices, each one fixed by how the source uses the value.

* An instant (`new Date()`, `Date.getTime()`, a stored ISO timestamp such as
  `snoozed_until` or `last_alert_sent`) is its number of milliseconds since the
  epoch, an `Int`.  `toISOString` followed by `new Date(..)` gives the same
  number back, so a stored timestamp is kept as that number.
* A `due_date` is a canonical `YYYY-MM-DD` string (what the date input and
  `toISOString().split('T')[0]` produce).  It is kept as its day number (days
  since 1970-01-01, `daysFromCivil`); on canonical strings the JavaScript string
  order used by the source is the order of the day numbers.
* A `due_time` is a canonical `HH:MM` string, kept as its minute of the day
  (`0 .. 1439`); again the string order is the numeric order.
* `toISOString` is in UTC and `toTimeString` and `new Date("YYYY-MM-DDTHH:MM")`
  are in the server's local time: `Env.tzOffset` is the local offset from UTC in
  minutes, the same all year.  A zone whose offset changes during the year is
  a `Zone`; `calculateNextDateIn` is `calculateNextDate` on a server in such a
  zone.
* SQLite `INTEGER` flags that the source only tests for truthiness
  (`notified`, `reminder_sent`, `completed`, the `*_enabled` flags) are `Bool`;
  nullable columns are `Option`.
* `getDueTasks` and the tick each call `new Date()`; the embedding gives both the
  same instant `now`.
* A text column declared without `NOT NULL` (`description`, `priority`,
  `category`, `notes`, `recurring`) is an `Option String`, `none` for `NULL`;
  `strOr` is the JavaScript `x || d` on such a value, for which `NULL` and `''`
  are both falsy.
* A `Date` holds a time value of at most 8.64e15 ms on either side of the epoch
  (`validTime`); `toISOString` throws on any other.
* A request to a channel client ends as `Outcomes` says; `runTick` is the run
  with the outcomes left out, and `runTickAwait_eq` shows that nothing is lost.
* A statement that changes the database runs or throws as `StoreFaults` says;
  `runTickFaulty` is the run of the callback with its `try`/`catch`, and
  `runTickFaulty_noFaults` shows that it is `runTick` when nothing throws.
* `runTicks` is a sequence of runs with nothing else touching the database in
  between.
* `rowSteps` lists the steps of one loop iteration (adapter calls and
  statements) in source order; `processTaskFaulty_steps` shows that the loop
  body with failing statements runs them in turn up to the first that throws.
-/

namespace TodoAlert

/-! ## Clock and calendar -/

/-- Days since 1970-01-01 of the first day of month `m` (1-based, any integer:
months outside `1 .. 12` carry into the year) of year `y`, shifted by `d - 1`
days: the day number of the civil date `y-m-d`, with the overflow rule of
JavaScript's `MakeDay`. -/
def daysFromCivil (y m d : Int) : Int :=
  let ym := y + (m - 1) / 12
  let mn := (m - 1) % 12 + 1
  let yy := if mn ≤ 2 then ym - 1 else ym
  let era := yy / 400
  let yoe := yy - era * 400
  let mp := (mn + 9) % 12
  let doy := (153 * mp + 2) / 5
  let doe := yoe * 365 + yoe / 4 - yoe / 100 + doy
  era * 146097 + doe - 719468 + (d - 1)

/-- The civil date `(year, month, day)` of a day number (days since 1970-01-01). -/
def civilFromDays (z : Int) : Int × Int × Int :=
  let z1 := z + 719468
  let era := z1 / 146097
  let doe := z1 - era * 146097
  let yoe := (doe - doe / 1460 + doe / 36524 - doe / 146096) / 365
  let doy := doe - (365 * yoe + yoe / 4 - yoe / 100)
  let mp := (5 * doy + 2) / 153
  let d := doy - (153 * mp + 2) / 5 + 1
  let m := if mp < 10 then mp + 3 else mp - 9
  let y := yoe + era * 400
  (if m ≤ 2 then y + 1 else y, m, d)

/-- The minute of the day of the canonical time string `HH:MM`. -/
def hhmm (h m : Int) : Int := h * 60 + m

/-- The instant (milliseconds since the epoch) of `y-m-d h:mi:00.000` UTC. -/
def utcInstant (y m d h mi : Int) : Int :=
  (daysFromCivil y m d * 1440 + hhmm h mi) * 60000

/-- The process environment of the server: the offset of its local time from UTC
in minutes, and whether the Twilio client and the Telegram bot were configured
at start-up (`twilioClient`, `telegramBot` of `server.js`). -/
structure Env where
  tzOffset : Int
  twilioClient : Bool
  telegramBot : Bool
  deriving DecidableEq

/-- `now.toISOString().split('T')[0]`: the UTC calendar date of `now`, as a day
number. -/
def currentDate (now : Int) : Int := now / 86400000

/-- `now.toTimeString().split(' ')[0].substring(0, 5)`: the local time of day of
`now`, as a minute of the day. -/
def currentTime (env : Env) (now : Int) : Int :=
  ((now + env.tzOffset * 60000) / 60000) % 1440

/-! ## Tables -/

/-- A row of `users`, with the columns the due query selects. -/
structure User where
  id : Nat
  phone_number : String
  whatsapp_enabled : Bool
  telegram_enabled : Bool
  sms_enabled : Bool
  whatsapp_number : Option String
  telegram_chat_id : Option String
  sms_number : Option String
  deriving DecidableEq

/-- A row of `tasks`.  The columns declared without `NOT NULL` are options:
`none` is `NULL`, which `PUT /api/tasks/:id` can store in any of them. -/
structure Task where
  id : Nat
  user_id : Nat
  title : String
  description : Option String
  due_date : Int
  due_time : Int
  recurring : Option String
  priority : Option String
  category : Option String
  reminder_minutes : Option Int
  notes : Option String
  snoozed_until : Option Int
  notified : Bool
  reminder_sent : Bool
  completed : Bool
  alert_count : Option Int
  last_alert_sent : Option Int
  created_at : Int
  deriving DecidableEq

/-- A row of `subtasks`. -/
structure Subtask where
  id : Nat
  task_id : Nat
  text : String
  completed : Bool
  deriving DecidableEq

/-- The database: the three tables and the two `AUTOINCREMENT` counters (the
largest id ever given out in `tasks` and in `subtasks`). -/
structure Store where
  users : List User
  tasks : List Task
  subtasks : List Subtask
  task_seq : Nat
  subtask_seq : Nat
  deriving DecidableEq

/-- What the primary key of `tasks` guarantees: ids are pairwise different and
none exceeds the `AUTOINCREMENT` counter. -/
structure Store.WF (s : Store) : Prop where
  nodup : (s.tasks.map fun t => t.id).Nodup
  bound : ∀ t ∈ s.tasks, t.id ≤ s.task_seq

/-! ## `taskDB` and `subtaskDB` -/

/-- The `updates` object of `taskDB.update`, for the columns the tick writes: a
key that is present carries the value to store (`snoozed_until` may be set to
`null`). -/
structure Updates where
  snoozed_until : Option (Option Int) := none
  notified : Option Bool := none
  reminder_sent : Option Bool := none
  alert_count : Option Int := none
  last_alert_sent : Option Int := none

/-- The `SET key = ?, ...` clause applied to one row. -/
def Updates.apply (u : Updates) (t : Task) : Task :=
  { t with
    snoozed_until := u.snoozed_until.getD t.snoozed_until
    notified := u.notified.getD t.notified
    reminder_sent := u.reminder_sent.getD t.reminder_sent
    alert_count := match u.alert_count with
      | some c => some c
      | none => t.alert_count
    last_alert_sent := match u.last_alert_sent with
      | some l => some l
      | none => t.last_alert_sent }

/-- The row filter `WHERE id = ? AND user_id = ?` followed by `f` on the rows it
selects. -/
def onRow (taskId userId : Nat) (f : Task → Task) (t : Task) : Task :=
  if t.id = taskId ∧ t.user_id = userId then f t else t

/-- `taskDB.update(taskId, userId, updates)`. -/
def taskDB.update (s : Store) (taskId userId : Nat) (u : Updates) : Store :=
  { s with tasks := s.tasks.map (onRow taskId userId u.apply) }

/-- The `taskData` argument of `taskDB.create`; a text property may be `null`. -/
structure TaskData where
  title : String
  description : Option String
  dueDate : Int
  dueTime : Int
  recurring : Option String
  priority : Option String
  category : Option String
  reminderMinutes : Int
  notes : Option String

/-- JavaScript `x || d` on a nullable text value: `null` and the empty string
are both falsy. -/
def strOr (x : Option String) (d : String) : String :=
  match x with
  | some v => if v = "" then d else v
  | none => d

/-- `taskDB.create(userId, taskData)` at instant `now`: the new row gets the next
`AUTOINCREMENT` id, the three flags are `0`, and the columns the statement does
not name take their defaults (`alert_count` 0, `snoozed_until` and
`last_alert_sent` `NULL`).  Returns the store and `lastInsertRowid`. -/
def taskDB.create (s : Store) (userId : Nat) (d : TaskData) (now : Int) : Store × Nat :=
  let newId := s.task_seq + 1
  let row : Task :=
    { id := newId
      user_id := userId
      title := d.title
      description := some (strOr d.description "")
      due_date := d.dueDate
      due_time := d.dueTime
      recurring := some (strOr d.recurring "none")
      priority := some (strOr d.priority "medium")
      category := some (strOr d.category "general")
      reminder_minutes := some d.reminderMinutes
      notes := some (strOr d.notes "")
      snoozed_until := none
      notified := false
      reminder_sent := false
      completed := false
      alert_count := some 0
      last_alert_sent := none
      created_at := now }
  ({ s with tasks := s.tasks ++ [row], task_seq := newId }, newId)

/-- `subtaskDB.add(taskId, text)`. -/
def subtaskDB.add (s : Store) (taskId : Nat) (text : String) : Store :=
  let newId := s.subtask_seq + 1
  { s with
    subtasks := s.subtasks ++ [{ id := newId, task_id := taskId, text := text, completed := false }]
    subtask_seq := newId }

/-- A row returned by `taskDB.getDueTasks`: the task columns, the owner's
columns from the join, and the attached `subtasks`. -/
structure DueRow where
  task : Task
  user : User
  subtasks : List Subtask
  deriving DecidableEq

/-- The `WHERE` clause of `taskDB.getDueTasks`. -/
def dueQuery (env : Env) (now : Int) (t : Task) : Bool :=
  !t.completed &&
    (decide (t.due_date < currentDate now) ||
      (decide (t.due_date = currentDate now) && decide (t.due_time ≤ currentTime env now)))

/-- The inner join with `users` (ids of `users` are a primary key, so a task has
at most one owner row) and the attached subtasks, for one task. -/
def joinRow (s : Store) (t : Task) : Option DueRow :=
  (s.users.find? fun u => u.id = t.user_id).map fun u =>
    { task := t, user := u, subtasks := s.subtasks.filter fun x => x.task_id = t.id }

/-- `taskDB.getDueTasks()` at instant `now`. -/
def taskDB.getDueTasks (env : Env) (now : Int) (s : Store) : List DueRow :=
  s.tasks.filterMap fun t => if dueQuery env now t then joinRow s t else none

/-! ## Channel adapters -/

/-- The three notification channels. -/
inductive Channel where
  | whatsapp
  | telegram
  | sms
  deriving DecidableEq

/-- The branch of the tick that calls an adapter (the three branches print
"Sending reminder", "Task due" and "Escalation alert"). -/
inductive Phase where
  | reminder
  | due
  | escalation
  deriving DecidableEq

/-- JavaScript truthiness of a nullable text column. -/
def truthy (x : Option String) : Bool :=
  match x with
  | some v => decide (v ≠ "")
  | none => false

/-- The guard that opens `sendWhatsAppAlert`, `sendTelegramAlert` and
`sendSMSAlert`: the adapter goes on to its channel client only when the client
is configured, the user's flag is set and the destination is present; otherwise
it returns `false` at once. -/
def contactsClient (env : Env) (u : User) : Channel → Bool
  | .whatsapp => env.twilioClient && u.whatsapp_enabled && truthy u.whatsapp_number
  | .telegram => env.telegramBot && u.telegram_enabled && truthy u.telegram_chat_id
  | .sms => env.twilioClient && u.sms_enabled && truthy u.sms_number

/-- One call of a channel adapter by the tick: the channel, the task, the
`isReminder` argument, the branch that made the call, and whether the adapter
passed its guard and contacted the channel client.  The adapter catches every
failure of the client, so the call always returns to the tick. -/
structure Send where
  channel : Channel
  task_id : Nat
  isReminder : Bool
  phase : Phase
  contacted : Bool
  deriving DecidableEq

/-- The three adapter calls of a branch, in source order: WhatsApp, Telegram,
SMS. -/
def alertAll (env : Env) (r : DueRow) (isReminder : Bool) (ph : Phase) : List Send :=
  [ { channel := .whatsapp, task_id := r.task.id, isReminder := isReminder, phase := ph,
      contacted := contactsClient env r.user .whatsapp },
    { channel := .telegram, task_id := r.task.id, isReminder := isReminder, phase := ph,
      contacted := contactsClient env r.user .telegram },
    { channel := .sms, task_id := r.task.id, isReminder := isReminder, phase := ph,
      contacted := contactsClient env r.user .sms } ]

/-! ## `calculateNextDate` -/

/-- `calculateNextDate(currentDate, recurring)`: `new Date("YYYY-MM-DD")` is UTC
midnight of that date; `getDate`, `setDate`, `getMonth` and `setMonth` work on
the local calendar fields (the local time of day is kept, an overflowing day
or month carries as in `MakeDay`); `toISOString().split('T')[0]` is the UTC date
of the result.  A kind other than the three listed leaves the date as it is. -/
def calculateNextDate (env : Env) (currentDate : Int) (recurring : String) : Int :=
  let localMs := currentDate * 86400000 + env.tzOffset * 60000
  let localDay := localMs / 86400000
  let timeOfDay := localMs % 86400000
  let (y, m, d) := civilFromDays localDay
  let newDay :=
    if recurring = "daily" then daysFromCivil y m (d + 1)
    else if recurring = "weekly" then daysFromCivil y m (d + 7)
    else if recurring = "monthly" then daysFromCivil y (m + 1) d
    else localDay
  (newDay * 86400000 + timeOfDay - env.tzOffset * 60000) / 86400000

/-- A time zone: the offset of local time from UTC, in minutes, in force at a UTC
instant (what `getDate` and `getMonth` use to read the local fields), and the
offset used to turn a local time back into an instant (what `setDate` and
`setMonth` use after they changed the local fields). -/
structure Zone where
  offsetAtUtc : Int → Int
  offsetAtLocal : Int → Int

/-- The zone whose offset is `off` minutes all year. -/
def Zone.fixed (off : Int) : Zone :=
  { offsetAtUtc := fun _ => off, offsetAtLocal := fun _ => off }

/-- `calculateNextDate(currentDate, recurring)` on a server in time zone `zone`:
as `calculateNextDate`, with the offset in force at the parsed instant for
reading the local fields and the offset in force at the new local time for the
instant that `toISOString` prints. -/
def calculateNextDateIn (zone : Zone) (currentDate : Int) (recurring : String) : Int :=
  let utcMs := currentDate * 86400000
  let localMs := utcMs + zone.offsetAtUtc utcMs * 60000
  let localDay := localMs / 86400000
  let timeOfDay := localMs % 86400000
  let (y, m, d) := civilFromDays localDay
  if recurring = "daily" ∨ recurring = "weekly" ∨ recurring = "monthly" then
    let newDay :=
      if recurring = "daily" then daysFromCivil y m (d + 1)
      else if recurring = "weekly" then daysFromCivil y m (d + 7)
      else daysFromCivil y (m + 1) d
    let newLocal := newDay * 86400000 + timeOfDay
    (newLocal - zone.offsetAtLocal newLocal * 60000) / 86400000
  else currentDate

/-! ## The tick -/

/-- The state threaded through one run of the tick: the database and the adapter
calls made so far. -/
structure TickState where
  store : Store
  sent : List Send
  deriving DecidableEq

/-- `new Date(due_date + "T" + due_time)`: the due instant, read in local time. -/
def taskDateTime (env : Env) (t : Task) : Int :=
  (t.due_date * 1440 + t.due_time - env.tzOffset) * 60000

/-- `task.snoozed_until && new Date(task.snoozed_until) > now`. -/
def snoozed (now : Int) (t : Task) : Bool :=
  match t.snoozed_until with
  | some s => decide (s > now)
  | none => false

/-- `task.snoozed_until && new Date(task.snoozed_until) <= now`. -/
def snoozeExpired (now : Int) (t : Task) : Bool :=
  match t.snoozed_until with
  | some s => decide (s ≤ now)
  | none => false

/-- The condition of the early-reminder branch, with
`reminderMinutes = task.reminder_minutes || 0` and
`reminderTime = taskDateTime - reminderMinutes * 60000`. -/
def reminderDue (env : Env) (now : Int) (t : Task) : Bool :=
  let reminderMinutes := t.reminder_minutes.getD 0
  decide (reminderMinutes > 0) && !t.reminder_sent &&
    decide (now ≥ taskDateTime env t - reminderMinutes * 60000) &&
    decide (now < taskDateTime env t)

/-- The condition of the main-alert branch:
`!task.notified && task.due_date <= currentDate && task.due_time <= currentTime`. -/
def alertDue (env : Env) (now : Int) (t : Task) : Bool :=
  !t.notified && decide (t.due_date ≤ currentDate now) &&
    decide (t.due_time ≤ currentTime env now)

/-- The condition of the escalation branch: the outer test
`task.notified && task.priority === 'high' && !task.completed && task.last_alert_sent`
and the inner test `minutesSinceLastAlert >= 30 && task.alert_count < 5`, where
`minutesSinceLastAlert = (now - lastAlert) / 60000` is an exact quotient, so the
first inner test is `now - lastAlert >= 30 * 60000`; a `NULL` `alert_count`
compares as `0`. -/
def escalationDue (now : Int) (t : Task) : Bool :=
  t.notified && decide (t.priority = some "high") && !t.completed &&
    match t.last_alert_sent with
    | some lastAlert =>
        decide (now - lastAlert ≥ 30 * 60000) && decide (t.alert_count.getD 0 < 5)
    | none => false

/-- The "snooze expired, reset" branch. -/
def snoozePhase (now : Int) (r : DueRow) (st : TickState) : TickState :=
  if snoozeExpired now r.task then
    { store := taskDB.update st.store r.task.id r.task.user_id
        ({ snoozed_until := some none, notified := some false, reminder_sent := some false })
      sent := st.sent }
  else st

/-- The "send early reminder" branch. -/
def reminderPhase (env : Env) (now : Int) (r : DueRow) (st : TickState) : TickState :=
  if reminderDue env now r.task then
    { store := taskDB.update st.store r.task.id r.task.user_id ({ reminder_sent := some true })
      sent := st.sent ++ alertAll env r true .reminder }
  else st

/-- The "handle recurring tasks" block: insert the next instance and copy the
subtask texts of the fetched row onto it.  A `NULL` kind matches no `case` of the
`switch` in `calculateNextDate`, as the empty string does. -/
def regenerate (env : Env) (now : Int) (r : DueRow) (s : Store) : Store :=
  let nextDate := calculateNextDate env r.task.due_date (r.task.recurring.getD "")
  let data : TaskData :=
    { title := r.task.title
      description := r.task.description
      dueDate := nextDate
      dueTime := r.task.due_time
      recurring := r.task.recurring
      priority := some (strOr r.task.priority "medium")
      category := some (strOr r.task.category "general")
      reminderMinutes := r.task.reminder_minutes.getD 0
      notes := some (strOr r.task.notes "") }
  let created := taskDB.create s r.task.user_id data now
  r.subtasks.foldl (fun acc subtask => subtaskDB.add acc created.2 subtask.text) created.1

/-- The "send main alert when due" branch, with the recurrence block inside it. -/
def duePhase (env : Env) (now : Int) (r : DueRow) (st : TickState) : TickState :=
  if alertDue env now r.task then
    let alertCount := r.task.alert_count.getD 0 + 1
    let s1 := taskDB.update st.store r.task.id r.task.user_id
      ({ notified := some true, alert_count := some alertCount, last_alert_sent := some now })
    { store := if r.task.recurring ≠ some "none" then regenerate env now r s1 else s1
      sent := st.sent ++ alertAll env r false .due }
  else st

/-- The "alert escalation" branch. -/
def escalationPhase (env : Env) (now : Int) (r : DueRow) (st : TickState) : TickState :=
  if escalationDue now r.task then
    { store := taskDB.update st.store r.task.id r.task.user_id
        ({ alert_count := some (r.task.alert_count.getD 0 + 1), last_alert_sent := some now })
      sent := st.sent ++ alertAll env r false .escalation }
  else st

/-- The body of the `for (const task of tasks)` loop for one fetched row.  Every
condition reads the fetched row `r`; every write goes to the database. -/
def processTask (env : Env) (now : Int) (r : DueRow) (st : TickState) : TickState :=
  if r.task.completed then st
  else if snoozed now r.task then st
  else escalationPhase env now r (duePhase env now r (reminderPhase env now r (snoozePhase now r st)))

/-- One run of the `cron.schedule` callback at instant `now`: fetch the due rows,
run the loop body on each in turn.  (The OTP clean-up that follows the loop
works on a table of its own and is left out.) -/
def runTick (env : Env) (now : Int) (s : Store) : TickState :=
  (taskDB.getDueTasks env now s).foldl (fun st r => processTask env now r st) ⟨s, []⟩

/-! ## Summary of one loop iteration and of one run

Closed forms of what the loop body and the whole run do to a row, to the task
table and to the list of adapter calls.  They are not part of the embedding:
`processTask_tasks`, `processTask_sent`, `runTick_tasks`, `runTick_row` and
`runTick_sent_task` below prove that the tick of the previous section computes
them. -/

/-- The row written by the recurrence block for the fetched task `t` when the
counter stands at `seq`. -/
def nextInstance (env : Env) (now : Int) (t : Task) (seq : Nat) : Task :=
  { id := seq + 1
    user_id := t.user_id
    title := t.title
    description := some (strOr t.description "")
    due_date := calculateNextDate env t.due_date (t.recurring.getD "")
    due_time := t.due_time
    recurring := some (strOr t.recurring "none")
    priority := some (strOr (some (strOr t.priority "medium")) "medium")
    category := some (strOr (some (strOr t.category "general")) "general")
    reminder_minutes := some (t.reminder_minutes.getD 0)
    notes := some (strOr (some (strOr t.notes "")) "")
    snoozed_until := none
    notified := false
    reminder_sent := false
    completed := false
    alert_count := some 0
    last_alert_sent := none
    created_at := now }

/-- The rows that the recurrence block adds to `subtasks` for the new task
`taskId`, from the subtasks `l` of the fetched row, when the counter of
`subtasks` stands at `seq`. -/
def clonedSubtasks (taskId : Nat) : List Subtask → Nat → List Subtask
  | [], _ => []
  | a :: l, seq =>
    { id := seq + 1, task_id := taskId, text := a.text, completed := false } ::
      clonedSubtasks taskId l (seq + 1)

/-- The writes that one loop iteration makes to the fetched task's own row, in
order, as decided by the fetched values `t`. -/
def rowWrites (env : Env) (now : Int) (t : Task) : List Updates :=
  if t.completed || snoozed now t then []
  else
    (if snoozeExpired now t then
      [({ snoozed_until := some none, notified := some false, reminder_sent := some false } : Updates)]
      else []) ++
    (if reminderDue env now t then [({ reminder_sent := some true } : Updates)] else []) ++
    (if alertDue env now t then
      [({ notified := some true, alert_count := some (t.alert_count.getD 0 + 1),
          last_alert_sent := some now } : Updates)]
      else []) ++
    (if escalationDue now t then
      [({ alert_count := some (t.alert_count.getD 0 + 1), last_alert_sent := some now } : Updates)]
      else [])

/-- The stored row `x` after the writes decided by the fetched values `t`. -/
def netEffect (env : Env) (now : Int) (t x : Task) : Task :=
  (rowWrites env now t).foldl (fun acc u => u.apply acc) x

/-- Whether the loop iteration for the fetched task `t` inserts a next instance. -/
def regenerates (env : Env) (now : Int) (t : Task) : Bool :=
  !t.completed && !snoozed now t && alertDue env now t && decide (t.recurring ≠ some "none")

/-- The adapter calls of one loop iteration. -/
def rowSends (env : Env) (now : Int) (r : DueRow) : List Send :=
  if r.task.completed || snoozed now r.task then []
  else
    (if reminderDue env now r.task then alertAll env r true .reminder else []) ++
    (if alertDue env now r.task then alertAll env r false .due else []) ++
    (if escalationDue now r.task then alertAll env r false .escalation else [])

/-- The stored row `x` after the loop has run over `rows`. -/
def foldEffect (env : Env) (now : Int) (rows : List DueRow) (x : Task) : Task :=
  rows.foldl (fun acc r => onRow r.task.id r.task.user_id (netEffect env now r.task) acc) x

/-- The loop over `rows` from state `st`. -/
def runRows (env : Env) (now : Int) (rows : List DueRow) (st : TickState) : TickState :=
  rows.foldl (fun st r => processTask env now r st) st

/-- Whether the due query returns a row for the stored task `t`. -/
def fetched (env : Env) (now : Int) (s : Store) (t : Task) : Bool :=
  dueQuery env now t && (joinRow s t).isSome

/-- The stored task `t` after one run of the tick on store `s`. -/
def tickTask (env : Env) (now : Int) (s : Store) (t : Task) : Task :=
  if fetched env now s t then netEffect env now t t else t

/-- Whether the loop body does nothing on a fetched row with task `y`. -/
def quiet (env : Env) (now : Int) (y : Task) : Bool :=
  y.completed || snoozed now y ||
    (!snoozeExpired now y && !reminderDue env now y && !alertDue env now y &&
      !escalationDue now y)

/-- The situation of the escalation scenario: in store `s` the task `t` of an
existing owner is high priority, not completed, not snoozed and notified, its
due alert fired at instant `T`, it has had `k` alerts and the last one went out
at `L`. -/
structure Escalating (env : Env) (T : Int) (s : Store) (t : Task) (k L : Int) : Prop where
  wf : s.WF
  mem : t ∈ s.tasks
  owner : (joinRow s t).isSome = true
  high : t.priority = some "high"
  incomplete : t.completed = false
  awake : t.snoozed_until = none
  notified : t.notified = true
  count : t.alert_count = some k
  last : t.last_alert_sent = some L
  due_date : t.due_date ≤ currentDate T
  due_time : t.due_time ≤ currentTime env T

/-! ## The tick with the channel clients

The channel clients (Twilio, the Telegram bot) are outside the program.
`Outcomes` says how each request to a client ends, and `runTickAwait` is the
run of the tick with every adapter awaited under given outcomes: an adapter
catches what its client throws, and the tick drops the boolean the adapter
returns. -/

/-- How the request that an adapter makes to its channel client ends: the
message is delivered, the request returns although the message does not reach
the user, or the client throws. -/
inductive ClientResult where
  | delivered
  | undelivered
  | rejected
  deriving DecidableEq

/-- The outcome of every client request of one run: for the channel, the task
and the branch of the tick that makes the call. -/
abbrev Outcomes := Channel → Nat → Phase → ClientResult

/-- `await twilioClient.messages.create(...)` / `await telegramBot.sendMessage(...)`:
throws when the client rejects. -/
def clientRequest (o : Outcomes) (ch : Channel) (taskId : Nat) (ph : Phase) :
    Except String Unit :=
  match o ch taskId ph with
  | .rejected => throw "client error"
  | _ => pure ()

/-- The common shape of the three adapters: return `false` when the guard fails;
otherwise make the request inside `try`, return `true` when it comes back and
`false` from the `catch` block.  The value is the record of the call and the
boolean the adapter returns. -/
def sendAlert (env : Env) (o : Outcomes) (r : DueRow) (ch : Channel) (isReminder : Bool)
    (ph : Phase) : Except String (Send × Bool) :=
  if contactsClient env r.user ch then do
    let ok ←
      try
        clientRequest o ch r.task.id ph
        pure true
      catch _ =>
        pure false
    pure ({ channel := ch, task_id := r.task.id, isReminder := isReminder, phase := ph,
            contacted := true }, ok)
  else
    pure ({ channel := ch, task_id := r.task.id, isReminder := isReminder, phase := ph,
            contacted := false }, false)

/-- `sendWhatsAppAlert(task, user, isReminder)`. -/
def sendWhatsAppAlert (env : Env) (o : Outcomes) (r : DueRow) (isReminder : Bool) (ph : Phase) :
    Except String (Send × Bool) :=
  sendAlert env o r .whatsapp isReminder ph

/-- `sendTelegramAlert(task, user, isReminder)`. -/
def sendTelegramAlert (env : Env) (o : Outcomes) (r : DueRow) (isReminder : Bool) (ph : Phase) :
    Except String (Send × Bool) :=
  sendAlert env o r .telegram isReminder ph

/-- `sendSMSAlert(task, user, isReminder)`. -/
def sendSMSAlert (env : Env) (o : Outcomes) (r : DueRow) (isReminder : Bool) (ph : Phase) :
    Except String (Send × Bool) :=
  sendAlert env o r .sms isReminder ph

/-- The state of a run that follows the adapters: the database and the calls
made, and the booleans the adapters returned (which the tick drops). -/
structure RunState where
  tick : TickState
  returned : List Bool

/-- The three `await`ed adapter calls of a branch. -/
def awaitAlerts (env : Env) (o : Outcomes) (r : DueRow) (isReminder : Bool) (ph : Phase)
    (st : RunState) : Except String RunState := do
  let a ← sendWhatsAppAlert env o r isReminder ph
  let b ← sendTelegramAlert env o r isReminder ph
  let c ← sendSMSAlert env o r isReminder ph
  pure { tick := { st.tick with sent := st.tick.sent ++ [a.1, b.1, c.1] }
         returned := st.returned ++ [a.2, b.2, c.2] }

/-- The loop body with the adapters awaited one after the other; an exception
that left an adapter would end the run. -/
def processTaskAwait (env : Env) (o : Outcomes) (now : Int) (r : DueRow) (st : RunState) :
    Except String RunState :=
  if r.task.completed then pure st
  else if snoozed now r.task then pure st
  else do
    let s1 : RunState := { st with tick := snoozePhase now r st.tick }
    let s2 ←
      if reminderDue env now r.task then do
        let s ← awaitAlerts env o r true .reminder s1
        pure { s with
               tick := { s.tick with
                         store := taskDB.update s.tick.store r.task.id r.task.user_id
                           ({ reminder_sent := some true }) } }
      else pure s1
    let s3 ←
      if alertDue env now r.task then do
        let s ← awaitAlerts env o r false .due s2
        let alertCount := r.task.alert_count.getD 0 + 1
        let d1 := taskDB.update s.tick.store r.task.id r.task.user_id
          ({ notified := some true, alert_count := some alertCount, last_alert_sent := some now })
        pure { s with
               tick := { s.tick with
                         store := if r.task.recurring ≠ some "none" then regenerate env now r d1
                                  else d1 } }
      else pure s2
    if escalationDue now r.task then do
      let s ← awaitAlerts env o r false .escalation s3
      pure { s with
             tick := { s.tick with
                       store := taskDB.update s.tick.store r.task.id r.task.user_id
                         ({ alert_count := some (r.task.alert_count.getD 0 + 1),
                            last_alert_sent := some now }) } }
    else pure s3

/-- One run of the tick with the adapters awaited, under the outcomes `o`. -/
def runTickAwait (env : Env) (o : Outcomes) (now : Int) (s : Store) : Except String RunState :=
  (taskDB.getDueTasks env now s).foldlM (fun st r => processTaskAwait env o now r st)
    { tick := ⟨s, []⟩, returned := [] }

/-- The outcomes under which every client request throws. -/
def allRejected : Outcomes := fun _ _ _ => .rejected

/-- The boolean an adapter returns under the outcomes `o`. -/
def adapterReturns (env : Env) (o : Outcomes) (r : DueRow) (ph : Phase) (ch : Channel) : Bool :=
  contactsClient env r.user ch && decide (o ch r.task.id ph ≠ .rejected)

/-- The booleans the adapters return in one loop iteration. -/
def rowReturns (env : Env) (o : Outcomes) (now : Int) (r : DueRow) : List Bool :=
  if r.task.completed || snoozed now r.task then []
  else
    (if reminderDue env now r.task then
      [Channel.whatsapp, Channel.telegram, Channel.sms].map (adapterReturns env o r .reminder)
      else []) ++
    (if alertDue env now r.task then
      [Channel.whatsapp, Channel.telegram, Channel.sms].map (adapterReturns env o r .due)
      else []) ++
    (if escalationDue now r.task then
      [Channel.whatsapp, Channel.telegram, Channel.sms].map (adapterReturns env o r .escalation)
      else [])

/-! ## Request handlers

The two handlers of `server.js` that claims about the tick and about subtasks
refer to, with the `taskDB` and `subtaskDB` functions they call.  A handler runs
behind `requireAuth`; `sessionUser` is `req.session.userId`. -/

/-- The time values a `Date` can hold: at most 8.64e15 ms on either side of the
epoch.  `new Date(x)` with `x` outside that range is an invalid date, and
`toISOString` throws a `RangeError` on it.  (Integers of that size are exact in
a JavaScript number.) -/
def validTime (x : Int) : Bool :=
  decide (-8640000000000000 ≤ x) && decide (x ≤ 8640000000000000)

/-- `taskDB.snooze(taskId, userId, minutes)` at instant `now`:
`new Date(Date.now() + minutes * 60000).toISOString()` throws when the sum is
not a valid time value, before the statement runs; otherwise the result is the
store and the number of rows changed (`result.changes`). -/
def taskDB.snooze (s : Store) (taskId userId : Nat) (minutes : Int) (now : Int) :
    Except String (Store × Nat) :=
  if validTime (now + minutes * 60000) then
    pure ({ s with
            tasks := s.tasks.map (onRow taskId userId fun x =>
              { x with snoozed_until := some (now + minutes * 60000) }) },
          (s.tasks.filter fun x => x.id = taskId ∧ x.user_id = userId).length)
  else throw "RangeError: Invalid time value"

/-- The handler of `POST /api/tasks/:id/snooze` for the session of user
`sessionUser`, at instant `now`: the store and the HTTP status.  What
`taskDB.snooze` throws is caught by the handler, which answers 500. -/
def postSnooze (s : Store) (sessionUser id : Nat) (minutes : Int) (now : Int) : Store × Nat :=
  if minutes ≤ 0 then (s, 400)
  else
    match taskDB.snooze s id sessionUser minutes now with
    | .ok result => if result.2 > 0 then (result.1, 200) else (result.1, 404)
    | .error _ => (s, 500)

/-- `taskDB.getById(taskId, userId)`: the task with that id among the tasks of
that user, with its subtasks attached. -/
def taskDB.getById (s : Store) (taskId userId : Nat) : Option (Task × List Subtask) :=
  (s.tasks.find? fun t => t.id = taskId ∧ t.user_id = userId).map fun t =>
    (t, s.subtasks.filter fun x => x.task_id = t.id)

/-- `subtaskDB.toggle(subtaskId)`:
`UPDATE subtasks SET completed = NOT completed WHERE id = ?`. -/
def subtaskDB.toggle (s : Store) (subtaskId : Nat) : Store :=
  { s with
    subtasks := s.subtasks.map fun x =>
      if x.id = subtaskId then { x with completed := !x.completed } else x }

/-- The handler of `PATCH /api/tasks/:id/subtasks/:subtaskId` for the session of
user `sessionUser`: the store and the HTTP status. -/
def patchSubtask (s : Store) (sessionUser taskId subtaskId : Nat) : Store × Nat :=
  match taskDB.getById s taskId sessionUser with
  | none => (s, 404)
  | some _ => (subtaskDB.toggle s subtaskId, 200)

/-! ## Successive ticks -/

/-- Successive runs of the tick at the instants `nows`, nothing else touching
the database in between; the adapter calls of the runs accumulate. -/
def runTicks (env : Env) (nows : List Int) (st : TickState) : TickState :=
  nows.foldl (fun acc now =>
    { store := (runTick env now acc.store).store
      sent := acc.sent ++ (runTick env now acc.store).sent }) st

/-- The number of alert rounds in a list of adapter calls for task `taskId`: a
round of the due or of the escalation branch calls the three adapters in turn,
`sendWhatsAppAlert` first, so the rounds are counted by that first call. -/
def dispatchRounds (sent : List Send) (taskId : Nat) : Nat :=
  (sent.filter fun e =>
    decide (e.task_id = taskId) && decide (e.phase ≠ Phase.reminder) &&
      decide (e.channel = Channel.whatsapp)).length

/-! ## The tick with failing statements

A statement of better-sqlite3 throws when it fails.  `StoreFaults` says which
statements of a run throw; the loop of the tick stands in one `try` block, whose
`catch` block logs the exception. -/

/-- The statements with which one loop iteration of the tick changes the
database, in source order: the reset after an expired snooze, the
`reminder_sent` mark, the `notified` mark of the due branch, the insert of the
next instance, the insert of its `i`-th subtask, the count of the escalation
branch. -/
inductive Mutation where
  | snoozeReset
  | reminderMark
  | dueMark
  | insertTask
  | insertSubtask (i : Nat)
  | escalationMark
  deriving DecidableEq

/-- Which statements throw in one run: for the id of the fetched task and the
statement. -/
abbrev StoreFaults := Nat → Mutation → Bool

/-- A statement of the loop body: it throws, and leaves the database as it
was, or it runs.  The error value is the state in which the exception leaves
the run. -/
def mutate (faults : StoreFaults) (taskId : Nat) (m : Mutation) (f : Store → Store)
    (st : TickState) : Except TickState TickState :=
  if faults taskId m then throw st else pure { st with store := f st.store }

/-- The "handle recurring tasks" block, statement by statement. -/
def regenerateFaulty (env : Env) (faults : StoreFaults) (now : Int) (r : DueRow)
    (st : TickState) : Except TickState TickState :=
  let nextDate := calculateNextDate env r.task.due_date (r.task.recurring.getD "")
  let data : TaskData :=
    { title := r.task.title
      description := r.task.description
      dueDate := nextDate
      dueTime := r.task.due_time
      recurring := r.task.recurring
      priority := some (strOr r.task.priority "medium")
      category := some (strOr r.task.category "general")
      reminderMinutes := r.task.reminder_minutes.getD 0
      notes := some (strOr r.task.notes "") }
  if faults r.task.id .insertTask then throw st
  else
    let created := taskDB.create st.store r.task.user_id data now
    r.subtasks.enum.foldlM
      (fun acc p =>
        mutate faults r.task.id (.insertSubtask p.1)
          (fun s => subtaskDB.add s created.2 p.2.text) acc)
      { st with store := created.1 }

/-- The loop body when statements may throw: an exception leaves the body at
the statement that throws. -/
def processTaskFaulty (env : Env) (faults : StoreFaults) (now : Int) (r : DueRow)
    (st : TickState) : Except TickState TickState :=
  if r.task.completed then pure st
  else if snoozed now r.task then pure st
  else do
    let s1 ←
      (if snoozeExpired now r.task then
        mutate faults r.task.id .snoozeReset
          (fun s => taskDB.update s r.task.id r.task.user_id
            ({ snoozed_until := some none, notified := some false, reminder_sent := some false }))
          st
      else pure st)
    let s2 ←
      (if reminderDue env now r.task then
        mutate faults r.task.id .reminderMark
          (fun s => taskDB.update s r.task.id r.task.user_id ({ reminder_sent := some true }))
          { s1 with sent := s1.sent ++ alertAll env r true .reminder }
      else pure s1)
    let s3 ←
      (if alertDue env now r.task then
        (mutate faults r.task.id .dueMark
          (fun s => taskDB.update s r.task.id r.task.user_id
            ({ notified := some true, alert_count := some (r.task.alert_count.getD 0 + 1),
               last_alert_sent := some now }))
          { s2 with sent := s2.sent ++ alertAll env r false .due }) >>= fun a =>
        if r.task.recurring ≠ some "none" then regenerateFaulty env faults now r a else pure a
      else pure s2)
    (if escalationDue now r.task then
      mutate faults r.task.id .escalationMark
        (fun s => taskDB.update s r.task.id r.task.user_id
          ({ alert_count := some (r.task.alert_count.getD 0 + 1), last_alert_sent := some now }))
        { s3 with sent := s3.sent ++ alertAll env r false .escalation }
    else pure s3)

/-- The `for` loop over the fetched rows when statements may throw: the first
exception leaves the loop. -/
def runRowsFaulty (env : Env) (faults : StoreFaults) (now : Int) (rows : List DueRow)
    (st : TickState) : Except TickState TickState :=
  rows.foldlM (fun acc r => processTaskFaulty env faults now r acc) st

/-- One run of the `cron.schedule` callback when statements may throw: the
`try` block holds the whole loop, and the `catch` block logs the exception and
ends the run.  The value is the state the run leaves and whether it ended in
the `catch` block. -/
def runTickFaulty (env : Env) (faults : StoreFaults) (now : Int) (s : Store) : TickState × Bool :=
  match runRowsFaulty env faults now (taskDB.getDueTasks env now s) ⟨s, []⟩ with
  | .ok st => (st, false)
  | .error st => (st, true)

/-- No statement throws. -/
def noFaults : StoreFaults := fun _ _ => false

/-- What a part of the run that works on the fetched tasks with ids in `ids` may
have done between the states `st` and `st2`: the new adapter calls are for
those tasks, and the stored rows of all other tasks are still there. -/
def Frame (ids : List Nat) (st st2 : TickState) : Prop :=
  (∃ extra, st2.sent = st.sent ++ extra ∧ ∀ e ∈ extra, e.task_id ∈ ids) ∧
    ∀ x ∈ st.store.tasks, x.id ∉ ids → x ∈ st2.store.tasks

/-- The frame of a step that may throw: it holds for the state the step returns
and for the state in which it throws. -/
def Framed (ids : List Nat) (st : TickState) (res : Except TickState TickState) : Prop :=
  match res with
  | .ok st2 => Frame ids st st2
  | .error st2 => Frame ids st st2

/-- One step of a loop iteration: a round of adapter calls, or a statement that
changes the database. -/
inductive Step where
  | calls (l : List Send)
  | statement (m : Mutation) (f : Store → Store)

/-- The step when it does not throw. -/
def Step.run (x : Step) (st : TickState) : TickState :=
  match x with
  | .calls l => { st with sent := st.sent ++ l }
  | .statement _ f => { st with store := f st.store }

/-- Whether the step throws: adapter calls never do, a statement does when
`faults` says so. -/
def Step.throws (faults : StoreFaults) (taskId : Nat) (x : Step) : Bool :=
  match x with
  | .calls _ => false
  | .statement m _ => faults taskId m

/-- The steps of the loop body on the fetched row `r`, in source order. -/
def rowSteps (env : Env) (now : Int) (r : DueRow) : List Step :=
  if r.task.completed || snoozed now r.task then []
  else
    (if snoozeExpired now r.task then
      [Step.statement .snoozeReset (fun s => taskDB.update s r.task.id r.task.user_id
        ({ snoozed_until := some none, notified := some false, reminder_sent := some false }))]
      else []) ++
    ((if reminderDue env now r.task then
      [Step.calls (alertAll env r true .reminder),
       Step.statement .reminderMark
         (fun s => taskDB.update s r.task.id r.task.user_id ({ reminder_sent := some true }))]
      else []) ++
    ((if alertDue env now r.task then
      [Step.calls (alertAll env r false .due),
       Step.statement .dueMark (fun s => taskDB.update s r.task.id r.task.user_id
         ({ notified := some true, alert_count := some (r.task.alert_count.getD 0 + 1),
            last_alert_sent := some now }))] ++
      (if r.task.recurring ≠ some "none" then
        Step.statement .insertTask (fun s =>
          (taskDB.create s r.task.user_id
            { title := r.task.title
              description := r.task.description
              dueDate := calculateNextDate env r.task.due_date (r.task.recurring.getD "")
              dueTime := r.task.due_time
              recurring := r.task.recurring
              priority := some (strOr r.task.priority "medium")
              category := some (strOr r.task.category "general")
              reminderMinutes := r.task.reminder_minutes.getD 0
              notes := some (strOr r.task.notes "") } now).1) ::
          r.subtasks.enum.map fun p =>
            Step.statement (.insertSubtask p.1) (fun s => subtaskDB.add s s.task_seq p.2.text)
        else [])
      else []) ++
    (if escalationDue now r.task then
      [Step.calls (alertAll env r false .escalation),
       Step.statement .escalationMark (fun s => taskDB.update s r.task.id r.task.user_id
         ({ alert_count := some (r.task.alert_count.getD 0 + 1), last_alert_sent := some now }))]
      else [])))

/-- The steps in turn, up to the first one that throws. -/
def runSteps (faults : StoreFaults) (taskId : Nat) : List Step → TickState →
    Except TickState TickState
  | [], st => pure st
  | x :: rest, st =>
    if x.throws faults taskId then throw st else runSteps faults taskId rest (x.run st)

/-- The steps that come before the first one that throws. -/
def stepsDone (faults : StoreFaults) (taskId : Nat) (steps : List Step) : List Step :=
  steps.takeWhile fun x => !x.throws faults taskId

/-- What a statement of the loop body on the fetched task `i` may do to the
table of tasks: the counter does not go down, and a row of another task that is
stored afterwards was stored before or is new. -/
def Tame (i : Nat) (f : Store → Store) : Prop :=
  ∀ s, s.task_seq ≤ (f s).task_seq ∧
    ∀ y ∈ (f s).tasks, y.id ≠ i → y ∈ s.tasks ∨ s.task_seq < y.id

/-! ## The calendar of the specification

The claims about `calculateNextDate` speak of calendar dates, of the length of a
month and of the day after a date.  The definitions of this section state these
notions of the Gregorian calendar on their own; they are not taken from the
code, and the theorems compare `calculateNextDate` with them. -/

/-- Whether `y` is a leap year of the Gregorian calendar. -/
def isLeapYear (y : Int) : Bool :=
  decide (y % 4 = 0) && (decide (y % 100 ≠ 0) || decide (y % 400 = 0))

/-- The number of days of month `m` (1 .. 12) of year `y`. -/
def daysInMonth (y m : Int) : Int :=
  if m = 2 then (if isLeapYear y then 29 else 28)
  else if m = 4 ∨ m = 6 ∨ m = 9 ∨ m = 11 then 30
  else 31

/-- A date of the Gregorian calendar: month `1 .. 12`, day `1 ..` the length of
the month. -/
def ValidDate (y m d : Int) : Prop :=
  1 ≤ m ∧ m ≤ 12 ∧ 1 ≤ d ∧ d ≤ daysInMonth y m

instance (y m d : Int) : Decidable (ValidDate y m d) := by
  unfold ValidDate
  infer_instance

/-- The date after `(y, m, d)` in the calendar. -/
def nextDay (c : Int × Int × Int) : Int × Int × Int :=
  if c.2.2 < daysInMonth c.1 c.2.1 then (c.1, c.2.1, c.2.2 + 1)
  else if c.2.1 < 12 then (c.1, c.2.1 + 1, 1)
  else (c.1 + 1, 1, 1)

/-- The month after month `m` of year `y`, as `(year, month)`. -/
def followingMonth (y m : Int) : Int × Int :=
  if m < 12 then (y, m + 1) else (y + 1, 1)

/-- Day of the week of a day number, `0` for Sunday (1970-01-01 was a Thursday). -/
def dayOfWeek (z : Int) : Int := (z + 4) % 7

/-! ## The due filter of the specification

The filter that the specification gives for the due query, at a current date
and a current time of day that are passed in, and the two consistent readings
of "current": the local calendar date with the local time of day, the UTC date
with the UTC time of day.  These definitions are not taken from the code. -/

/-- The filter of the specification at the current date `today` and the current
time of day `time`: not completed, and due before `today`, or on `today` at
`time` or earlier. -/
def dueAt (today time : Int) (t : Task) : Bool :=
  !t.completed &&
    (decide (t.due_date < today) || (decide (t.due_date = today) && decide (t.due_time ≤ time)))

/-- The local calendar date at the instant `now`, as a day number. -/
def localDate (env : Env) (now : Int) : Int := (now + env.tzOffset * 60000) / 86400000

/-- The UTC time of day at the instant `now`, as a minute of the day. -/
def utcTime (now : Int) : Int := (now / 60000) % 1440

/-! ## Sample data -/

/-- A server whose local time is UTC, with both channel clients configured. -/
def utc : Env := { tzOffset := 0, twilioClient := true, telegramBot := true }

/-- A server whose local time is UTC+2, with both channel clients configured. -/
def berlin : Env := { tzOffset := 120, twilioClient := true, telegramBot := true }

/-- A server whose local time is UTC-7 all year, with both channel clients
configured. -/
def phoenix : Env := { tzOffset := -420, twilioClient := true, telegramBot := true }

/-- Europe/Berlin in 2024: UTC+1, and UTC+2 between 2024-03-31 01:00 UTC (local
clocks jump from 02:00 to 03:00) and 2024-10-27 01:00 UTC (local clocks go back
from 03:00 to 02:00). -/
def europeBerlin : Zone :=
  { offsetAtUtc := fun t =>
      if utcInstant 2024 3 31 1 0 ≤ t ∧ t < utcInstant 2024 10 27 1 0 then 120 else 60
    offsetAtLocal := fun l =>
      if utcInstant 2024 3 31 3 0 ≤ l ∧ l < utcInstant 2024 10 27 3 0 then 120 else 60 }

/-- A user with WhatsApp alerts enabled. -/
def alice : User :=
  { id := 1, phone_number := "+15550100", whatsapp_enabled := true, telegram_enabled := false,
    sms_enabled := false, whatsapp_number := some "+15550100", telegram_chat_id := none,
    sms_number := none }

/-- A fresh task of `alice`, due 2024-06-01 at 10:00, medium priority, not recurring. -/
def sampleTask : Task :=
  { id := 1, user_id := 1, title := "A", description := some "",
    due_date := daysFromCivil 2024 6 1, due_time := hhmm 10 0, recurring := some "none",
    priority := some "medium", category := some "general",
    reminder_minutes := some 0, notes := some "", snoozed_until := none, notified := false,
    reminder_sent := false, completed := false, alert_count := some 0, last_alert_sent := none,
    created_at := 0 }

/-- The store that holds `alice` and the single task `t`. -/
def storeOf (t : Task) : Store :=
  { users := [alice], tasks := [t], subtasks := [], task_seq := t.id, subtask_seq := 0 }

/-- A daily task first due on 2024-01-15 at 09:00 and never alerted. -/
def overdueDaily : Task :=
  { sampleTask with due_date := daysFromCivil 2024 1 15, due_time := hhmm 9 0, recurring := some "daily" }

/-- A notified high-priority task snoozed until 2024-06-01 11:00 UTC. -/
def snoozedTask : Task :=
  { sampleTask with
    priority := some "high", notified := true, alert_count := some 1,
    last_alert_sent := some (utcInstant 2024 6 1 10 0),
    snoozed_until := some (utcInstant 2024 6 1 11 0) }

/-- A task notified at its due time 10:00 and then snoozed until 10:30. -/
def expiredSnoozeTask : Task :=
  { sampleTask with
    notified := true, alert_count := some 1, last_alert_sent := some (utcInstant 2024 6 1 10 0),
    snoozed_until := some (utcInstant 2024 6 1 10 30) }

/-- A task due on 2024-05-31 at 23:00 and not yet notified. -/
def lateTask : Task :=
  { sampleTask with due_date := daysFromCivil 2024 5 31, due_time := hhmm 23 0 }

/-- Task A of the reminder scenario: due 2024-06-01 10:00, reminder 30 minutes
before. -/
def reminderTask : Task := { sampleTask with reminder_minutes := some 30 }

/-- A task due on 2024-06-02 at 09:00 with a reminder one hour before. -/
def futureTask : Task :=
  { sampleTask with due_date := daysFromCivil 2024 6 2, due_time := hhmm 9 0,
                    reminder_minutes := some 60 }

/-- A notified high-priority task that has already had five alerts, the last one
at 08:00. -/
def cappedTask : Task :=
  { sampleTask with
    priority := some "high", notified := true, alert_count := some 5,
    last_alert_sent := some (utcInstant 2024 6 1 8 0) }

/-- A notified high-priority task whose only alert went out at 10:00. -/
def escalatingTask : Task :=
  { sampleTask with
    priority := some "high", notified := true, alert_count := some 1,
    last_alert_sent := some (utcInstant 2024 6 1 10 0) }

/-- A high-priority task due on 2024-06-01 at 23:50 local time. -/
def nightTask : Task :=
  { sampleTask with due_time := hhmm 23 50, priority := some "high" }

/-- A daily task like `overdueDaily` whose category was saved empty. -/
def uncategorised : Task := { overdueDaily with category := some "" }

/-- A daily task like `overdueDaily` whose description, notes and priority were
set to `NULL` by `PUT /api/tasks/:id`. -/
def undescribed : Task :=
  { overdueDaily with description := none, notes := none, priority := none }

/-- The store that holds `alice`, the daily task `overdueDaily` and two subtasks
of it, the first one ticked off. -/
def chores : Store :=
  { users := [alice], tasks := [overdueDaily],
    subtasks := [{ id := 1, task_id := 1, text := "buy milk", completed := true },
                 { id := 2, task_id := 1, text := "call home", completed := false }],
    task_seq := 1, subtask_seq := 2 }

/-- A server whose local time is UTC-5 all year, with both channel clients
configured. -/
def bogota : Env := { tzOffset := -300, twilioClient := true, telegramBot := true }

/-- A task due on 2024-06-02 at 09:00 and not yet notified. -/
def nextMorningTask : Task :=
  { sampleTask with due_date := daysFromCivil 2024 6 2, due_time := hhmm 9 0 }

/-- A second task of `alice`, due like the sample task. -/
def secondTask : Task := { sampleTask with id := 2, title := "B" }

/-- The store that holds `alice` and her two tasks, both due 2024-06-01 10:00. -/
def twoTasks : Store :=
  { users := [alice], tasks := [sampleTask, secondTask], subtasks := [], task_seq := 2,
    subtask_seq := 0 }

/-- The `notified` mark of the due branch throws for task 1; nothing else does. -/
def dueMarkFailsFirst : StoreFaults :=
  fun taskId m => decide (taskId = 1) && decide (m = Mutation.dueMark)

/-- A third task of `alice`, due like the sample task. -/
def thirdTask : Task := { sampleTask with id := 3, title := "C" }

/-- The store that holds `alice` and her three tasks, all due 2024-06-01 10:00. -/
def threeTasks : Store :=
  { users := [alice], tasks := [sampleTask, secondTask, thirdTask], subtasks := [],
    task_seq := 3, subtask_seq := 0 }

/-- The `notified` mark of the due branch throws for task 2; nothing else does. -/
def dueMarkFailsSecond : StoreFaults :=
  fun taskId m => decide (taskId = 2) && decide (m = Mutation.dueMark)

/-- A task due 2024-06-01 10:00 that was snoozed until 09:45 before its alert
went out; its reminder had been sent. -/
def earlySnoozeTask : Task :=
  { sampleTask with snoozed_until := some (utcInstant 2024 6 1 9 45), reminder_sent := true }

/-- A task due on 2024-06-01 at 22:00 and not yet notified. -/
def eveningTask : Task := { sampleTask with due_time := hhmm 22 0 }

/-- A second user. -/
def bob : User :=
  { id := 2, phone_number := "+15550200", whatsapp_enabled := false, telegram_enabled := false,
    sms_enabled := false, whatsapp_number := none, telegram_chat_id := none, sms_number := none }

/-- A task of `bob`. -/
def bobTask : Task := { sampleTask with id := 2, user_id := 2, title := "B" }

/-- The store with `alice`, `bob`, one task of each and one subtask under each
task: subtask 1 under the task of `alice`, subtask 2 under the task of `bob`. -/
def sharedStore : Store :=
  { users := [alice, bob], tasks := [sampleTask, bobTask],
    subtasks := [{ id := 1, task_id := 1, text := "mine", completed := false },
                 { id := 2, task_id := 2, text := "his", completed := false }],
    task_seq := 2, subtask_seq := 2 }

/-! # Properties -/

/-! ## The tick, row by row -/

theorem foldl_add_tasks (l : List Subtask) (newId : Nat) (s : Store) :
    (l.foldl (fun acc subtask => subtaskDB.add acc newId subtask.text) s).tasks = s.tasks ∧
    (l.foldl (fun acc subtask => subtaskDB.add acc newId subtask.text) s).users = s.users ∧
    (l.foldl (fun acc subtask => subtaskDB.add acc newId subtask.text) s).task_seq = s.task_seq := by
  induction l generalizing s with
  | nil => simp
  | cons a l ih =>
    simp only [List.foldl_cons]
    have := ih (subtaskDB.add s newId a.text)
    simpa [subtaskDB.add] using this

theorem regenerate_tasks (env : Env) (now : Int) (r : DueRow) (s : Store) :
    (regenerate env now r s).tasks = s.tasks ++ [nextInstance env now r.task s.task_seq] := by
  simp [regenerate, (foldl_add_tasks _ _ _).1, taskDB.create, nextInstance]

theorem regenerate_users (env : Env) (now : Int) (r : DueRow) (s : Store) :
    (regenerate env now r s).users = s.users := by
  simp [regenerate, (foldl_add_tasks _ _ _).2.1, taskDB.create]

theorem regenerate_task_seq (env : Env) (now : Int) (r : DueRow) (s : Store) :
    (regenerate env now r s).task_seq = s.task_seq + 1 := by
  simp [regenerate, (foldl_add_tasks _ _ _).2.2, taskDB.create]

theorem alertDue_not_escalationDue {env : Env} {now : Int} {t : Task}
    (h : alertDue env now t = true) : escalationDue now t = false := by
  simp only [alertDue, Bool.and_eq_true, Bool.not_eq_true', decide_eq_true_eq] at h
  simp [escalationDue, h.1.1]

theorem onRow_id (a b : Nat) (f : Task → Task) (hf : ∀ x, (f x).id = x.id) (x : Task) :
    (onRow a b f x).id = x.id := by
  unfold onRow; split <;> simp [hf]

theorem apply_id (u : Updates) (x : Task) : (u.apply x).id = x.id := rfl

theorem apply_user_id (u : Updates) (x : Task) : (u.apply x).user_id = x.user_id := rfl

theorem processTask_sent (env : Env) (now : Int) (r : DueRow) (st : TickState) :
    (processTask env now r st).sent = st.sent ++ rowSends env now r := by
  unfold processTask rowSends escalationPhase duePhase reminderPhase snoozePhase
  by_cases h1 : r.task.completed = true <;> by_cases h2 : snoozed now r.task = true <;>
    by_cases h3 : snoozeExpired now r.task = true <;>
    by_cases h4 : reminderDue env now r.task = true <;>
    by_cases h5 : alertDue env now r.task = true <;>
    by_cases h6 : escalationDue now r.task = true <;>
    simp [h1, h2, h3, h4, h5, h6]

theorem processTask_users (env : Env) (now : Int) (r : DueRow) (st : TickState) :
    (processTask env now r st).store.users = st.store.users := by
  unfold processTask escalationPhase duePhase reminderPhase snoozePhase
  by_cases h1 : r.task.completed = true <;> by_cases h2 : snoozed now r.task = true <;>
    by_cases h3 : snoozeExpired now r.task = true <;>
    by_cases h4 : reminderDue env now r.task = true <;>
    by_cases h5 : alertDue env now r.task = true <;>
    by_cases h6 : escalationDue now r.task = true <;>
    by_cases h7 : r.task.recurring = some "none" <;>
    simp [h1, h2, h3, h4, h5, h6, h7, taskDB.update, regenerate_users]

theorem processTask_task_seq (env : Env) (now : Int) (r : DueRow) (st : TickState) :
    (processTask env now r st).store.task_seq =
      st.store.task_seq + (if regenerates env now r.task then 1 else 0) := by
  unfold processTask escalationPhase duePhase reminderPhase snoozePhase regenerates
  by_cases h1 : r.task.completed = true <;> by_cases h2 : snoozed now r.task = true <;>
    by_cases h3 : snoozeExpired now r.task = true <;>
    by_cases h4 : reminderDue env now r.task = true <;>
    by_cases h5 : alertDue env now r.task = true <;>
    by_cases h6 : escalationDue now r.task = true <;>
    by_cases h7 : r.task.recurring = some "none" <;>
    simp [h1, h2, h3, h4, h5, h6, h7, taskDB.update, regenerate_task_seq]

theorem onRow_self (a b : Nat) : onRow a b (fun x => x) = fun x => x := by
  funext x; unfold onRow; split <;> rfl

theorem processTask_tasks (env : Env) (now : Int) (r : DueRow) (st : TickState) :
    (processTask env now r st).store.tasks =
      st.store.tasks.map (onRow r.task.id r.task.user_id (netEffect env now r.task)) ++
        (if regenerates env now r.task then [nextInstance env now r.task st.store.task_seq]
          else []) := by
  unfold processTask escalationPhase duePhase reminderPhase snoozePhase regenerates netEffect
    rowWrites
  by_cases h1 : r.task.completed = true <;> by_cases h2 : snoozed now r.task = true <;>
    by_cases h3 : snoozeExpired now r.task = true <;>
    by_cases h4 : reminderDue env now r.task = true <;>
    by_cases h5 : alertDue env now r.task = true <;>
    by_cases h6 : escalationDue now r.task = true <;>
    by_cases h7 : r.task.recurring = some "none" <;>
    first
    | (simp_all [alertDue_not_escalationDue h5]; done)
    | (simp [h1, h2, h3, h4, h5, h6, h7, taskDB.update, regenerate_tasks, onRow_self]; done)
    | (simp [h1, h2, h3, h4, h5, h6, h7, taskDB.update, regenerate_tasks, onRow_self]
       intro x _
       unfold onRow
       split <;> simp_all [apply_id, apply_user_id])

theorem netEffect_id (env : Env) (now : Int) (t x : Task) : (netEffect env now t x).id = x.id := by
  unfold netEffect
  generalize rowWrites env now t = ws
  induction ws generalizing x with
  | nil => rfl
  | cons u ws ih => simp only [List.foldl_cons]; rw [ih]; rfl

theorem foldEffect_of_ne (env : Env) (now : Int) (rows : List DueRow) (x : Task)
    (h : ∀ r ∈ rows, r.task.id ≠ x.id) : foldEffect env now rows x = x := by
  unfold foldEffect
  induction rows generalizing x with
  | nil => rfl
  | cons r rs ih =>
    simp only [List.foldl_cons]
    have h1 : onRow r.task.id r.task.user_id (netEffect env now r.task) x = x := by
      unfold onRow
      have := h r (List.mem_cons_self _ _)
      simp [Ne.symm this]
    rw [h1]
    exact ih x (fun r' hr' => h r' (List.mem_cons_of_mem _ hr'))

theorem runRows_sent (env : Env) (now : Int) (rows : List DueRow) (st : TickState) :
    (runRows env now rows st).sent = st.sent ++ rows.flatMap (rowSends env now) := by
  unfold runRows
  induction rows generalizing st with
  | nil => simp
  | cons r rs ih =>
    simp only [List.foldl_cons, List.flatMap_cons]
    rw [ih, processTask_sent, List.append_assoc]

theorem runRows_users (env : Env) (now : Int) (rows : List DueRow) (st : TickState) :
    (runRows env now rows st).store.users = st.store.users := by
  unfold runRows
  induction rows generalizing st with
  | nil => simp
  | cons r rs ih =>
    simp only [List.foldl_cons]
    rw [ih, processTask_users]

theorem runRows_task_seq_le (env : Env) (now : Int) (rows : List DueRow) (st : TickState) :
    st.store.task_seq ≤ (runRows env now rows st).store.task_seq := by
  unfold runRows
  induction rows generalizing st with
  | nil => simp
  | cons r rs ih =>
    simp only [List.foldl_cons]
    refine le_trans ?_ (ih _)
    rw [processTask_task_seq]
    exact Nat.le_add_right _ _

theorem runRows_tasks (env : Env) (now : Int) (rows : List DueRow) (st : TickState)
    (hb : ∀ r ∈ rows, r.task.id ≤ st.store.task_seq) :
    ∃ extra, (runRows env now rows st).store.tasks =
        st.store.tasks.map (foldEffect env now rows) ++ extra ∧
      (∀ c ∈ extra, st.store.task_seq < c.id ∧
        c.id ≤ (runRows env now rows st).store.task_seq) ∧
      (extra.map fun c => c.id).Nodup := by
  induction rows generalizing st with
  | nil =>
    refine ⟨[], ?_, by simp, by simp⟩
    show st.store.tasks = List.map (fun x => x) st.store.tasks ++ []
    simp
  | cons r rs ih =>
    have hseq : st.store.task_seq ≤ (processTask env now r st).store.task_seq := by
      rw [processTask_task_seq]; exact Nat.le_add_right _ _
    obtain ⟨extra, h1, h2, h3⟩ := ih (processTask env now r st)
      (fun r' hr' => le_trans (hb r' (List.mem_cons_of_mem _ hr')) hseq)
    have hrun : runRows env now (r :: rs) st = runRows env now rs (processTask env now r st) := rfl
    have hfold : ∀ x, foldEffect env now (r :: rs) x =
        foldEffect env now rs (onRow r.task.id r.task.user_id (netEffect env now r.task) x) :=
      fun _ => rfl
    rw [hrun]
    by_cases hreg : regenerates env now r.task = true
    · have hc : foldEffect env now rs (nextInstance env now r.task st.store.task_seq) =
          nextInstance env now r.task st.store.task_seq := by
        apply foldEffect_of_ne
        intro r' hr'
        have := hb r' (List.mem_cons_of_mem _ hr')
        show r'.task.id ≠ st.store.task_seq + 1
        omega
      have hs1 : (processTask env now r st).store.task_seq = st.store.task_seq + 1 := by
        rw [processTask_task_seq]; simp [hreg]
      refine ⟨nextInstance env now r.task st.store.task_seq :: extra, ?_, ?_, ?_⟩
      · rw [h1, processTask_tasks]
        simp [hreg, hc, hfold, Function.comp_def]
      · intro c hc'
        rcases List.mem_cons.1 hc' with rfl | hc'
        · refine ⟨Nat.lt_succ_self _, ?_⟩
          refine le_trans ?_ (runRows_task_seq_le env now rs _)
          rw [hs1]; rfl
        · exact ⟨by have := (h2 c hc').1; omega, (h2 c hc').2⟩
      · simp only [List.map_cons, List.nodup_cons]
        refine ⟨?_, h3⟩
        intro hmem
        obtain ⟨c, hc', hid⟩ := List.mem_map.1 hmem
        have := (h2 c hc').1
        have hid2 : c.id = st.store.task_seq + 1 := hid
        omega
    · have hs1 : (processTask env now r st).store.task_seq = st.store.task_seq := by
        rw [processTask_task_seq]; simp [hreg]
      refine ⟨extra, ?_, ?_, h3⟩
      · rw [h1, processTask_tasks]
        simp [hreg, hfold, Function.comp_def]
      · intro c hc'
        exact ⟨by have := (h2 c hc').1; omega, (h2 c hc').2⟩

theorem joinRow_task {s : Store} {t : Task} {r : DueRow} (h : joinRow s t = some r) :
    r.task = t := by
  unfold joinRow at h
  cases hu : s.users.find? (fun u => u.id = t.user_id) with
  | none => simp [hu] at h
  | some u => simp [hu] at h; rw [← h]

theorem mem_getDueTasks {env : Env} {now : Int} {s : Store} {r : DueRow} :
    r ∈ taskDB.getDueTasks env now s ↔
      r.task ∈ s.tasks ∧ dueQuery env now r.task = true ∧ joinRow s r.task = some r := by
  unfold taskDB.getDueTasks
  rw [List.mem_filterMap]
  constructor
  · rintro ⟨t, ht, h⟩
    by_cases hq : dueQuery env now t = true
    · simp only [hq, if_true] at h
      have := joinRow_task h
      subst this
      exact ⟨ht, hq, h⟩
    · simp [hq] at h
  · rintro ⟨ht, hq, h⟩
    exact ⟨r.task, ht, by simp [hq, h]⟩

theorem foldEffect_filterMap (env : Env) (now : Int) (g : Task → Option DueRow)
    (hg : ∀ t r, g t = some r → r.task = t) (l : List Task)
    (hnd : (l.map fun t => t.id).Nodup) (x : Task) (hx : x ∈ l) :
    foldEffect env now (l.filterMap g) x =
      if (g x).isSome then netEffect env now x x else x := by
  induction l with
  | nil => cases hx
  | cons a l ih =>
    simp only [List.map_cons, List.nodup_cons] at hnd
    have hrest : ∀ y : Task, y.id = a.id → ∀ r ∈ l.filterMap g, r.task.id ≠ y.id := by
      intro y hy r hr
      obtain ⟨t, ht, hgt⟩ := List.mem_filterMap.1 hr
      rw [hg t r hgt, hy]
      intro heq
      exact hnd.1 (List.mem_map.2 ⟨t, ht, heq⟩)
    rcases List.mem_cons.1 hx with rfl | hx'
    · cases hga : g x with
      | none =>
        simp only [List.filterMap_cons, hga, Option.isSome_none, Bool.false_eq_true, if_false]
        exact foldEffect_of_ne env now _ x (hrest x rfl)
      | some r =>
        have hr := hg x r hga
        simp only [List.filterMap_cons, hga, Option.isSome_some, if_true]
        show foldEffect env now (l.filterMap g)
          (onRow r.task.id r.task.user_id (netEffect env now r.task) x) = _
        rw [hr]
        have h1 : onRow x.id x.user_id (netEffect env now x) x = netEffect env now x x := by
          simp [onRow]
        rw [h1]
        exact foldEffect_of_ne env now _ _ (hrest _ (netEffect_id env now x x))
    · have hne : x.id ≠ a.id := by
        intro heq
        exact hnd.1 (List.mem_map.2 ⟨x, hx', heq⟩)
      cases hga : g a with
      | none =>
        simp only [List.filterMap_cons, hga]
        exact ih hnd.2 hx'
      | some r =>
        have hr := hg a r hga
        simp only [List.filterMap_cons, hga]
        show foldEffect env now (l.filterMap g)
          (onRow r.task.id r.task.user_id (netEffect env now r.task) x) = _
        have h1 : onRow r.task.id r.task.user_id (netEffect env now r.task) x = x := by
          rw [hr]; simp [onRow, hne]
        rw [h1]
        exact ih hnd.2 hx'

theorem foldEffect_getDueTasks (env : Env) (now : Int) (s : Store)
    (hnd : (s.tasks.map fun t => t.id).Nodup) (x : Task) (hx : x ∈ s.tasks) :
    foldEffect env now (taskDB.getDueTasks env now s) x = tickTask env now s x := by
  unfold taskDB.getDueTasks
  rw [foldEffect_filterMap env now _ _ s.tasks hnd x hx]
  · unfold tickTask fetched
    by_cases hq : dueQuery env now x = true <;> simp [hq]
  · intro t r h
    by_cases hq : dueQuery env now t = true
    · simp only [hq, if_true] at h
      exact joinRow_task h
    · simp [hq] at h

/-- The task table after one run of the tick: every stored row is replaced by
its `tickTask`, and the rows inserted by the recurrence block follow, with fresh
ids. -/
theorem runTick_tasks (env : Env) (now : Int) (s : Store) (hwf : s.WF) :
    ∃ extra, (runTick env now s).store.tasks = s.tasks.map (tickTask env now s) ++ extra ∧
      (∀ c ∈ extra, s.task_seq < c.id ∧ c.id ≤ (runTick env now s).store.task_seq) ∧
      (extra.map fun c => c.id).Nodup := by
  obtain ⟨extra, h1, h2, h3⟩ := runRows_tasks env now (taskDB.getDueTasks env now s) ⟨s, []⟩
    (fun r hr => hwf.bound _ (mem_getDueTasks.1 hr).1)
  refine ⟨extra, ?_, h2, h3⟩
  show (runRows env now (taskDB.getDueTasks env now s) ⟨s, []⟩).store.tasks = _
  rw [h1]
  congr 1
  apply List.map_congr_left
  intro x hx
  exact foldEffect_getDueTasks env now s hwf.nodup x hx

theorem runTick_sent (env : Env) (now : Int) (s : Store) :
    (runTick env now s).sent = (taskDB.getDueTasks env now s).flatMap (rowSends env now) := by
  show (runRows env now (taskDB.getDueTasks env now s) ⟨s, []⟩).sent = _
  rw [runRows_sent]; rfl

theorem tickTask_id (env : Env) (now : Int) (s : Store) (t : Task) :
    (tickTask env now s t).id = t.id := by
  unfold tickTask; split
  · exact netEffect_id env now t t
  · rfl

/-- The primary key survives the tick. -/
theorem runTick_wf (env : Env) (now : Int) (s : Store) (hwf : s.WF) :
    (runTick env now s).store.WF := by
  obtain ⟨extra, h1, h2, h3⟩ := runTick_tasks env now s hwf
  have hseq : s.task_seq ≤ (runTick env now s).store.task_seq :=
    runRows_task_seq_le env now (taskDB.getDueTasks env now s) ⟨s, []⟩
  have hids : (s.tasks.map (tickTask env now s)).map (fun t => t.id) = s.tasks.map fun t => t.id := by
    rw [List.map_map]
    apply List.map_congr_left
    intro x _
    exact tickTask_id env now s x
  constructor
  · rw [h1, List.map_append, hids, List.nodup_append]
    refine ⟨hwf.nodup, h3, ?_⟩
    intro i hi1 hi2
    obtain ⟨t, ht, rfl⟩ := List.mem_map.1 hi1
    obtain ⟨c, hc, hid⟩ := List.mem_map.1 hi2
    have := (h2 c hc).1
    have := hwf.bound t ht
    omega
  · intro t ht
    rw [h1] at ht
    rcases List.mem_append.1 ht with ht | ht
    · obtain ⟨x, hx, rfl⟩ := List.mem_map.1 ht
      rw [tickTask_id]
      exact le_trans (hwf.bound x hx) hseq
    · exact (h2 t ht).2

theorem foldl_add_subtasks (l : List Subtask) (newId : Nat) (s : Store) :
    ∃ extra, (l.foldl (fun acc subtask => subtaskDB.add acc newId subtask.text) s).subtasks =
        s.subtasks ++ extra ∧ ∀ e ∈ extra, e.task_id = newId := by
  induction l generalizing s with
  | nil => exact ⟨[], by simp, by simp⟩
  | cons a l ih =>
    obtain ⟨extra, h1, h2⟩ := ih (subtaskDB.add s newId a.text)
    refine ⟨({ id := s.subtask_seq + 1, task_id := newId, text := a.text,
               completed := false } : Subtask) :: extra, ?_, ?_⟩
    · simp only [List.foldl_cons]
      rw [h1]
      simp [subtaskDB.add]
    · intro e he
      rcases List.mem_cons.1 he with rfl | he
      · rfl
      · exact h2 e he

theorem regenerate_subtasks (env : Env) (now : Int) (r : DueRow) (s : Store) :
    ∃ extra, (regenerate env now r s).subtasks = s.subtasks ++ extra ∧
      ∀ e ∈ extra, e.task_id = s.task_seq + 1 := by
  obtain ⟨extra, h1, h2⟩ := foldl_add_subtasks r.subtasks (s.task_seq + 1)
    (taskDB.create s r.task.user_id
      { title := r.task.title
        description := r.task.description
        dueDate := calculateNextDate env r.task.due_date (r.task.recurring.getD "")
        dueTime := r.task.due_time
        recurring := r.task.recurring
        priority := some (strOr r.task.priority "medium")
        category := some (strOr r.task.category "general")
        reminderMinutes := r.task.reminder_minutes.getD 0
        notes := some (strOr r.task.notes "") } now).1
  exact ⟨extra, h1, h2⟩

theorem processTask_subtasks (env : Env) (now : Int) (r : DueRow) (st : TickState) :
    ∃ extra, (processTask env now r st).store.subtasks = st.store.subtasks ++ extra ∧
      ∀ e ∈ extra, st.store.task_seq < e.task_id := by
  by_cases hreg : regenerates env now r.task = true
  · simp only [regenerates, Bool.and_eq_true, Bool.not_eq_true', decide_eq_true_eq] at hreg
    obtain ⟨⟨⟨h1, h2⟩, h5⟩, h7⟩ := hreg
    have h6 := alertDue_not_escalationDue h5
    obtain ⟨extra, he1, he2⟩ := regenerate_subtasks env now r
      (taskDB.update (reminderPhase env now r (snoozePhase now r st)).store r.task.id r.task.user_id
        ({ notified := some true, alert_count := some (r.task.alert_count.getD 0 + 1),
           last_alert_sent := some now }))
    refine ⟨extra, ?_, ?_⟩
    · have hsub : (reminderPhase env now r (snoozePhase now r st)).store.subtasks =
          st.store.subtasks := by
        unfold reminderPhase snoozePhase
        split <;> split <;> simp [taskDB.update]
      simp only [processTask, h1, h2, escalationPhase, h6, duePhase, h5, if_true, h7,
        Bool.false_eq_true, if_false, ne_eq, not_false_eq_true]
      rw [he1]
      simp [taskDB.update, hsub]
    · intro e he
      have hseq : (reminderPhase env now r (snoozePhase now r st)).store.task_seq =
          st.store.task_seq := by
        unfold reminderPhase snoozePhase
        split <;> split <;> simp [taskDB.update]
      have := he2 e he
      simp only [taskDB.update] at this
      omega
  · refine ⟨[], ?_, by simp⟩
    unfold regenerates at hreg
    unfold processTask escalationPhase duePhase reminderPhase snoozePhase
    by_cases h1 : r.task.completed = true <;> by_cases h2 : snoozed now r.task = true <;>
      by_cases h3 : snoozeExpired now r.task = true <;>
      by_cases h4 : reminderDue env now r.task = true <;>
      by_cases h5 : alertDue env now r.task = true <;>
      by_cases h6 : escalationDue now r.task = true <;>
      by_cases h7 : r.task.recurring = some "none" <;>
      simp_all [taskDB.update]

theorem runRows_subtasks (env : Env) (now : Int) (rows : List DueRow) (st : TickState) :
    ∃ extra, (runRows env now rows st).store.subtasks = st.store.subtasks ++ extra ∧
      ∀ e ∈ extra, st.store.task_seq < e.task_id := by
  induction rows generalizing st with
  | nil => exact ⟨[], by simp [runRows], by simp⟩
  | cons r rs ih =>
    obtain ⟨e1, h1, h2⟩ := processTask_subtasks env now r st
    obtain ⟨e2, h3, h4⟩ := ih (processTask env now r st)
    have hseq : st.store.task_seq ≤ (processTask env now r st).store.task_seq := by
      rw [processTask_task_seq]; exact Nat.le_add_right _ _
    refine ⟨e1 ++ e2, ?_, ?_⟩
    · show (runRows env now rs (processTask env now r st)).store.subtasks = _
      rw [h3, h1, List.append_assoc]
    · intro e he
      rcases List.mem_append.1 he with he | he
      · exact h2 e he
      · exact lt_of_le_of_lt hseq (h4 e he)

/-- After the tick the row stored under the id of `t` is `tickTask t`. -/
theorem runTick_row (env : Env) (now : Int) (s : Store) (hwf : s.WF) (t : Task)
    (ht : t ∈ s.tasks) :
    tickTask env now s t ∈ (runTick env now s).store.tasks ∧
      ∀ y ∈ (runTick env now s).store.tasks, y.id = t.id → y = tickTask env now s t := by
  obtain ⟨extra, h1, h2, _⟩ := runTick_tasks env now s hwf
  rw [h1]
  refine ⟨List.mem_append_left _ (List.mem_map_of_mem _ ht), ?_⟩
  intro y hy hid
  rcases List.mem_append.1 hy with hy | hy
  · obtain ⟨x, hx, rfl⟩ := List.mem_map.1 hy
    rw [tickTask_id] at hid
    have hxt : x = t := by
      have hinj := List.inj_on_of_nodup_map hwf.nodup
      exact hinj hx ht hid
    rw [hxt]
  · have := (h2 y hy).1
    have := hwf.bound t ht
    omega

theorem alertAll_task_id (env : Env) (r : DueRow) (b : Bool) (ph : Phase) :
    ∀ e ∈ alertAll env r b ph, e.task_id = r.task.id ∧ e.isReminder = b ∧ e.phase = ph := by
  intro e he
  simp only [alertAll, List.mem_cons, List.mem_singleton, List.not_mem_nil, or_false] at he
  rcases he with rfl | rfl | rfl <;> exact ⟨rfl, rfl, rfl⟩

theorem rowSends_task_id (env : Env) (now : Int) (r : DueRow) :
    ∀ e ∈ rowSends env now r, e.task_id = r.task.id := by
  intro e he
  unfold rowSends at he
  split at he
  · cases he
  · simp only [List.mem_append] at he
    rcases he with (he | he) | he <;> split at he <;>
      first
      | exact (alertAll_task_id env r _ _ e he).1
      | cases he

theorem mem_rowSends {env : Env} {now : Int} {r : DueRow} {e : Send}
    (he : e ∈ rowSends env now r) :
    r.task.completed = false ∧ snoozed now r.task = false ∧
      ((e.phase = Phase.reminder ∧ e.isReminder = true ∧ reminderDue env now r.task = true) ∨
        (e.phase = Phase.due ∧ e.isReminder = false ∧ alertDue env now r.task = true) ∨
        (e.phase = Phase.escalation ∧ e.isReminder = false ∧
          escalationDue now r.task = true)) := by
  by_cases hc : (r.task.completed || snoozed now r.task) = true
  · simp [rowSends, hc] at he
  · have hc2 : r.task.completed = false ∧ snoozed now r.task = false := by simpa using hc
    refine ⟨hc2.1, hc2.2, ?_⟩
    unfold rowSends at he
    rw [if_neg hc, List.mem_append, List.mem_append] at he
    rcases he with (he | he) | he
    · by_cases h : reminderDue env now r.task = true
      · rw [if_pos h] at he
        obtain ⟨_, hb, hp⟩ := alertAll_task_id env r _ _ e he
        exact Or.inl ⟨hp, hb, h⟩
      · rw [if_neg h] at he; cases he
    · by_cases h : alertDue env now r.task = true
      · rw [if_pos h] at he
        obtain ⟨_, hb, hp⟩ := alertAll_task_id env r _ _ e he
        exact Or.inr (Or.inl ⟨hp, hb, h⟩)
      · rw [if_neg h] at he; cases he
    · by_cases h : escalationDue now r.task = true
      · rw [if_pos h] at he
        obtain ⟨_, hb, hp⟩ := alertAll_task_id env r _ _ e he
        exact Or.inr (Or.inr ⟨hp, hb, h⟩)
      · rw [if_neg h] at he; cases he

theorem rowSends_phase_mem (env : Env) (now : Int) (r : DueRow) (ph : Phase)
    (hc : r.task.completed = false) (hs : snoozed now r.task = false)
    (hph : match ph with
      | Phase.reminder => reminderDue env now r.task = true
      | Phase.due => alertDue env now r.task = true
      | Phase.escalation => escalationDue now r.task = true) :
    ∃ e ∈ rowSends env now r, e.task_id = r.task.id ∧ e.phase = ph := by
  refine ⟨{ channel := Channel.whatsapp, task_id := r.task.id,
            isReminder := decide (ph = Phase.reminder), phase := ph,
            contacted := contactsClient env r.user Channel.whatsapp }, ?_, rfl, rfl⟩
  unfold rowSends
  cases ph <;> simp only at hph <;> simp [hc, hs, hph, alertAll]

/-- The adapter calls of the tick for the stored task `t` are those of the loop
iteration on the row fetched for `t`. -/
theorem runTick_sent_task (env : Env) (now : Int) (s : Store) (hwf : s.WF) (t : Task)
    (ht : t ∈ s.tasks) (e : Send) :
    (e ∈ (runTick env now s).sent ∧ e.task_id = t.id) ↔
      ∃ r, dueQuery env now t = true ∧ joinRow s t = some r ∧ e ∈ rowSends env now r := by
  rw [runTick_sent, List.mem_flatMap]
  constructor
  · rintro ⟨⟨r, hr, he⟩, hid⟩
    obtain ⟨hr1, hr2, hr3⟩ := mem_getDueTasks.1 hr
    have hrt : r.task = t := by
      have hinj := List.inj_on_of_nodup_map hwf.nodup
      exact hinj hr1 ht ((rowSends_task_id env now r e he).symm.trans hid)
    rw [hrt] at hr2 hr3
    exact ⟨r, hr2, hr3, he⟩
  · rintro ⟨r, hq, hj, he⟩
    have hrt := joinRow_task hj
    refine ⟨⟨r, mem_getDueTasks.2 ⟨?_, ?_, ?_⟩, he⟩, ?_⟩
    · rw [hrt]; exact ht
    · rw [hrt]; exact hq
    · rw [hrt]; exact hj
    · rw [rowSends_task_id env now r e he, hrt]

theorem runTick_subtasks (env : Env) (now : Int) (s : Store) :
    ∃ extra, (runTick env now s).store.subtasks = s.subtasks ++ extra ∧
      ∀ e ∈ extra, s.task_seq < e.task_id :=
  runRows_subtasks env now (taskDB.getDueTasks env now s) ⟨s, []⟩

theorem snoozed_of_some {now u : Int} {t : Task} (hs : t.snoozed_until = some u) (hu : now < u) :
    snoozed now t = true := by
  simp [snoozed, hs, hu]

/-- C2: a task whose `snoozed_until` is present and strictly later than `now`
gets no adapter call at all from the tick (no reminder, due or escalation call),
its stored row is the same after the tick as before, and so is its list of
subtasks, whatever its other fields are. -/
theorem snoozed_task_untouched (env : Env) (now : Int) (s : Store) (hwf : s.WF) (t : Task)
    (ht : t ∈ s.tasks) (u : Int) (hs : t.snoozed_until = some u) (hu : now < u) :
    (∀ e ∈ (runTick env now s).sent, e.task_id ≠ t.id) ∧
      t ∈ (runTick env now s).store.tasks ∧
      (∀ y ∈ (runTick env now s).store.tasks, y.id = t.id → y = t) ∧
      (runTick env now s).store.subtasks.filter (fun x => x.task_id = t.id) =
        s.subtasks.filter (fun x => x.task_id = t.id) := by
  have hsn := snoozed_of_some hs hu
  have htick : tickTask env now s t = t := by
    unfold tickTask netEffect rowWrites
    simp [hsn]
  obtain ⟨h1, h2⟩ := runTick_row env now s hwf t ht
  rw [htick] at h1 h2
  refine ⟨?_, h1, h2, ?_⟩
  · intro e he hid
    obtain ⟨r, _, hj, hr⟩ := (runTick_sent_task env now s hwf t ht e).1 ⟨he, hid⟩
    have hrt := joinRow_task hj
    simp [rowSends, hrt, hsn] at hr
  · obtain ⟨extra, h3, h4⟩ := runTick_subtasks env now s
    rw [h3, List.filter_append]
    have : extra.filter (fun x => x.task_id = t.id) = [] := by
      rw [List.filter_eq_nil_iff]
      intro e he
      have := h4 e he
      have := hwf.bound t ht
      simp only [decide_eq_true_eq]
      omega
    rw [this, List.append_nil]

theorem escalationDue_iff (now : Int) (t : Task) :
    escalationDue now t = true ↔
      t.notified = true ∧ t.priority = some "high" ∧ t.completed = false ∧
        ∃ lastAlert, t.last_alert_sent = some lastAlert ∧ lastAlert + 30 * 60000 ≤ now ∧
          t.alert_count.getD 0 < 5 := by
  unfold escalationDue
  cases hl : t.last_alert_sent with
  | none => simp
  | some l =>
    simp only [Bool.and_eq_true, decide_eq_true_eq, Bool.not_eq_true', Option.some.injEq,
      exists_eq_left']
    constructor
    · rintro ⟨⟨⟨h1, h2⟩, h3⟩, h4, h5⟩
      exact ⟨h1, h2, h3, by omega, h5⟩
    · rintro ⟨h1, h2, h3, h4, h5⟩
      exact ⟨⟨⟨h1, h2⟩, h3⟩, by omega, h5⟩

theorem escalationDue_false_of_cap {now : Int} {t : Task} {c : Int}
    (hc : t.alert_count = some c) (h5 : 5 ≤ c) : escalationDue now t = false := by
  cases h : escalationDue now t with
  | false => rfl
  | true =>
    obtain ⟨_, _, _, l, _, _, hlt⟩ := (escalationDue_iff now t).1 h
    rw [hc] at hlt
    simp only [Option.getD_some] at hlt
    omega

/-- C8: for a task whose `alert_count` is 5 or more, no tick makes an escalation
call for it, whatever `now`, `last_alert_sent` and `priority` are, and the
escalation branch, run on the row fetched for it, leaves the whole state (so
its `alert_count` and `last_alert_sent`) as it found it. -/
theorem escalation_cap (env : Env) (now : Int) (s : Store) (hwf : s.WF) (t : Task)
    (ht : t ∈ s.tasks) (c : Int) (hc : t.alert_count = some c) (h5 : 5 ≤ c) :
    (∀ e ∈ (runTick env now s).sent, e.task_id = t.id → e.phase ≠ Phase.escalation) ∧
      (∀ (r : DueRow) (st : TickState), r.task = t → escalationPhase env now r st = st) ∧
      (t.notified = true → ∀ y ∈ (runTick env now s).store.tasks, y.id = t.id →
        y.alert_count = t.alert_count ∧ y.last_alert_sent = t.last_alert_sent) := by
  have hesc : escalationDue now t = false := escalationDue_false_of_cap hc h5
  refine ⟨?_, ?_, ?_⟩
  rotate_left 2
  · intro hn y hy hid
    rw [(runTick_row env now s hwf t ht).2 y hy hid]
    have hdue : alertDue env now t = false := by simp [alertDue, hn]
    unfold tickTask netEffect rowWrites
    by_cases h0 : fetched env now s t = true <;>
      by_cases h1 : t.completed = true <;> by_cases h2 : snoozed now t = true <;>
      by_cases h3 : snoozeExpired now t = true <;>
      by_cases h4 : reminderDue env now t = true <;>
      simp [h0, h1, h2, h3, h4, hdue, hesc, Updates.apply]
  · intro e he hid hph
    obtain ⟨r, _, hj, hr⟩ := (runTick_sent_task env now s hwf t ht e).1 ⟨he, hid⟩
    have hrt := joinRow_task hj
    obtain ⟨_, _, h | h | h⟩ := mem_rowSends hr
    · rw [h.1] at hph; cases hph
    · rw [h.1] at hph; cases hph
    · rw [hrt, hesc] at h; cases h.2.2
  · intro r st hrt
    unfold escalationPhase
    rw [hrt, hesc]
    simp

/-- C9: for a task that the tick fetches and that is not snoozed, the tick makes
an escalation call for it if and only if the fetched row is notified, has
priority `high`, is not completed, has a `last_alert_sent` at least 30 minutes
before `now` (30 minutes exactly counts) and has `alert_count < 5`; every
escalation call has `isReminder = false`; when the escalation fires the row is
stored with `alert_count + 1` and `last_alert_sent = now`, and the escalation
branch writes these two columns of that row and nothing else. -/
theorem escalation_transition (env : Env) (now : Int) (s : Store) (hwf : s.WF) (t : Task)
    (ht : t ∈ s.tasks) (hf : fetched env now s t = true) (hns : snoozed now t = false) :
    ((∃ e ∈ (runTick env now s).sent, e.task_id = t.id ∧ e.phase = Phase.escalation) ↔
        (t.notified = true ∧ t.priority = some "high" ∧ t.completed = false ∧
          ∃ lastAlert, t.last_alert_sent = some lastAlert ∧ lastAlert + 30 * 60000 ≤ now ∧
            t.alert_count.getD 0 < 5)) ∧
      (∀ e ∈ (runTick env now s).sent, e.task_id = t.id → e.phase = Phase.escalation →
        e.isReminder = false) ∧
      (escalationDue now t = true →
        ∀ y ∈ (runTick env now s).store.tasks, y.id = t.id →
          y.alert_count = some (t.alert_count.getD 0 + 1) ∧ y.last_alert_sent = some now) ∧
      (∀ (r : DueRow) (st : TickState), r.task = t → escalationDue now t = true →
        escalationPhase env now r st =
          { store :=
              { st.store with
                tasks := st.store.tasks.map (onRow t.id t.user_id fun x =>
                  { x with
                    alert_count := some (t.alert_count.getD 0 + 1)
                    last_alert_sent := some now }) }
            sent := st.sent ++ alertAll env r false Phase.escalation }) ∧
      (∀ (r : DueRow) (st : TickState), r.task = t → escalationDue now t = false →
        escalationPhase env now r st = st) := by
  have hfq : dueQuery env now t = true := by
    simp only [fetched, Bool.and_eq_true] at hf; exact hf.1
  have hcomp : t.completed = false := by
    simp only [dueQuery, Bool.and_eq_true, Bool.not_eq_true'] at hfq; exact hfq.1
  obtain ⟨r0, hj0⟩ : ∃ r, joinRow s t = some r := by
    simp only [fetched, Bool.and_eq_true] at hf
    exact Option.isSome_iff_exists.1 hf.2
  have hr0 := joinRow_task hj0
  have hsends : ∀ e, (e ∈ (runTick env now s).sent ∧ e.task_id = t.id) ↔
      e ∈ rowSends env now r0 := by
    intro e
    rw [runTick_sent_task env now s hwf t ht e]
    constructor
    · rintro ⟨r, _, hj, he⟩
      rw [hj0] at hj; cases hj; exact he
    · intro he; exact ⟨r0, hfq, hj0, he⟩
  have hns0 : snoozed now r0.task = false := by rw [hr0]; exact hns
  have hcomp0 : r0.task.completed = false := by rw [hr0]; exact hcomp
  refine ⟨?_, ?_, ?_, ?_, ?_⟩
  · rw [← escalationDue_iff]
    constructor
    · rintro ⟨e, he, hid, hph⟩
      obtain ⟨_, _, h | h | h⟩ := mem_rowSends ((hsends e).1 ⟨he, hid⟩)
      · rw [h.1] at hph; cases hph
      · rw [h.1] at hph; cases hph
      · rw [← hr0]; exact h.2.2
    · intro hesc
      obtain ⟨e, he, hid, hph⟩ := rowSends_phase_mem env now r0 Phase.escalation hcomp0 hns0
        (by rw [hr0]; exact hesc)
      exact ⟨e, ((hsends e).2 he).1, by rw [hid, hr0], hph⟩
  · intro e he hid hph
    obtain ⟨_, _, h | h | h⟩ := mem_rowSends ((hsends e).1 ⟨he, hid⟩)
    · rw [h.1] at hph; cases hph
    · exact h.2.1
    · exact h.2.1
  · intro hesc y hy hid
    rw [(runTick_row env now s hwf t ht).2 y hy hid]
    have hdue : alertDue env now t = false := by
      cases h : alertDue env now t with
      | false => rfl
      | true => rw [alertDue_not_escalationDue h] at hesc; cases hesc
    unfold tickTask netEffect rowWrites
    by_cases h3 : snoozeExpired now t = true <;>
      by_cases h4 : reminderDue env now t = true <;>
      simp [hf, hcomp, hns, h3, h4, hdue, hesc, Updates.apply]
  · intro r st hrt hesc
    unfold escalationPhase
    rw [hrt, hesc]
    simp only [if_true, taskDB.update]
    rfl
  · intro r st hrt hesc
    unfold escalationPhase
    rw [hrt, hesc]
    simp

theorem fetched_iff {env : Env} {now : Int} {s : Store} {t : Task} :
    fetched env now s t = true ↔ dueQuery env now t = true ∧ ∃ r, joinRow s t = some r := by
  simp [fetched, Option.isSome_iff_exists]

theorem not_completed_of_dueQuery {env : Env} {now : Int} {t : Task}
    (h : dueQuery env now t = true) : t.completed = false := by
  simp only [dueQuery, Bool.and_eq_true, Bool.not_eq_true'] at h; exact h.1

theorem runTick_sent_fetched (env : Env) (now : Int) (s : Store) (hwf : s.WF) (t : Task)
    (ht : t ∈ s.tasks) (r : DueRow) (hq : dueQuery env now t = true) (hj : joinRow s t = some r)
    (e : Send) : (e ∈ (runTick env now s).sent ∧ e.task_id = t.id) ↔ e ∈ rowSends env now r := by
  rw [runTick_sent_task env now s hwf t ht e]
  constructor
  · rintro ⟨r1, _, hj1, he⟩
    rw [hj] at hj1; cases hj1; exact he
  · intro he; exact ⟨r, hq, hj, he⟩

theorem getDueTasks_ids_nodup (env : Env) (now : Int) (s : Store) (hwf : s.WF) :
    ((taskDB.getDueTasks env now s).map fun r => r.task.id).Nodup := by
  have hsub : ∀ l : List Task,
      ((l.filterMap fun t => if dueQuery env now t then joinRow s t else none).map
        fun r => r.task.id).Sublist (l.map fun t => t.id) := by
    intro l
    induction l with
    | nil => exact List.Sublist.refl _
    | cons a l ih =>
      rw [List.filterMap_cons]
      cases hg : (if dueQuery env now a then joinRow s a else none) with
      | none => exact List.Sublist.cons _ ih
      | some r =>
        have hrt : r.task = a := by
          by_cases hq : dueQuery env now a = true
          · rw [if_pos hq] at hg; exact joinRow_task hg
          · rw [if_neg hq] at hg; cases hg
        simp only [List.map_cons, hrt]
        exact List.Sublist.cons₂ _ ih
  exact List.Nodup.sublist (hsub s.tasks) hwf.nodup

theorem runRows_keeps_row (env : Env) (now : Int) (s : Store) (hwf : s.WF) (pre post : List DueRow)
    (r : DueRow) (hrows : taskDB.getDueTasks env now s = pre ++ r :: post) :
    r.task ∈ (runRows env now pre ⟨s, []⟩).store.tasks := by
  have hmem : ∀ q ∈ pre, q ∈ taskDB.getDueTasks env now s := by
    intro q hq; rw [hrows]; exact List.mem_append_left _ hq
  have hr : r ∈ taskDB.getDueTasks env now s := by
    rw [hrows]; exact List.mem_append_right _ (List.mem_cons_self _ _)
  have hnd := getDueTasks_ids_nodup env now s hwf
  rw [hrows, List.map_append, List.map_cons] at hnd
  have hne : ∀ q ∈ pre, q.task.id ≠ r.task.id := by
    intro q hq hid
    have h1 := (List.nodup_append.1 hnd).2.2
    exact h1 (List.mem_map_of_mem (fun r => r.task.id) hq)
      (by rw [hid]; exact List.mem_cons_self _ _)
  obtain ⟨extra, e1, _, _⟩ := runRows_tasks env now pre ⟨s, []⟩
    (fun q hq => hwf.bound _ (mem_getDueTasks.1 (hmem q hq)).1)
  rw [e1]
  apply List.mem_append_left
  exact List.mem_map.2 ⟨r.task, (mem_getDueTasks.1 hr).1, foldEffect_of_ne env now pre r.task hne⟩

theorem mem_update {s : Store} {x : Task} (a b : Nat) (h : x ∈ s.tasks) (hid : x.id = a)
    (hu : x.user_id = b) (u : Updates) : u.apply x ∈ (taskDB.update s a b u).tasks := by
  unfold taskDB.update
  refine List.mem_map.2 ⟨x, h, ?_⟩
  simp [onRow, hid, hu]

/-- C5: for a task that the tick fetches, that is not snoozed at `now` (it has
no snooze, or its snooze has expired) and on which the due branch fires.  The
branch, from whatever state the run is in, writes `notified = true`,
`alert_count` = the fetched count (`NULL` taken as 0) plus 1 and
`last_alert_sent = now` on the row of the task, changes no other column of it
and no other existing row (a row it adds is a new one, the next instance of a
recurring task), leaves `users` alone, and makes the three adapter calls with
`isReminder = false`.  In the run, the row of the task stored at the end is the
row that was stored when the branch was entered, with exactly these three
columns set: `completed`, the due date and time, `reminder_sent` and every other
column are as the branch found them, and the count at entry is the fetched one.
After the run the row has the three values, and the columns that no branch
writes are as fetched; the run makes a due call for the task, and every due call
for it has `isReminder = false`. -/
theorem due_transition_effect (env : Env) (now : Int) (s : Store) (hwf : s.WF) (t : Task)
    (ht : t ∈ s.tasks) (hf : fetched env now s t = true) (hsn : snoozed now t = false)
    (hdue : alertDue env now t = true) :
    (∀ y ∈ (runTick env now s).store.tasks, y.id = t.id →
        y.notified = true ∧ y.alert_count = some (t.alert_count.getD 0 + 1) ∧
        y.last_alert_sent = some now ∧ y.completed = t.completed ∧
        y.due_date = t.due_date ∧ y.due_time = t.due_time ∧ y.user_id = t.user_id ∧
        y.title = t.title ∧ y.description = t.description ∧ y.recurring = t.recurring ∧
        y.priority = t.priority ∧ y.category = t.category ∧
        y.reminder_minutes = t.reminder_minutes ∧ y.notes = t.notes ∧
        y.created_at = t.created_at) ∧
      (∃ y ∈ (runTick env now s).store.tasks, y.id = t.id) ∧
      (∃ pre r post, taskDB.getDueTasks env now s = pre ++ r :: post ∧ r.task = t ∧
        ∃ before ∈ (reminderPhase env now r
            (snoozePhase now r (runRows env now pre ⟨s, []⟩))).store.tasks,
          before.id = t.id ∧ before.alert_count = t.alert_count ∧
          ∀ y ∈ (runTick env now s).store.tasks, y.id = t.id →
            y = { before with
                  notified := true
                  alert_count := some (t.alert_count.getD 0 + 1)
                  last_alert_sent := some now }) ∧
      (∃ e ∈ (runTick env now s).sent, e.task_id = t.id ∧ e.phase = Phase.due) ∧
      (∀ e ∈ (runTick env now s).sent, e.task_id = t.id → e.phase = Phase.due →
        e.isReminder = false) ∧
      (∀ (r : DueRow) (st : TickState), r.task = t →
        ∃ created,
          (duePhase env now r st).store.tasks =
              st.store.tasks.map (onRow t.id t.user_id fun x =>
                { x with
                  notified := true
                  alert_count := some (t.alert_count.getD 0 + 1)
                  last_alert_sent := some now }) ++ created ∧
            (t.recurring = some "none" → created = []) ∧
            (∀ c ∈ created, st.store.task_seq < c.id) ∧
            (duePhase env now r st).store.users = st.store.users ∧
            (duePhase env now r st).sent = st.sent ++ alertAll env r false Phase.due) := by
  obtain ⟨hfq, r0, hj0⟩ := fetched_iff.1 hf
  have hcomp := not_completed_of_dueQuery hfq
  have hr0 := joinRow_task hj0
  have hesc := alertDue_not_escalationDue hdue
  have hsends := runTick_sent_fetched env now s hwf t ht r0 hfq hj0
  have hrow := (runTick_row env now s hwf t ht).2
  refine ⟨?_, ?_, ?_, ?_, ?_, ?_⟩
  · intro y hy hid
    rw [hrow y hy hid]
    unfold tickTask netEffect rowWrites
    by_cases h3 : snoozeExpired now t = true <;> by_cases h4 : reminderDue env now t = true <;>
      simp [hf, hcomp, hsn, h3, h4, hdue, hesc, Updates.apply]
  · exact ⟨_, (runTick_row env now s hwf t ht).1, tickTask_id env now s t⟩
  · have hmem : r0 ∈ taskDB.getDueTasks env now s :=
      mem_getDueTasks.2 ⟨by rw [hr0]; exact ht, by rw [hr0]; exact hfq, by rw [hr0]; exact hj0⟩
    obtain ⟨pre, post, hsplit⟩ := List.append_of_mem hmem
    have hkeep := runRows_keeps_row env now s hwf pre post r0 hsplit
    rw [hr0] at hkeep
    refine ⟨pre, r0, post, hsplit, hr0, ?_⟩
    unfold reminderPhase snoozePhase
    rw [hr0]
    by_cases h3 : snoozeExpired now t = true <;> by_cases h4 : reminderDue env now t = true
    · refine ⟨Updates.apply ({ reminder_sent := some true })
          (Updates.apply ({ snoozed_until := some none, notified := some false,
                            reminder_sent := some false }) t), ?_, rfl, rfl, ?_⟩
      · simp only [h3, h4, if_true]
        exact mem_update _ _ (mem_update _ _ hkeep rfl rfl _) rfl rfl _
      · intro y hy hid
        rw [hrow y hy hid]
        unfold tickTask netEffect rowWrites
        simp [hf, hcomp, hsn, h3, h4, hdue, hesc, Updates.apply]
    · refine ⟨Updates.apply ({ snoozed_until := some none, notified := some false,
                               reminder_sent := some false }) t, ?_, rfl, rfl, ?_⟩
      · simp only [h3, h4, if_true]
        exact mem_update _ _ hkeep rfl rfl _
      · intro y hy hid
        rw [hrow y hy hid]
        unfold tickTask netEffect rowWrites
        simp [hf, hcomp, hsn, h3, h4, hdue, hesc, Updates.apply]
    · refine ⟨Updates.apply ({ reminder_sent := some true }) t, ?_, rfl, rfl, ?_⟩
      · simp only [h3, h4, if_true]
        exact mem_update _ _ hkeep rfl rfl _
      · intro y hy hid
        rw [hrow y hy hid]
        unfold tickTask netEffect rowWrites
        simp [hf, hcomp, hsn, h3, h4, hdue, hesc, Updates.apply]
    · refine ⟨t, ?_, rfl, rfl, ?_⟩
      · simp only [h3, h4]
        exact hkeep
      · intro y hy hid
        rw [hrow y hy hid]
        unfold tickTask netEffect rowWrites
        simp [hf, hcomp, hsn, h3, h4, hdue, hesc, Updates.apply]
  · obtain ⟨e, he, hid, hph⟩ := rowSends_phase_mem env now r0 Phase.due
      (by rw [hr0]; exact hcomp) (by rw [hr0]; exact hsn) (by rw [hr0]; exact hdue)
    exact ⟨e, ((hsends e).2 he).1, by rw [hid, hr0], hph⟩
  · intro e he hid hph
    obtain ⟨_, _, h | h | h⟩ := mem_rowSends ((hsends e).1 ⟨he, hid⟩)
    · rw [h.1] at hph; cases hph
    · exact h.2.1
    · exact h.2.1
  · intro r st hrt
    by_cases hrec : t.recurring = some "none"
    · refine ⟨[], ?_, fun _ => rfl, by simp, ?_, ?_⟩
      · unfold duePhase
        rw [hrt]
        simp only [hdue, if_true, hrec, ne_eq, not_true_eq_false, if_false, taskDB.update,
          List.append_nil]
        rfl
      · unfold duePhase
        rw [hrt]
        simp [hdue, hrec, taskDB.update]
      · unfold duePhase
        rw [hrt]
        simp [hdue]
    · refine ⟨[nextInstance env now r.task st.store.task_seq], ?_, fun h => absurd h hrec, ?_,
        ?_, ?_⟩
      · unfold duePhase
        rw [hrt]
        simp only [hdue, if_true, hrec, ne_eq, not_false_eq_true, regenerate_tasks, taskDB.update]
        rw [hrt]
        rfl
      · intro c hc
        rw [List.mem_singleton.1 hc]
        exact Nat.lt_succ_self _
      · unfold duePhase
        rw [hrt]
        simp [hdue, hrec, taskDB.update, regenerate_users]
      · unfold duePhase
        rw [hrt]
        simp [hdue]

/-! ## Runs that change nothing -/

theorem processTask_of_quiet {env : Env} {now : Int} {r : DueRow} (st : TickState)
    (h : quiet env now r.task = true) : processTask env now r st = st := by
  unfold quiet at h
  unfold processTask escalationPhase duePhase reminderPhase snoozePhase
  by_cases h1 : r.task.completed = true
  · simp [h1]
  · by_cases h2 : snoozed now r.task = true
    · simp [h1, h2]
    · simp only [h1, h2, Bool.or_self, Bool.false_or, Bool.and_eq_true, Bool.not_eq_true',
        Bool.false_eq_true, Bool.not_eq_true] at h
      obtain ⟨⟨⟨h3, h4⟩, h5⟩, h6⟩ := h
      simp [h1, h2, h3, h4, h5, h6]

theorem snoozed_of_none {now : Int} {y : Task} (h : y.snoozed_until = none) :
    snoozed now y = false := by simp [snoozed, h]

theorem snoozeExpired_of_none {now : Int} {y : Task} (h : y.snoozed_until = none) :
    snoozeExpired now y = false := by simp [snoozeExpired, h]

theorem reminderDue_congr (env : Env) (now : Int) (y x : Task)
    (h1 : y.reminder_minutes = x.reminder_minutes) (h2 : y.reminder_sent = x.reminder_sent)
    (h3 : y.due_date = x.due_date) (h4 : y.due_time = x.due_time) :
    reminderDue env now y = reminderDue env now x := by
  simp [reminderDue, taskDateTime, h1, h2, h3, h4]

theorem reminderDue_of_sent (env : Env) (now : Int) (y : Task) (h : y.reminder_sent = true) :
    reminderDue env now y = false := by
  simp [reminderDue, h]

theorem alertDue_congr (env : Env) (now : Int) (y x : Task) (h1 : y.notified = x.notified)
    (h2 : y.due_date = x.due_date) (h3 : y.due_time = x.due_time) :
    alertDue env now y = alertDue env now x := by
  simp [alertDue, h1, h2, h3]

theorem alertDue_of_notified (env : Env) (now : Int) (y : Task) (h : y.notified = true) :
    alertDue env now y = false := by
  simp [alertDue, h]

theorem escalationDue_congr (now : Int) (y x : Task) (h1 : y.notified = x.notified)
    (h2 : y.priority = x.priority) (h3 : y.completed = x.completed)
    (h4 : y.last_alert_sent = x.last_alert_sent) (h5 : y.alert_count = x.alert_count) :
    escalationDue now y = escalationDue now x := by
  simp [escalationDue, h1, h2, h3, h4, h5]

theorem escalationDue_of_last_now (now : Int) (y : Task) (h : y.last_alert_sent = some now) :
    escalationDue now y = false := by
  simp [escalationDue, h]

theorem quiet_of {env : Env} {now : Int} {y : Task} (h1 : snoozeExpired now y = false)
    (h2 : reminderDue env now y = false) (h3 : alertDue env now y = false)
    (h4 : escalationDue now y = false) : quiet env now y = true := by
  simp [quiet, h1, h2, h3, h4]

theorem quiet_netEffect (env : Env) (now : Int) (x : Task)
    (hse : snoozeExpired now x = false) : quiet env now (netEffect env now x x) = true := by
  by_cases h1 : x.completed = true
  · have : netEffect env now x x = x := by simp [netEffect, rowWrites, h1]
    rw [this]; simp [quiet, h1]
  by_cases h2 : snoozed now x = true
  · have : netEffect env now x x = x := by simp [netEffect, rowWrites, h2]
    rw [this]; simp [quiet, h2]
  · have hnone : x.snoozed_until = none := by
      cases hs : x.snoozed_until with
      | none => rfl
      | some u =>
        simp only [snoozed, hs, decide_eq_true_eq] at h2
        simp only [snoozeExpired, hs, decide_eq_false_iff_not] at hse
        omega
    by_cases h4 : reminderDue env now x = true <;>
      by_cases h5 : alertDue env now x = true <;>
      by_cases h6 : escalationDue now x = true
    all_goals first
      | (rw [alertDue_not_escalationDue h5] at h6; cases h6)
      | skip
    all_goals
      simp only [netEffect, rowWrites, h1, h2, hse, h4, h5, h6, Bool.or_self, Bool.false_eq_true,
        if_false, if_true, List.nil_append, List.append_nil, List.foldl_cons, List.foldl_nil,
        List.cons_append, List.singleton_append]
    all_goals
      simp only [Bool.not_eq_true] at h4 h5 h6
    all_goals
      refine quiet_of (snoozeExpired_of_none hnone) ?_ ?_ ?_
    all_goals first
      | exact reminderDue_of_sent _ _ _ rfl
      | exact (reminderDue_congr env now _ x rfl rfl rfl rfl).trans h4
      | exact alertDue_of_notified _ _ _ rfl
      | exact (alertDue_congr env now _ x rfl rfl rfl).trans h5
      | exact escalationDue_of_last_now _ _ rfl
      | exact (escalationDue_congr now _ x rfl rfl rfl rfl rfl).trans h6

theorem runRows_of_quiet (env : Env) (now : Int) (rows : List DueRow) (st : TickState)
    (h : ∀ r ∈ rows, quiet env now r.task = true) : runRows env now rows st = st := by
  induction rows generalizing st with
  | nil => rfl
  | cons r rs ih =>
    show runRows env now rs (processTask env now r st) = st
    rw [processTask_of_quiet st (h r (List.mem_cons_self _ _))]
    exact ih st (fun r' hr' => h r' (List.mem_cons_of_mem _ hr'))

theorem joinRow_isSome_congr {s1 s2 : Store} (h : s1.users = s2.users) (t : Task) :
    (joinRow s1 t).isSome = (joinRow s2 t).isSome := by
  simp [joinRow, h]

theorem runTick_users (env : Env) (now : Int) (s : Store) :
    (runTick env now s).store.users = s.users :=
  runRows_users env now (taskDB.getDueTasks env now s) ⟨s, []⟩

/-! ## The escalation scenario on a UTC server -/

theorem dueQuery_of_fired_utc {env : Env} {T now : Int} {t : Task} (htz : env.tzOffset = 0)
    (hc : t.completed = false) (hd : t.due_date ≤ currentDate T)
    (htm : t.due_time ≤ currentTime env T) (hle : T ≤ now) : dueQuery env now t = true := by
  unfold currentDate at hd
  unfold currentTime at htm
  rw [htz] at htm
  simp only [dueQuery, hc, currentDate, currentTime, htz, Bool.not_false, Bool.true_and,
    Bool.or_eq_true, Bool.and_eq_true, decide_eq_true_eq]
  omega

theorem reminderDue_false_of_fired_utc {env : Env} {T : Int} (now : Int) {t : Task}
    (htz : env.tzOffset = 0) (hd : t.due_date ≤ currentDate T)
    (htm : t.due_time ≤ currentTime env T) (hle : T ≤ now) : reminderDue env now t = false := by
  unfold currentDate at hd
  unfold currentTime at htm
  rw [htz] at htm
  have : taskDateTime env t ≤ now := by
    unfold taskDateTime
    rw [htz]
    omega
  simp only [reminderDue, Bool.and_eq_false_iff, decide_eq_false_iff_not]
  right
  omega

theorem joinRow_isSome_of_user {s1 s2 : Store} (h : s1.users = s2.users) {t1 t2 : Task}
    (hu : t1.user_id = t2.user_id) : (joinRow s1 t1).isSome = (joinRow s2 t2).isSome := by
  simp [joinRow, h, hu]

theorem escalating_fetched {env : Env} {T : Int} {s : Store} {t : Task} {k L : Int}
    (h : Escalating env T s t k L) (htz : env.tzOffset = 0) {now : Int} (hle : T ≤ now) :
    fetched env now s t = true := by
  unfold fetched
  rw [dueQuery_of_fired_utc htz h.incomplete h.due_date h.due_time hle, h.owner]
  rfl

/-- One tick of the scenario below the cap: the escalation fires, its three
adapter calls are the only calls for the task, and the count goes up by one. -/
theorem escalating_step {env : Env} {T : Int} {s : Store} {t : Task} {k L : Int}
    (h : Escalating env T s t k L) (htz : env.tzOffset = 0) (now : Int) (hle : T ≤ now)
    (h30 : L + 30 * 60000 ≤ now) (hk : k < 5) :
    Escalating env T (runTick env now s).store
        { t with alert_count := some (k + 1), last_alert_sent := some now } (k + 1) now ∧
      ∃ r, joinRow s t = some r ∧
        ∀ e, (e ∈ (runTick env now s).sent ∧ e.task_id = t.id) ↔
          e ∈ alertAll env r false Phase.escalation := by
  have hf := escalating_fetched h htz hle
  obtain ⟨hq, r, hj⟩ := fetched_iff.1 hf
  have hr := joinRow_task hj
  have hsn : snoozed now t = false := snoozed_of_none h.awake
  have hse : snoozeExpired now t = false := snoozeExpired_of_none h.awake
  have hrem := reminderDue_false_of_fired_utc now htz h.due_date h.due_time hle
  have hdue : alertDue env now t = false := alertDue_of_notified env now t h.notified
  have hesc : escalationDue now t = true := by
    rw [escalationDue_iff]
    exact ⟨h.notified, h.high, h.incomplete, L, h.last, h30, by rw [h.count]; exact hk⟩
  have htick : tickTask env now s t =
      { t with alert_count := some (k + 1), last_alert_sent := some now } := by
    unfold tickTask netEffect rowWrites
    simp [hf, h.incomplete, hsn, hse, hrem, hdue, hesc, Updates.apply, h.count]
  have hrow := runTick_row env now s h.wf t h.mem
  rw [htick] at hrow
  refine ⟨⟨runTick_wf env now s h.wf, hrow.1, ?_, h.high, h.incomplete, h.awake, h.notified, rfl,
    rfl, h.due_date, h.due_time⟩, r, hj, ?_⟩
  · refine Eq.trans (joinRow_isSome_of_user (runTick_users env now s) ?_) h.owner
    rfl
  · intro e
    rw [runTick_sent_fetched env now s h.wf t h.mem r hq hj e]
    unfold rowSends
    rw [hr]
    simp [h.incomplete, hsn, hrem, hdue, hesc]

/-- One tick of the scenario at the cap: no adapter call for the task, and its
row stays as it is. -/
theorem escalating_capped {env : Env} {T : Int} {s : Store} {t : Task} {k L : Int}
    (h : Escalating env T s t k L) (htz : env.tzOffset = 0) (now : Int) (hle : T ≤ now)
    (hk : 5 ≤ k) :
    Escalating env T (runTick env now s).store t k L ∧
      ∀ e ∈ (runTick env now s).sent, e.task_id ≠ t.id := by
  have hf := escalating_fetched h htz hle
  obtain ⟨hq, r, hj⟩ := fetched_iff.1 hf
  have hr := joinRow_task hj
  have hsn : snoozed now t = false := snoozed_of_none h.awake
  have hse : snoozeExpired now t = false := snoozeExpired_of_none h.awake
  have hrem := reminderDue_false_of_fired_utc now htz h.due_date h.due_time hle
  have hdue : alertDue env now t = false := alertDue_of_notified env now t h.notified
  have hesc : escalationDue now t = false := escalationDue_false_of_cap h.count hk
  have htick : tickTask env now s t = t := by
    unfold tickTask netEffect rowWrites
    simp [hf, h.incomplete, hsn, hse, hrem, hdue, hesc]
  have hrow := runTick_row env now s h.wf t h.mem
  rw [htick] at hrow
  refine ⟨⟨runTick_wf env now s h.wf, hrow.1, ?_, h.high, h.incomplete, h.awake, h.notified,
    h.count, h.last, h.due_date, h.due_time⟩, ?_⟩
  · rw [joinRow_isSome_congr (runTick_users env now s)]
    exact h.owner
  · intro e he hid
    have := (runTick_sent_fetched env now s h.wf t h.mem r hq hj e).1 ⟨he, hid⟩
    unfold rowSends at this
    rw [hr] at this
    simp [h.incomplete, hsn, hrem, hdue, hesc] at this

/-- The escalation scenario on a server whose local time is UTC: after the due
alert at `T` (count 1), the ticks at `T + 30`, `T + 60`, `T + 90` and `T + 120`
minutes each make the three escalation calls and nothing else for the task and
leave the count at 2, 3, 4 and 5; a tick at any `now` from `T + 120` minutes on
makes no call for it and leaves the count at 5. -/
theorem escalation_trace_utc (env : Env) (htz : env.tzOffset = 0) (T : Int) (s0 : Store)
    (t : Task) (h0 : Escalating env T s0 t 1 T) :
    ∃ s1 s2 s3 s4 : Store, ∃ t4 : Task,
      s1 = (runTick env (T + 30 * 60000) s0).store ∧
      s2 = (runTick env (T + 60 * 60000) s1).store ∧
      s3 = (runTick env (T + 90 * 60000) s2).store ∧
      s4 = (runTick env (T + 120 * 60000) s3).store ∧
      { t with alert_count := some 2, last_alert_sent := some (T + 30 * 60000) } ∈ s1.tasks ∧
      { t with alert_count := some 3, last_alert_sent := some (T + 60 * 60000) } ∈ s2.tasks ∧
      { t with alert_count := some 4, last_alert_sent := some (T + 90 * 60000) } ∈ s3.tasks ∧
      t4 = { t with alert_count := some 5, last_alert_sent := some (T + 120 * 60000) } ∧
      t4 ∈ s4.tasks ∧
      (∃ e ∈ (runTick env (T + 30 * 60000) s0).sent,
        e.task_id = t.id ∧ e.phase = Phase.escalation) ∧
      (∃ e ∈ (runTick env (T + 60 * 60000) s1).sent,
        e.task_id = t.id ∧ e.phase = Phase.escalation) ∧
      (∃ e ∈ (runTick env (T + 90 * 60000) s2).sent,
        e.task_id = t.id ∧ e.phase = Phase.escalation) ∧
      (∃ e ∈ (runTick env (T + 120 * 60000) s3).sent,
        e.task_id = t.id ∧ e.phase = Phase.escalation) ∧
      ∀ now, T + 120 * 60000 ≤ now →
        (∀ e ∈ (runTick env now s4).sent, e.task_id ≠ t.id) ∧
          t4 ∈ (runTick env now s4).store.tasks := by
  obtain ⟨h1, r1, hj1, hs1⟩ := escalating_step h0 htz (T + 30 * 60000) (by omega)
    (by omega) (by omega)
  obtain ⟨h2, r2, hj2, hs2⟩ := escalating_step h1 htz (T + 60 * 60000) (by omega)
    (by omega) (by omega)
  obtain ⟨h3, r3, hj3, hs3⟩ := escalating_step h2 htz (T + 90 * 60000) (by omega)
    (by omega) (by omega)
  obtain ⟨h4, r4, hj4, hs4⟩ := escalating_step h3 htz (T + 120 * 60000) (by omega)
    (by omega) (by omega)
  have hsend : ∀ (r : DueRow), ∃ e ∈ alertAll env r false Phase.escalation,
      e.phase = Phase.escalation := by
    intro r
    exact ⟨_, List.mem_cons_self _ _, rfl⟩
  refine ⟨_, _, _, _, _, rfl, rfl, rfl, rfl, h1.mem, h2.mem, h3.mem, rfl, h4.mem, ?_, ?_, ?_, ?_,
    ?_⟩
  · obtain ⟨e, he, hp⟩ := hsend r1
    exact ⟨e, ((hs1 e).2 he).1, ((hs1 e).2 he).2, hp⟩
  · obtain ⟨e, he, hp⟩ := hsend r2
    exact ⟨e, ((hs2 e).2 he).1, ((hs2 e).2 he).2, hp⟩
  · obtain ⟨e, he, hp⟩ := hsend r3
    exact ⟨e, ((hs3 e).2 he).1, ((hs3 e).2 he).2, hp⟩
  · obtain ⟨e, he, hp⟩ := hsend r4
    exact ⟨e, ((hs4 e).2 he).1, ((hs4 e).2 he).2, hp⟩
  · intro now hnow
    obtain ⟨h5, hs5⟩ := escalating_capped h4 htz now (by omega) (by omega)
    exact ⟨hs5, h5.mem⟩

/-! ## The claims at concrete inputs, and idempotence -/

/-- C1 (amended): on a store with pairwise different task ids, if no fetched
task has an expired snooze and no row inserted by the recurrence block of the
first run is itself already due at `now`, then a second run of the tick at the
same `now` right after the first makes no adapter call and leaves the whole
store, every task and the set of tasks, exactly as the first run left it. -/
theorem tick_twice_eq_once (env : Env) (now : Int) (s : Store) (hwf : s.WF)
    (hexp : ∀ t ∈ s.tasks, fetched env now s t = true → snoozeExpired now t = false)
    (hnew : ∀ c ∈ (runTick env now s).store.tasks, s.task_seq < c.id →
      dueQuery env now c = false) :
    runTick env now (runTick env now s).store = ⟨(runTick env now s).store, []⟩ := by
  show runRows env now (taskDB.getDueTasks env now (runTick env now s).store)
    ⟨(runTick env now s).store, []⟩ = _
  apply runRows_of_quiet
  intro r hr
  obtain ⟨hr1, hr2, hr3⟩ := mem_getDueTasks.1 hr
  obtain ⟨extra, h1, h2, _⟩ := runTick_tasks env now s hwf
  have hr1' := hr1
  rw [h1] at hr1'
  rcases List.mem_append.1 hr1' with hm | hm
  · obtain ⟨x, hx, hxr⟩ := List.mem_map.1 hm
    by_cases hf : fetched env now s x = true
    · rw [← hxr]
      unfold tickTask
      rw [if_pos hf]
      exact quiet_netEffect env now x (hexp x hx hf)
    · exfalso
      have hxr2 : r.task = x := by rw [← hxr]; unfold tickTask; rw [if_neg hf]
      apply hf
      rw [fetched_iff]
      rw [hxr2] at hr2 hr3
      refine ⟨hr2, ?_⟩
      have hs := joinRow_isSome_congr (runTick_users env now s) x
      rw [hr3] at hs
      exact Option.isSome_iff_exists.1 hs.symm
  · have hlt := (h2 r.task hm).1
    rw [hnew r.task hr1 hlt] at hr2
    cases hr2

/-- C1 (counterexample): a daily task first due on 2024-01-15 09:00, tick at
2024-06-01 10:00 UTC.  The first run alerts and inserts the instance of
2024-01-16, which is already due; the second run at the same instant alerts that
instance and inserts a third row, so the store after two runs is not the store
after one. -/
theorem tick_twice_ne_once :
    (runTick utc (utcInstant 2024 6 1 10 0)
        (runTick utc (utcInstant 2024 6 1 10 0) (storeOf overdueDaily)).store).store ≠
      (runTick utc (utcInstant 2024 6 1 10 0) (storeOf overdueDaily)).store := by
  decide

/-- Witness of `tick_twice_eq_once`: the sample task, due 2024-06-01 10:00, ticked
twice at that instant. -/
theorem tick_twice_eq_once_witness :
    (storeOf sampleTask).WF ∧
      runTick utc (utcInstant 2024 6 1 10 0)
          (runTick utc (utcInstant 2024 6 1 10 0) (storeOf sampleTask)).store =
        ⟨(runTick utc (utcInstant 2024 6 1 10 0) (storeOf sampleTask)).store, []⟩ :=
  ⟨⟨by decide, by decide⟩,
    tick_twice_eq_once utc (utcInstant 2024 6 1 10 0) (storeOf sampleTask)
      ⟨by decide, by decide⟩ (by decide) (by decide)⟩

/-- Witness of `snoozed_task_untouched`: a task snoozed until 11:00, tick at 10:30. -/
theorem snoozed_task_untouched_witness :
    utcInstant 2024 6 1 10 30 < utcInstant 2024 6 1 11 0 ∧
      ((∀ e ∈ (runTick utc (utcInstant 2024 6 1 10 30) (storeOf snoozedTask)).sent,
          e.task_id ≠ snoozedTask.id) ∧
        snoozedTask ∈ (runTick utc (utcInstant 2024 6 1 10 30) (storeOf snoozedTask)).store.tasks ∧
        (∀ y ∈ (runTick utc (utcInstant 2024 6 1 10 30) (storeOf snoozedTask)).store.tasks,
          y.id = snoozedTask.id → y = snoozedTask) ∧
        (runTick utc (utcInstant 2024 6 1 10 30) (storeOf snoozedTask)).store.subtasks.filter
            (fun x => x.task_id = snoozedTask.id) =
          (storeOf snoozedTask).subtasks.filter (fun x => x.task_id = snoozedTask.id)) :=
  ⟨by decide,
    snoozed_task_untouched utc (utcInstant 2024 6 1 10 30) (storeOf snoozedTask)
      ⟨by decide, by decide⟩ snoozedTask (by decide) (utcInstant 2024 6 1 11 0) rfl (by decide)⟩

/-- C3 (the code at the failing input): a task notified at 10:00 and snoozed
until 10:30, tick at 10:30 UTC.  Its due time 10:00 is not later than `now` and
the snooze has expired, yet the run makes no adapter call at all and stores
`notified = false` with `alert_count` still 1: the due branch read the fetched
`notified = true`, not the value the reset had just stored. -/
theorem snooze_expiry_due_not_reevaluated :
    snoozeExpired (utcInstant 2024 6 1 10 30) expiredSnoozeTask = true ∧
      taskDateTime utc expiredSnoozeTask ≤ utcInstant 2024 6 1 10 30 ∧
      runTick utc (utcInstant 2024 6 1 10 30) (storeOf expiredSnoozeTask) =
        ⟨storeOf { expiredSnoozeTask with
                   snoozed_until := none, notified := false, reminder_sent := false }, []⟩ := by
  decide

/-- C4 (the code at the failing input): the task due 2024-05-31 23:00, not
notified, tick at 2024-06-01 10:00 UTC.  The due query fetches it and its due
instant is before `now`, yet the due branch does not fire: the run makes no
adapter call and leaves the row as it was, because `23:00 <= 10:00` fails. -/
theorem due_alert_misses_earlier_date_later_time :
    fetched utc (utcInstant 2024 6 1 10 0) (storeOf lateTask) lateTask = true ∧
      lateTask.notified = false ∧ lateTask.snoozed_until = none ∧
      taskDateTime utc lateTask ≤ utcInstant 2024 6 1 10 0 ∧
      alertDue utc (utcInstant 2024 6 1 10 0) lateTask = false ∧
      runTick utc (utcInstant 2024 6 1 10 0) (storeOf lateTask) = ⟨storeOf lateTask, []⟩ := by
  decide

/-- Witness of `due_transition_effect`: a task snoozed until 09:45 whose reminder
had been sent, at its due time 10:00: the snooze has expired, the due branch
fires. -/
theorem due_transition_effect_witness :
    fetched utc (utcInstant 2024 6 1 10 0) (storeOf earlySnoozeTask) earlySnoozeTask = true ∧
      snoozed (utcInstant 2024 6 1 10 0) earlySnoozeTask = false ∧
      snoozeExpired (utcInstant 2024 6 1 10 0) earlySnoozeTask = true ∧
      alertDue utc (utcInstant 2024 6 1 10 0) earlySnoozeTask = true ∧
      (∀ y ∈ (runTick utc (utcInstant 2024 6 1 10 0) (storeOf earlySnoozeTask)).store.tasks,
        y.id = earlySnoozeTask.id →
          y.notified = true ∧ y.alert_count = some (earlySnoozeTask.alert_count.getD 0 + 1) ∧
          y.last_alert_sent = some (utcInstant 2024 6 1 10 0) ∧
          y.completed = earlySnoozeTask.completed ∧
          y.due_date = earlySnoozeTask.due_date ∧ y.due_time = earlySnoozeTask.due_time ∧
          y.user_id = earlySnoozeTask.user_id ∧
          y.title = earlySnoozeTask.title ∧ y.description = earlySnoozeTask.description ∧
          y.recurring = earlySnoozeTask.recurring ∧
          y.priority = earlySnoozeTask.priority ∧ y.category = earlySnoozeTask.category ∧
          y.reminder_minutes = earlySnoozeTask.reminder_minutes ∧
          y.notes = earlySnoozeTask.notes ∧
          y.created_at = earlySnoozeTask.created_at) :=
  ⟨by decide, by decide, by decide, by decide,
    (due_transition_effect utc (utcInstant 2024 6 1 10 0) (storeOf earlySnoozeTask)
      ⟨by decide, by decide⟩ earlySnoozeTask (by decide) (by decide) (by decide) (by decide)).1⟩

/-- C6 (the code at the failing input): task A, reminder 30 minutes, due
2024-06-01 10:00, tick at 09:30 UTC.  The reminder condition holds for the task,
but the due query does not return it, so the run makes no adapter call and
`reminder_sent` stays false.  The tick at 10:00 then fires the due alert
(`notified = true`, `alert_count = 1`) on a row whose `reminder_sent` is still
false. -/
theorem reminder_scenario_no_send :
    reminderDue utc (utcInstant 2024 6 1 9 30) reminderTask = true ∧
      taskDB.getDueTasks utc (utcInstant 2024 6 1 9 30) (storeOf reminderTask) = [] ∧
      runTick utc (utcInstant 2024 6 1 9 30) (storeOf reminderTask) =
        ⟨storeOf reminderTask, []⟩ ∧
      (runTick utc (utcInstant 2024 6 1 10 0) (storeOf reminderTask)).store =
        storeOf { reminderTask with
                  notified := true, alert_count := some 1,
                  last_alert_sent := some (utcInstant 2024 6 1 10 0) } := by
  decide

/-- C7 (the code at the failing input): at 2024-06-01 10:00 UTC the store holds
a task that is not completed and is due on 2024-06-02 at 09:00; the list of rows
the tick evaluates does not contain it (it is empty). -/
theorem future_task_not_fetched :
    futureTask ∈ (storeOf futureTask).tasks ∧ futureTask.completed = false ∧
      utcInstant 2024 6 1 10 0 < taskDateTime utc futureTask ∧
      taskDB.getDueTasks utc (utcInstant 2024 6 1 10 0) (storeOf futureTask) = [] := by
  decide

/-- Witness of `escalation_cap`: a task with five alerts, the last one two hours
before the tick. -/
theorem escalation_cap_witness :
    cappedTask.alert_count = some 5 ∧
      ((∀ e ∈ (runTick utc (utcInstant 2024 6 1 10 0) (storeOf cappedTask)).sent,
          e.task_id = cappedTask.id → e.phase ≠ Phase.escalation) ∧
        (∀ (r : DueRow) (st : TickState), r.task = cappedTask →
          escalationPhase utc (utcInstant 2024 6 1 10 0) r st = st) ∧
        (cappedTask.notified = true →
          ∀ y ∈ (runTick utc (utcInstant 2024 6 1 10 0) (storeOf cappedTask)).store.tasks,
            y.id = cappedTask.id →
              y.alert_count = cappedTask.alert_count ∧
                y.last_alert_sent = cappedTask.last_alert_sent)) :=
  ⟨rfl,
    escalation_cap utc (utcInstant 2024 6 1 10 0) (storeOf cappedTask) ⟨by decide, by decide⟩
      cappedTask (by decide) 5 rfl (by decide)⟩

/-- Witness of `escalation_transition`: a high-priority task alerted at 10:00,
tick at 10:30, exactly 30 minutes later: the escalation fires and the count goes
from 1 to 2. -/
theorem escalation_transition_witness :
    escalationDue (utcInstant 2024 6 1 10 30) escalatingTask = true ∧
      (∀ y ∈ (runTick utc (utcInstant 2024 6 1 10 30) (storeOf escalatingTask)).store.tasks,
        y.id = escalatingTask.id →
          y.alert_count = some (escalatingTask.alert_count.getD 0 + 1) ∧
            y.last_alert_sent = some (utcInstant 2024 6 1 10 30)) :=
  ⟨by decide,
    (escalation_transition utc (utcInstant 2024 6 1 10 30) (storeOf escalatingTask)
      ⟨by decide, by decide⟩ escalatingTask (by decide) (by decide) (by decide)).2.2.1
      (by decide)⟩

/-- C10 (the code at the failing input): server local time UTC+2, a
high-priority task due 2024-06-01 23:50 local.  The tick at T = 23:50 local
(21:50 UTC) fires the due alert and stores `alert_count = 1`,
`last_alert_sent = T`.  The tick at T + 30 minutes (00:20 local, 22:20 UTC)
compares the UTC date 2024-06-01 with the local time 00:20, so the due query
returns no row: no escalation call is made and `alert_count` stays 1. -/
theorem escalation_trace_lost_after_local_midnight :
    (runTick berlin (utcInstant 2024 6 1 21 50) (storeOf nightTask)).store =
        storeOf { nightTask with
                  notified := true, alert_count := some 1,
                  last_alert_sent := some (utcInstant 2024 6 1 21 50) } ∧
      escalationDue (utcInstant 2024 6 1 21 50 + 30 * 60000)
          { nightTask with
            notified := true, alert_count := some 1,
            last_alert_sent := some (utcInstant 2024 6 1 21 50) } = true ∧
      runTick berlin (utcInstant 2024 6 1 21 50 + 30 * 60000)
          (storeOf { nightTask with
                     notified := true, alert_count := some 1,
                     last_alert_sent := some (utcInstant 2024 6 1 21 50) }) =
        ⟨storeOf { nightTask with
                   notified := true, alert_count := some 1,
                   last_alert_sent := some (utcInstant 2024 6 1 21 50) }, []⟩ := by
  decide

/-! ## Reminder and snooze expiry -/

theorem reminderDue_false_of_no_minutes {env : Env} {now : Int} {t : Task}
    (h0 : t.reminder_minutes = none ∨ t.reminder_minutes = some 0) :
    reminderDue env now t = false := by
  rcases h0 with h | h <;> simp [reminderDue, h]

/-- C11: for a task whose `reminder_minutes` is 0 or `NULL`, no tick at any `now`
makes an adapter call with `isReminder = true` for it, no tick turns its
`reminder_sent` from false to true, and the reminder branch, run on the row
fetched for it, leaves the state as it found it. -/
theorem reminder_never_without_minutes (env : Env) (now : Int) (s : Store) (hwf : s.WF)
    (t : Task) (ht : t ∈ s.tasks)
    (h0 : t.reminder_minutes = none ∨ t.reminder_minutes = some 0) :
    (∀ e ∈ (runTick env now s).sent, e.task_id = t.id →
        e.isReminder = false ∧ e.phase ≠ Phase.reminder) ∧
      (∀ y ∈ (runTick env now s).store.tasks, y.id = t.id →
        y.reminder_sent = true → t.reminder_sent = true) ∧
      (∀ (r : DueRow) (st : TickState), r.task = t → reminderPhase env now r st = st) := by
  have hrem : reminderDue env now t = false := reminderDue_false_of_no_minutes h0
  refine ⟨?_, ?_, ?_⟩
  · intro e he hid
    obtain ⟨r, _, hj, hr⟩ := (runTick_sent_task env now s hwf t ht e).1 ⟨he, hid⟩
    have hrt := joinRow_task hj
    obtain ⟨_, _, h | h | h⟩ := mem_rowSends hr
    · rw [hrt, hrem] at h; cases h.2.2
    · exact ⟨h.2.1, by rw [h.1]; decide⟩
    · exact ⟨h.2.1, by rw [h.1]; decide⟩
  · intro y hy hid
    rw [(runTick_row env now s hwf t ht).2 y hy hid]
    unfold tickTask netEffect rowWrites
    by_cases h0 : fetched env now s t = true <;>
      by_cases h1 : t.completed = true <;> by_cases h2 : snoozed now t = true <;>
      by_cases h3 : snoozeExpired now t = true <;>
      by_cases h5 : alertDue env now t = true <;>
      by_cases h6 : escalationDue now t = true <;>
      simp [h0, h1, h2, h3, hrem, h5, h6, Updates.apply]
  · intro r st hrt
    unfold reminderPhase
    rw [hrt, hrem]
    simp

/-- Witness of `reminder_never_without_minutes`: the sample task, whose
`reminder_minutes` is 0, at its due time. -/
theorem reminder_never_without_minutes_witness :
    (sampleTask.reminder_minutes = none ∨ sampleTask.reminder_minutes = some 0) ∧
      (∀ e ∈ (runTick utc (utcInstant 2024 6 1 10 0) (storeOf sampleTask)).sent,
        e.task_id = sampleTask.id → e.isReminder = false ∧ e.phase ≠ Phase.reminder) :=
  ⟨Or.inr rfl,
    (reminder_never_without_minutes utc (utcInstant 2024 6 1 10 0) (storeOf sampleTask)
      ⟨by decide, by decide⟩ sampleTask (by decide) (Or.inr rfl)).1⟩

theorem snoozeExpired_iff (now : Int) (t : Task) :
    snoozeExpired now t = true ↔ ∃ u, t.snoozed_until = some u ∧ u ≤ now := by
  unfold snoozeExpired
  cases t.snoozed_until with
  | none => simp
  | some u => simp

theorem not_snoozed_of_expired {now : Int} {t : Task} (h : snoozeExpired now t = true) :
    snoozed now t = false := by
  obtain ⟨u, hu, hle⟩ := (snoozeExpired_iff now t).1 h
  simp only [snoozed, hu, decide_eq_false_iff_not]
  omega

/-- C12: for a row whose `snoozed_until` is present and not later than `now`,
the expiry step of the tick stores `snoozed_until = NULL`, `notified = 0` and
`reminder_sent = 0` on that row and changes nothing else: `alert_count`,
`last_alert_sent` and every other column of the row, every other row, the other
tables and the list of adapter calls are as before.  In a whole run the row ends
with `snoozed_until = NULL`, and when no later branch of the run fires on the
task the stored row is the fetched one with exactly these three columns reset. -/
theorem snooze_expiry_step (env : Env) (now : Int) (s : Store) (hwf : s.WF) (t : Task)
    (ht : t ∈ s.tasks) (hf : fetched env now s t = true) (u : Int)
    (hs : t.snoozed_until = some u) (hu : u ≤ now) :
    (∀ (r : DueRow) (st : TickState), r.task = t →
        snoozePhase now r st =
          { store :=
              { st.store with
                tasks := st.store.tasks.map (onRow t.id t.user_id fun x =>
                  { x with snoozed_until := none, notified := false, reminder_sent := false }) }
            sent := st.sent }) ∧
      (∀ y ∈ (runTick env now s).store.tasks, y.id = t.id → y.snoozed_until = none) ∧
      (reminderDue env now t = false → alertDue env now t = false →
        escalationDue now t = false →
        ∀ y ∈ (runTick env now s).store.tasks, y.id = t.id →
          y = { t with snoozed_until := none, notified := false, reminder_sent := false }) := by
  have hexp : snoozeExpired now t = true := (snoozeExpired_iff now t).2 ⟨u, hs, hu⟩
  have hsn := not_snoozed_of_expired hexp
  have hcomp := not_completed_of_dueQuery (fetched_iff.1 hf).1
  refine ⟨?_, ?_, ?_⟩
  · intro r st hrt
    unfold snoozePhase
    rw [hrt, hexp]
    simp only [if_true, taskDB.update]
    rfl
  · intro y hy hid
    rw [(runTick_row env now s hwf t ht).2 y hy hid]
    unfold tickTask netEffect rowWrites
    by_cases h4 : reminderDue env now t = true <;>
      by_cases h5 : alertDue env now t = true <;>
      by_cases h6 : escalationDue now t = true <;>
      simp [hf, hcomp, hsn, hexp, h4, h5, h6, Updates.apply]
  · intro h4 h5 h6 y hy hid
    rw [(runTick_row env now s hwf t ht).2 y hy hid]
    unfold tickTask netEffect rowWrites
    simp [hf, hcomp, hsn, hexp, h4, h5, h6, Updates.apply]

/-- Witness of `snooze_expiry_step`: the task snoozed until 10:30, at 10:30. -/
theorem snooze_expiry_step_witness :
    fetched utc (utcInstant 2024 6 1 10 30) (storeOf expiredSnoozeTask) expiredSnoozeTask = true ∧
      expiredSnoozeTask.snoozed_until = some (utcInstant 2024 6 1 10 30) ∧
      (∀ y ∈ (runTick utc (utcInstant 2024 6 1 10 30) (storeOf expiredSnoozeTask)).store.tasks,
        y.id = expiredSnoozeTask.id → y.snoozed_until = none) :=
  ⟨by decide, rfl,
    (snooze_expiry_step utc (utcInstant 2024 6 1 10 30) (storeOf expiredSnoozeTask)
      ⟨by decide, by decide⟩ expiredSnoozeTask (by decide) (by decide)
      (utcInstant 2024 6 1 10 30) rfl (le_refl _)).2.1⟩

/-- C13 (amended): when the tick finds the `snoozed_until` of a fetched task
present and not later than `now`, the row it leaves has `snoozed_until = NULL`;
`notified` is false unless the due branch fired in the same run and
`reminder_sent` is false unless the reminder branch did; `alert_count` and
`last_alert_sent` are not reset: they keep the values they had, unless the due
or the escalation branch of the same run advanced them, and then the count is
the old one plus one. -/
theorem snooze_expiry_keeps_counters (env : Env) (now : Int) (s : Store) (hwf : s.WF)
    (t : Task) (ht : t ∈ s.tasks) (hf : fetched env now s t = true) (u : Int)
    (hs : t.snoozed_until = some u) (hu : u ≤ now) :
    ∃ y ∈ (runTick env now s).store.tasks, y.id = t.id ∧
      y.snoozed_until = none ∧
      (alertDue env now t = false → y.notified = false) ∧
      (reminderDue env now t = false → y.reminder_sent = false) ∧
      (alertDue env now t = false → escalationDue now t = false →
        y.alert_count = t.alert_count ∧ y.last_alert_sent = t.last_alert_sent) ∧
      (y.alert_count = t.alert_count ∨ y.alert_count = some (t.alert_count.getD 0 + 1)) := by
  have hexp : snoozeExpired now t = true := (snoozeExpired_iff now t).2 ⟨u, hs, hu⟩
  have hsn := not_snoozed_of_expired hexp
  have hcomp := not_completed_of_dueQuery (fetched_iff.1 hf).1
  refine ⟨tickTask env now s t, (runTick_row env now s hwf t ht).1, tickTask_id env now s t, ?_⟩
  unfold tickTask netEffect rowWrites
  by_cases h4 : reminderDue env now t = true <;>
    by_cases h5 : alertDue env now t = true <;>
    by_cases h6 : escalationDue now t = true <;>
    first
    | (rw [alertDue_not_escalationDue h5] at h6; cases h6)
    | simp [hf, hcomp, hsn, hexp, h4, h5, h6, Updates.apply]

/-- Witness of `snooze_expiry_keeps_counters`: the task snoozed until 10:30, at
11:00. -/
theorem snooze_expiry_keeps_counters_witness :
    fetched utc (utcInstant 2024 6 1 11 0) (storeOf expiredSnoozeTask) expiredSnoozeTask = true ∧
      expiredSnoozeTask.snoozed_until = some (utcInstant 2024 6 1 10 30) ∧
      utcInstant 2024 6 1 10 30 ≤ utcInstant 2024 6 1 11 0 ∧
      ∃ y ∈ (runTick utc (utcInstant 2024 6 1 11 0) (storeOf expiredSnoozeTask)).store.tasks,
        y.id = expiredSnoozeTask.id ∧ y.snoozed_until = none ∧
        (alertDue utc (utcInstant 2024 6 1 11 0) expiredSnoozeTask = false →
          y.notified = false) ∧
        (reminderDue utc (utcInstant 2024 6 1 11 0) expiredSnoozeTask = false →
          y.reminder_sent = false) ∧
        (alertDue utc (utcInstant 2024 6 1 11 0) expiredSnoozeTask = false →
          escalationDue (utcInstant 2024 6 1 11 0) expiredSnoozeTask = false →
          y.alert_count = expiredSnoozeTask.alert_count ∧
            y.last_alert_sent = expiredSnoozeTask.last_alert_sent) ∧
        (y.alert_count = expiredSnoozeTask.alert_count ∨
          y.alert_count = some (expiredSnoozeTask.alert_count.getD 0 + 1)) :=
  ⟨by decide, rfl, by decide,
    snooze_expiry_keeps_counters utc (utcInstant 2024 6 1 11 0) (storeOf expiredSnoozeTask)
      ⟨by decide, by decide⟩ expiredSnoozeTask (by decide) (by decide)
      (utcInstant 2024 6 1 10 30) rfl (by decide)⟩

/-- C13 (counterexample): a task notified at 10:00 (`alert_count = 1`) and
snoozed until 10:30, tick at 10:30 UTC.  The snooze has expired, and the row the
run leaves still has `alert_count = 1` and `last_alert_sent` 10:00: the two
counters are not reset to 0 and `NULL`. -/
theorem snooze_expiry_counters_not_reset :
    ¬ (∀ y ∈ (runTick utc (utcInstant 2024 6 1 10 30) (storeOf expiredSnoozeTask)).store.tasks,
        y.notified = false ∧ y.reminder_sent = false ∧ y.alert_count = some 0 ∧
          y.last_alert_sent = none) := by
  decide

/-! ## Day numbers and calendar dates

`civilFromDays` and `daysFromCivil` are inverse to each other on the dates of the
calendar, and the first of a month is a month's length after the first of the
month before. -/

set_option maxHeartbeats 4000000 in
theorem doe_bounds (doe e f g yoe b c : Int) (h0 : 0 ≤ doe) (h1 : doe < 146097)
    (he1 : 1460 * e ≤ doe) (he2 : doe < 1460 * e + 1460)
    (hf1 : 36524 * f ≤ doe) (hf2 : doe < 36524 * f + 36524)
    (hg1 : 146096 * g ≤ doe) (hg2 : doe < 146096 * g + 146096)
    (hy1 : 365 * yoe ≤ doe - e + f - g) (hy2 : doe - e + f - g < 365 * yoe + 365)
    (hb1 : 4 * b ≤ yoe) (hb2 : yoe < 4 * b + 4)
    (hc1 : 100 * c ≤ yoe) (hc2 : yoe < 100 * c + 100) :
    0 ≤ yoe ∧ yoe ≤ 399 ∧ 0 ≤ doe - (365 * yoe + b - c) ∧ doe - (365 * yoe + b - c) ≤ 365 := by
  have hf : 0 ≤ e ∧ e ≤ 100 := by omega
  obtain ⟨hf0, hf4⟩ := hf
  have hff : 0 ≤ f ∧ f ≤ 4 := by omega
  obtain ⟨hff0, hff4⟩ := hff
  interval_cases f <;> interval_cases e <;> omega

set_option maxHeartbeats 4000000 in
theorem doe_leap (doe e f g yoe b c : Int) (h0 : 0 ≤ doe) (h1 : doe < 146097)
    (he1 : 1460 * e ≤ doe) (he2 : doe < 1460 * e + 1460)
    (hf1 : 36524 * f ≤ doe) (hf2 : doe < 36524 * f + 36524)
    (hg1 : 146096 * g ≤ doe) (hg2 : doe < 146096 * g + 146096)
    (hy1 : 365 * yoe ≤ doe - e + f - g) (hy2 : doe - e + f - g < 365 * yoe + 365)
    (hb1 : 4 * b ≤ yoe) (hb2 : yoe < 4 * b + 4)
    (hc1 : 100 * c ≤ yoe) (hc2 : yoe < 100 * c + 100)
    (hd : doe - (365 * yoe + b - c) = 365) :
    yoe - 4 * b = 3 ∧ (yoe - 100 * c ≠ 99 ∨ yoe = 399) := by
  have hy := doe_bounds doe e f g yoe b c h0 h1 he1 he2 hf1 hf2 hg1 hg2 hy1 hy2 hb1 hb2 hc1 hc2
  obtain ⟨hy0, hy399, _, _⟩ := hy
  interval_cases yoe <;> omega

/-- The year of the era computed by `civilFromDays` from the day of the era. -/
theorem yoe_facts (doe : Int) (h0 : 0 ≤ doe) (h1 : doe < 146097) :
    ∃ yoe doy : Int,
      yoe = (doe - doe / 1460 + doe / 36524 - doe / 146096) / 365 ∧
      doy = doe - (365 * yoe + yoe / 4 - yoe / 100) ∧
      0 ≤ yoe ∧ yoe ≤ 399 ∧ 0 ≤ doy ∧
      (doy ≤ 364 ∨ (doy = 365 ∧ yoe % 4 = 3 ∧ (yoe % 100 ≠ 99 ∨ yoe = 399))) := by
  refine ⟨_, _, rfl, rfl, ?_⟩
  generalize hy : (doe - doe / 1460 + doe / 36524 - doe / 146096) / 365 = yoe
  have hb := doe_bounds doe (doe / 1460) (doe / 36524) (doe / 146096) yoe (yoe / 4) (yoe / 100)
    h0 h1 (by omega) (by omega) (by omega) (by omega) (by omega) (by omega) (by omega) (by omega)
    (by omega) (by omega) (by omega) (by omega)
  have hl := doe_leap doe (doe / 1460) (doe / 36524) (doe / 146096) yoe (yoe / 4) (yoe / 100)
    h0 h1 (by omega) (by omega) (by omega) (by omega) (by omega) (by omega) (by omega) (by omega)
    (by omega) (by omega) (by omega) (by omega)
  obtain ⟨hb0, hb1, hb2, hb3⟩ := hb
  refine ⟨hb0, hb1, hb2, ?_⟩
  by_cases h : doe - (365 * yoe + yoe / 4 - yoe / 100) = 365
  · right
    have := hl h
    refine ⟨h, by omega, ?_⟩
    rcases this.2 with h2 | h2
    · left; omega
    · right; exact h2
  · left; omega

theorem civilFromDays_eq (z : Int) :
    ∃ era yoe doy mp : Int,
      0 ≤ yoe ∧ yoe ≤ 399 ∧ 0 ≤ doy ∧
      (doy ≤ 364 ∨ (doy = 365 ∧ yoe % 4 = 3 ∧ (yoe % 100 ≠ 99 ∨ yoe = 399))) ∧
      0 ≤ mp ∧ mp ≤ 11 ∧ 153 * mp ≤ 5 * doy + 2 ∧ 5 * doy + 2 < 153 * mp + 153 ∧
      z + 719468 = era * 146097 + (365 * yoe + yoe / 4 - yoe / 100) + doy ∧
      civilFromDays z =
        (if (if mp < 10 then mp + 3 else mp - 9) ≤ 2 then yoe + era * 400 + 1
          else yoe + era * 400,
         if mp < 10 then mp + 3 else mp - 9,
         doy - (153 * mp + 2) / 5 + 1) := by
  obtain ⟨yoe, doy, hy, hd, h1, h2, h3, h4⟩ :=
    yoe_facts (z + 719468 - (z + 719468) / 146097 * 146097) (by omega) (by omega)
  refine ⟨(z + 719468) / 146097, yoe, doy, (5 * doy + 2) / 153, h1, h2, h3, h4, by omega,
    by omega, by omega, by omega, by omega, ?_⟩
  unfold civilFromDays
  simp only []
  rw [← hy, ← hd]

theorem isLeapYear_iff (y : Int) :
    isLeapYear y = true ↔ y % 4 = 0 ∧ (y % 100 ≠ 0 ∨ y % 400 = 0) := by
  simp [isLeapYear]

theorem civilFromDays_valid (z : Int) :
    ValidDate (civilFromDays z).1 (civilFromDays z).2.1 (civilFromDays z).2.2 := by
  obtain ⟨era, yoe, doy, mp, h1, h2, h3, h4, h5, h6, h7, h8, hz, hc⟩ := civilFromDays_eq z
  rw [hc]
  unfold ValidDate daysInMonth
  simp only []
  by_cases hl : isLeapYear (yoe + era * 400 + 1) = true
  · have hl2 := (isLeapYear_iff _).1 hl
    interval_cases mp <;> simp [hl] <;> omega
  · have hl2 := mt (isLeapYear_iff _).2 hl
    interval_cases mp <;> simp [hl] <;> omega


theorem year_start_step (k : Int) (h0 : 0 ≤ k) (h1 : k ≤ 398) :
    365 * (k + 1) + (k + 1) / 4 - (k + 1) / 100 =
      365 * k + k / 4 - k / 100 + 365 +
        (if k % 4 = 3 ∧ (k % 100 ≠ 99 ∨ k = 399) then 1 else 0) := by
  split <;> omega

theorem year_start_mono (a b : Int) (h : a ≤ b) :
    365 * a + a / 4 - a / 100 ≤ 365 * b + b / 4 - b / 100 := by
  omega

theorem year_day_lt (k k2 doy doy2 : Int) (hk0 : 0 ≤ k) (hk2 : k2 ≤ 399)
    (hd : doy ≤ 364 ∨ (doy = 365 ∧ k % 4 = 3 ∧ (k % 100 ≠ 99 ∨ k = 399)))
    (hd2 : 0 ≤ doy2)
    (heq : 365 * k + k / 4 - k / 100 + doy = 365 * k2 + k2 / 4 - k2 / 100 + doy2) :
    ¬ k < k2 := by
  intro hlt
  have hs := year_start_step k hk0 (by omega)
  have hm := year_start_mono (k + 1) k2 (by omega)
  split at hs <;> omega

theorem year_day_unique (k k2 doy doy2 : Int) (hk0 : 0 ≤ k) (hk1 : k ≤ 399) (hk20 : 0 ≤ k2)
    (hk21 : k2 ≤ 399) (hd0 : 0 ≤ doy)
    (hd : doy ≤ 364 ∨ (doy = 365 ∧ k % 4 = 3 ∧ (k % 100 ≠ 99 ∨ k = 399)))
    (hd20 : 0 ≤ doy2)
    (hd2 : doy2 ≤ 364 ∨ (doy2 = 365 ∧ k2 % 4 = 3 ∧ (k2 % 100 ≠ 99 ∨ k2 = 399)))
    (heq : 365 * k + k / 4 - k / 100 + doy = 365 * k2 + k2 / 4 - k2 / 100 + doy2) :
    k = k2 ∧ doy = doy2 := by
  have h1 := year_day_lt k k2 doy doy2 hk0 hk21 hd hd20 heq
  have h2 := year_day_lt k2 k doy2 doy hk20 hk1 hd2 hd0 heq.symm
  have hk : k = k2 := by omega
  subst hk
  exact ⟨rfl, by omega⟩


/-- What `daysFromCivil` computes for a month in `1 .. 12`. -/
theorem daysFromCivil_eq (y m d : Int) (hm1 : 1 ≤ m) (hm2 : m ≤ 12) :
    ∃ era k mp : Int,
      0 ≤ k ∧ k ≤ 399 ∧ 0 ≤ mp ∧ mp ≤ 11 ∧
      m = (if mp < 10 then mp + 3 else mp - 9) ∧
      y = (if m ≤ 2 then k + era * 400 + 1 else k + era * 400) ∧
      daysFromCivil y m d + 719468 =
        era * 146097 + (365 * k + k / 4 - k / 100) + ((153 * mp + 2) / 5 + d - 1) := by
  unfold daysFromCivil
  simp only []
  have e1 : (m - 1) / 12 = 0 := by omega
  have e2 : (m - 1) % 12 + 1 = m := by omega
  rw [e1, e2]
  by_cases h : m ≤ 2
  · simp only [h, if_true]
    refine ⟨(y + 0 - 1) / 400, (y + 0 - 1) - (y + 0 - 1) / 400 * 400, (m + 9) % 12,
      by omega, by omega, by omega, by omega, ?_, by omega, by omega⟩
    split <;> omega
  · simp only [h, if_false]
    refine ⟨(y + 0) / 400, (y + 0) - (y + 0) / 400 * 400, (m + 9) % 12,
      by omega, by omega, by omega, by omega, ?_, by omega, by omega⟩
    split <;> omega

theorem daysInMonth_bounds (y m : Int) :
    28 ≤ daysInMonth y m ∧ daysInMonth y m ≤ 31 ∧
      ((m = 4 ∨ m = 6 ∨ m = 9 ∨ m = 11) → daysInMonth y m = 30) ∧
      (m = 2 → daysInMonth y m ≤ 29 ∧
        (28 < daysInMonth y m → y % 4 = 0 ∧ (y % 100 ≠ 0 ∨ y % 400 = 0))) := by
  unfold daysInMonth
  by_cases h2 : m = 2
  · rw [if_pos h2]
    by_cases hl : isLeapYear y = true
    · have hl2 := (isLeapYear_iff _).1 hl
      rw [if_pos hl]
      exact ⟨by omega, by omega, fun h => by omega, fun _ => ⟨by omega, fun _ => hl2⟩⟩
    · rw [if_neg hl]
      exact ⟨by omega, by omega, fun h => by omega, fun _ => ⟨by omega, fun h => by omega⟩⟩
  · rw [if_neg h2]
    by_cases h3 : m = 4 ∨ m = 6 ∨ m = 9 ∨ m = 11
    · rw [if_pos h3]
      exact ⟨by omega, by omega, fun _ => rfl, fun h => absurd h h2⟩
    · rw [if_neg h3]
      exact ⟨by omega, by omega, fun h => absurd h h3, fun h => absurd h h2⟩

theorem month_index_unique (mp mp2 d : Int) (h0 : 0 ≤ mp) (h1 : mp ≤ 11) (hd1 : 1 ≤ d)
    (hd2 : d ≤ 31) (hd3 : (mp = 1 ∨ mp = 3 ∨ mp = 6 ∨ mp = 8) → d ≤ 30)
    (hd4 : mp = 11 → d ≤ 29)
    (g7 : 153 * mp2 ≤ 5 * ((153 * mp + 2) / 5 + d - 1) + 2)
    (g8 : 5 * ((153 * mp + 2) / 5 + d - 1) + 2 < 153 * mp2 + 153) : mp2 = mp := by
  interval_cases mp <;> omega

theorem era_unique (era era2 a b : Int) (a0 : 0 ≤ a) (a1 : a < 146097) (b0 : 0 ≤ b)
    (b1 : b < 146097) (h : era * 146097 + a = era2 * 146097 + b) : era2 = era ∧ b = a := by
  omega

theorem year_day_range (k doy : Int) (hk0 : 0 ≤ k) (hk1 : k ≤ 399) (hd0 : 0 ≤ doy)
    (hd : doy ≤ 364 ∨ (doy = 365 ∧ k % 4 = 3 ∧ (k % 100 ≠ 99 ∨ k = 399))) :
    0 ≤ 365 * k + k / 4 - k / 100 + doy ∧ 365 * k + k / 4 - k / 100 + doy < 146097 := by
  omega

theorem march_day_valid (y m d era k mp : Int) (hk0 : 0 ≤ k) (hk1 : k ≤ 399) (hp0 : 0 ≤ mp)
    (hp1 : mp ≤ 11) (hmm : (mp < 10 ∧ m = mp + 3) ∨ (10 ≤ mp ∧ m = mp - 9))
    (hy : y = (if m ≤ 2 then k + era * 400 + 1 else k + era * 400))
    (hd1 : 1 ≤ d) (hd2 : d ≤ daysInMonth y m) :
    0 ≤ (153 * mp + 2) / 5 + d - 1 ∧
      ((153 * mp + 2) / 5 + d - 1 ≤ 364 ∨
        ((153 * mp + 2) / 5 + d - 1 = 365 ∧ k % 4 = 3 ∧ (k % 100 ≠ 99 ∨ k = 399))) := by
  obtain ⟨hb1, hb2, hb3, hb4⟩ := daysInMonth_bounds y m
  refine ⟨by omega, ?_⟩
  by_cases h11 : mp = 11
  · have hm2 : m = 2 := by omega
    obtain ⟨hb5, hb6⟩ := hb4 hm2
    have hy2 : y = k + era * 400 + 1 := by rw [hy, if_pos (by omega)]
    clear hy hb3 hb4
    by_cases h29 : d ≤ 28
    · left; omega
    · right
      have := hb6 (by omega)
      omega
  · left
    clear hy hb3 hb4
    omega

theorem civilFromDays_daysFromCivil (y m d : Int) (hv : ValidDate y m d) :
    civilFromDays (daysFromCivil y m d) = (y, m, d) := by
  obtain ⟨hm1, hm2, hd1, hd2⟩ := hv
  obtain ⟨hb1, hb2, hb3, hb4⟩ := daysInMonth_bounds y m
  obtain ⟨era, k, mp, hk0, hk1, hp0, hp1, hm, hy, hD⟩ := daysFromCivil_eq y m d hm1 hm2
  obtain ⟨era2, k2, doy2, mp2, g1, g2, g3, g4, g5, g6, g7, g8, gz, gc⟩ :=
    civilFromDays_eq (daysFromCivil y m d)
  rw [gc]
  have hmm : (mp < 10 ∧ m = mp + 3) ∨ (10 ≤ mp ∧ m = mp - 9) := by
    split at hm <;> omega
  obtain ⟨hdoy0, hdoy⟩ := march_day_valid y m d era k mp hk0 hk1 hp0 hp1 hmm hy hd1 hd2
  obtain ⟨r1, r2⟩ := year_day_range k _ hk0 hk1 hdoy0 hdoy
  obtain ⟨r3, r4⟩ := year_day_range k2 doy2 g1 g2 g3 g4
  obtain ⟨hera, hsum⟩ := era_unique era era2 _ _ r1 r2 r3 r4 (by rw [← add_assoc, ← hD, gz, add_assoc])
  subst hera
  obtain ⟨hkk, hdd⟩ := year_day_unique k2 k doy2 ((153 * mp + 2) / 5 + d - 1) g1 g2 hk0 hk1 g3 g4
    hdoy0 hdoy hsum
  subst hkk
  rw [hdd] at g7 g8
  have hmp : mp2 = mp := by
    apply month_index_unique mp mp2 d hp0 hp1 hd1 (le_trans hd2 hb2) ?_ ?_ g7 g8
    · intro h
      have := hb3 (by omega)
      omega
    · intro h
      have := (hb4 (by omega)).1
      omega
  subst hmp
  rw [hdd, ← hm, hy]
  have : (153 * mp2 + 2) / 5 + d - 1 - (153 * mp2 + 2) / 5 + 1 = d := by omega
  rw [this]

theorem daysFromCivil_civilFromDays (z : Int) :
    daysFromCivil (civilFromDays z).1 (civilFromDays z).2.1 (civilFromDays z).2.2 = z := by
  obtain ⟨era, yoe, doy, mp, h1, h2, h3, h4, h5, h6, h7, h8, hz, hc⟩ := civilFromDays_eq z
  rw [hc]
  unfold daysFromCivil
  simp only []
  by_cases hm : mp < 10
  · simp only [hm, if_true]
    have h9 : ¬ (mp + 3 ≤ 2) := by omega
    simp only [h9, if_false]
    have e1 : (mp + 3 - 1) / 12 = 0 := by omega
    have e2 : (mp + 3 - 1) % 12 + 1 = mp + 3 := by omega
    rw [e1, e2]
    simp only [h9, if_false]
    have e3 : (yoe + era * 400 + 0) / 400 = era := by omega
    have e4 : (mp + 3 + 9) % 12 = mp := by omega
    rw [e3, e4]
    omega
  · simp only [hm, if_false]
    have h9 : mp - 9 ≤ 2 := by omega
    simp only [h9, if_true]
    have e1 : (mp - 9 - 1) / 12 = 0 := by omega
    have e2 : (mp - 9 - 1) % 12 + 1 = mp - 9 := by omega
    rw [e1, e2]
    simp only [h9, if_true]
    have e3 : (yoe + era * 400 + 1 + 0 - 1) / 400 = era := by omega
    have e4 : (mp - 9 + 9) % 12 = mp := by omega
    rw [e3, e4]
    omega

theorem daysFromCivil_add (y m d k : Int) :
    daysFromCivil y m (d + k) = daysFromCivil y m d + k := by
  unfold daysFromCivil
  simp only []
  omega

theorem daysFromCivil_carry (y d : Int) :
    daysFromCivil y 13 d = daysFromCivil (y + 1) 1 d := by
  unfold daysFromCivil
  simp only []
  norm_num

theorem month_length (y m : Int) (h1 : 1 ≤ m) (h2 : m ≤ 12) :
    daysFromCivil y (m + 1) 1 = daysFromCivil y m 1 + daysInMonth y m := by
  obtain ⟨hb1, hb2, hb3, hb4⟩ := daysInMonth_bounds y m
  by_cases hm : m = 2
  · subst hm
    by_cases hl : isLeapYear y = true
    · have hl2 := (isLeapYear_iff _).1 hl
      have : daysInMonth y 2 = 29 := by simp [daysInMonth, hl]
      rw [this]
      unfold daysFromCivil
      norm_num
      omega
    · have hl2 := mt (isLeapYear_iff _).2 hl
      have : daysInMonth y 2 = 28 := by simp [daysInMonth, hl]
      rw [this]
      unfold daysFromCivil
      norm_num
      omega
  · have : daysInMonth y m = if m = 4 ∨ m = 6 ∨ m = 9 ∨ m = 11 then 30 else 31 := by
      simp [daysInMonth, hm]
    rw [this]
    unfold daysFromCivil
    interval_cases m <;> norm_num <;> omega

theorem civilFromDays_succ (z : Int) : civilFromDays (z + 1) = nextDay (civilFromDays z) := by
  have hv := civilFromDays_valid z
  have hA := daysFromCivil_civilFromDays z
  obtain ⟨y, m, d, hc⟩ : ∃ y m d, civilFromDays z = (y, m, d) := ⟨_, _, _, rfl⟩
  rw [hc] at hv hA ⊢
  simp only [] at hv hA
  obtain ⟨hm1, hm2, hd1, hd2⟩ := hv
  obtain ⟨hb1, hb2, _, _⟩ := daysInMonth_bounds y (m + 1)
  rw [← hA]
  unfold nextDay
  simp only []
  by_cases h : d < daysInMonth y m
  · rw [if_pos h, ← daysFromCivil_add]
    exact civilFromDays_daysFromCivil y m (d + 1) ⟨hm1, hm2, by omega, by omega⟩
  · rw [if_neg h]
    have hd : d = daysInMonth y m := by omega
    have e : daysFromCivil y m d + 1 = daysFromCivil y (m + 1) 1 := by
      rw [month_length y m hm1 hm2, ← hd]
      have := daysFromCivil_add y m 1 (d - 1)
      rw [show (1 : Int) + (d - 1) = d by omega] at this
      omega
    rw [e]
    by_cases h12 : m < 12
    · rw [if_pos h12]
      exact civilFromDays_daysFromCivil y (m + 1) 1 ⟨by omega, by omega, by omega, by omega⟩
    · rw [if_neg h12]
      have : m = 12 := by omega
      subst this
      rw [show (12 : Int) + 1 = 13 by norm_num, daysFromCivil_carry]
      exact civilFromDays_daysFromCivil (y + 1) 1 1 ⟨by omega, by omega, by omega, by
        have := (daysInMonth_bounds (y + 1) 1).1
        omega⟩

theorem nextDay_valid (y m d : Int) (hv : ValidDate y m d) :
    ValidDate (nextDay (y, m, d)).1 (nextDay (y, m, d)).2.1 (nextDay (y, m, d)).2.2 := by
  have h := civilFromDays_succ (daysFromCivil y m d)
  rw [civilFromDays_daysFromCivil y m d hv] at h
  rw [← h]
  exact civilFromDays_valid _

theorem calculateNextDate_eq (env : Env) (z : Int) (r : String) :
    calculateNextDate env z r =
      ((if r = "daily" then
          daysFromCivil (civilFromDays ((z * 86400000 + env.tzOffset * 60000) / 86400000)).1
            (civilFromDays ((z * 86400000 + env.tzOffset * 60000) / 86400000)).2.1
            ((civilFromDays ((z * 86400000 + env.tzOffset * 60000) / 86400000)).2.2 + 1)
        else if r = "weekly" then
          daysFromCivil (civilFromDays ((z * 86400000 + env.tzOffset * 60000) / 86400000)).1
            (civilFromDays ((z * 86400000 + env.tzOffset * 60000) / 86400000)).2.1
            ((civilFromDays ((z * 86400000 + env.tzOffset * 60000) / 86400000)).2.2 + 7)
        else if r = "monthly" then
          daysFromCivil (civilFromDays ((z * 86400000 + env.tzOffset * 60000) / 86400000)).1
            ((civilFromDays ((z * 86400000 + env.tzOffset * 60000) / 86400000)).2.1 + 1)
            (civilFromDays ((z * 86400000 + env.tzOffset * 60000) / 86400000)).2.2
        else (z * 86400000 + env.tzOffset * 60000) / 86400000) * 86400000 +
          (z * 86400000 + env.tzOffset * 60000) % 86400000 - env.tzOffset * 60000) / 86400000 :=
  rfl

theorem calculateNextDate_daily (env : Env) (z : Int) :
    calculateNextDate env z "daily" = z + 1 := by
  rw [calculateNextDate_eq, if_pos rfl, daysFromCivil_add, daysFromCivil_civilFromDays]
  omega

theorem calculateNextDate_weekly (env : Env) (z : Int) :
    calculateNextDate env z "weekly" = z + 7 := by
  rw [calculateNextDate_eq, if_neg (by decide), if_pos rfl, daysFromCivil_add,
    daysFromCivil_civilFromDays]
  omega

theorem calculateNextDate_monthly (env : Env) (z : Int) (h0 : 0 ≤ env.tzOffset)
    (h1 : env.tzOffset < 1440) :
    calculateNextDate env z "monthly" =
      daysFromCivil (civilFromDays z).1 ((civilFromDays z).2.1 + 1) (civilFromDays z).2.2 := by
  rw [calculateNextDate_eq, if_neg (by decide), if_neg (by decide), if_pos rfl]
  have e : (z * 86400000 + env.tzOffset * 60000) / 86400000 = z := by omega
  rw [e]
  omega

theorem daysFromCivil_followingMonth (y m d : Int) (h1 : 1 ≤ m) (h2 : m ≤ 12) :
    daysFromCivil y (m + 1) d =
      daysFromCivil (followingMonth y m).1 (followingMonth y m).2 d := by
  unfold followingMonth
  by_cases h : m < 12
  · rw [if_pos h]
  · rw [if_neg h]
    have : m = 12 := by omega
    subst this
    exact daysFromCivil_carry y d

theorem followingMonth_range (y m : Int) (h1 : 1 ≤ m) (h2 : m ≤ 12) :
    1 ≤ (followingMonth y m).2 ∧ (followingMonth y m).2 ≤ 12 := by
  unfold followingMonth
  by_cases h : m < 12
  · rw [if_pos h]
    exact ⟨by omega, by omega⟩
  · rw [if_neg h]
    exact ⟨le_refl 1, by norm_num⟩

/-! ## Recurrence dates -/

theorem iterate_daily (env : Env) (n : Nat) (z : Int) :
    Nat.iterate (fun x => calculateNextDate env x "daily") n z = z + n := by
  induction n generalizing z with
  | zero => simp
  | succ n ih =>
    rw [Function.iterate_succ_apply, calculateNextDate_daily, ih]
    push_cast
    omega

theorem iterate_nextDay (n : Nat) (z : Int) :
    Nat.iterate nextDay n (civilFromDays z) = civilFromDays (z + n) := by
  induction n generalizing z with
  | zero => simp
  | succ n ih =>
    rw [Function.iterate_succ_apply, ← civilFromDays_succ, ih]
    congr 1
    push_cast
    omega

/-- Daily recurrence on a server whose offset from UTC is the same all year: for
every valid calendar date `y-m-d`, `calculateNextDate(d, 'daily')` is the day
after it: the day number grows by one, and the date it denotes is the next date
of the calendar (the next day of the month, the first of the next month after a
month's last day, the first of January after 31 December), itself a valid
date. -/
theorem daily_next_calendar_day (env : Env) (y m d : Int) (hv : ValidDate y m d) :
    calculateNextDate env (daysFromCivil y m d) "daily" = daysFromCivil y m d + 1 ∧
      civilFromDays (calculateNextDate env (daysFromCivil y m d) "daily") = nextDay (y, m, d) ∧
      ValidDate (nextDay (y, m, d)).1 (nextDay (y, m, d)).2.1 (nextDay (y, m, d)).2.2 := by
  refine ⟨calculateNextDate_daily env _, ?_, nextDay_valid y m d hv⟩
  rw [calculateNextDate_daily, civilFromDays_succ, civilFromDays_daysFromCivil y m d hv]

/-- The daily step at 2024-01-15 on a UTC server: the result is 2024-01-16. -/
theorem daily_next_calendar_day_witness :
    ValidDate 2024 1 15 ∧
      calculateNextDate utc (daysFromCivil 2024 1 15) "daily" = daysFromCivil 2024 1 15 + 1 ∧
      civilFromDays (calculateNextDate utc (daysFromCivil 2024 1 15) "daily") =
        nextDay (2024, 1, 15) ∧
      ValidDate (nextDay (2024, 1, 15)).1 (nextDay (2024, 1, 15)).2.1 (nextDay (2024, 1, 15)).2.2 :=
  ⟨by decide, daily_next_calendar_day utc 2024 1 15 (by decide)⟩

/-- Weekly recurrence on a server whose offset from UTC is the same all year:
for every valid calendar date `y-m-d`, `calculateNextDate(d, 'weekly')` is the
date seven days later: it is what `calculateNextDate(., 'daily')` gives when
applied seven times in a row, the seventh successor of the date in the
calendar, and a day with the same day of the week. -/
theorem weekly_seven_days_later (env : Env) (y m d : Int) (hv : ValidDate y m d) :
    calculateNextDate env (daysFromCivil y m d) "weekly" = daysFromCivil y m d + 7 ∧
      calculateNextDate env (daysFromCivil y m d) "weekly" =
        Nat.iterate (fun x => calculateNextDate env x "daily") 7 (daysFromCivil y m d) ∧
      civilFromDays (calculateNextDate env (daysFromCivil y m d) "weekly") =
        Nat.iterate nextDay 7 (y, m, d) ∧
      dayOfWeek (calculateNextDate env (daysFromCivil y m d) "weekly") =
        dayOfWeek (daysFromCivil y m d) := by
  have hB := civilFromDays_daysFromCivil y m d hv
  refine ⟨calculateNextDate_weekly env _, ?_, ?_, ?_⟩
  · rw [calculateNextDate_weekly, iterate_daily]
    norm_num
  · rw [calculateNextDate_weekly, ← hB, iterate_nextDay]
    rfl
  · rw [calculateNextDate_weekly]
    unfold dayOfWeek
    omega

/-- The weekly step at 2024-01-29 on a UTC server: the result is 2024-02-05. -/
theorem weekly_seven_days_later_witness :
    ValidDate 2024 1 29 ∧
      calculateNextDate utc (daysFromCivil 2024 1 29) "weekly" = daysFromCivil 2024 1 29 + 7 ∧
      calculateNextDate utc (daysFromCivil 2024 1 29) "weekly" =
        Nat.iterate (fun x => calculateNextDate utc x "daily") 7 (daysFromCivil 2024 1 29) ∧
      civilFromDays (calculateNextDate utc (daysFromCivil 2024 1 29) "weekly") =
        Nat.iterate nextDay 7 (2024, 1, 29) ∧
      dayOfWeek (calculateNextDate utc (daysFromCivil 2024 1 29) "weekly") =
        dayOfWeek (daysFromCivil 2024 1 29) :=
  ⟨by decide, weekly_seven_days_later utc 2024 1 29 (by decide)⟩

theorem calculateNextDate_monthly_same_day (env : Env) (h0 : 0 ≤ env.tzOffset)
    (h1 : env.tzOffset < 1440) (y m d : Int) (hv : ValidDate y m d)
    (hd : d ≤ daysInMonth (followingMonth y m).1 (followingMonth y m).2) :
    civilFromDays (calculateNextDate env (daysFromCivil y m d) "monthly") =
      ((followingMonth y m).1, (followingMonth y m).2, d) := by
  obtain ⟨hm1, hm2, hd1, hd2⟩ := hv
  rw [calculateNextDate_monthly env _ h0 h1,
    civilFromDays_daysFromCivil y m d ⟨hm1, hm2, hd1, hd2⟩]
  simp only []
  rw [daysFromCivil_followingMonth y m d hm1 hm2]
  obtain ⟨hf1, hf2⟩ := followingMonth_range y m hm1 hm2
  exact civilFromDays_daysFromCivil _ _ d ⟨hf1, hf2, hd1, hd⟩

theorem calculateNextDateIn_fixed (env : Env) (z : Int) (r : String) :
    calculateNextDateIn (Zone.fixed env.tzOffset) z r = calculateNextDate env z r := by
  rw [calculateNextDate_eq]
  unfold calculateNextDateIn Zone.fixed
  simp only []
  by_cases h1 : r = "daily"
  · subst h1
    simp
  · by_cases h2 : r = "weekly"
    · subst h2
      simp
    · by_cases h3 : r = "monthly"
      · subst h3
        simp
      · simp only [h1, h2, h3, or_self, if_false]
        omega

/-- C14 (the code at the failing input): a server in Europe/Berlin,
`calculateNextDate` of 2024-03-31 and `'daily'`.  The parsed instant, midnight
UTC, is 01:00 local on 31 March; `setDate` moves the local fields to 1 April
01:00, which is summer time, that is 31 March 23:00 UTC; the date printed is
2024-03-31 again, not 2024-04-01. -/
theorem daily_repeats_date_when_clocks_go_forward :
    ValidDate 2024 3 31 ∧ nextDay (2024, 3, 31) = (2024, 4, 1) ∧
      civilFromDays (calculateNextDateIn europeBerlin (daysFromCivil 2024 3 31) "daily") =
        (2024, 3, 31) := by
  decide

/-- C15 (the code at the failing input): a server in Europe/Berlin,
`calculateNextDate` of 2024-03-25 (a Monday) and `'weekly'`.  The local fields
move from 25 March 01:00 to 1 April 01:00, summer time, that is 31 March 23:00
UTC: the date printed is 2024-03-31, a Sunday six days later, not 2024-04-01. -/
theorem weekly_six_days_when_clocks_go_forward :
    ValidDate 2024 3 25 ∧
      civilFromDays (calculateNextDateIn europeBerlin (daysFromCivil 2024 3 25) "weekly") =
        (2024, 3, 31) ∧
      calculateNextDateIn europeBerlin (daysFromCivil 2024 3 25) "weekly" =
        daysFromCivil 2024 3 25 + 6 ∧
      dayOfWeek (daysFromCivil 2024 3 25) = 1 ∧
      dayOfWeek (calculateNextDateIn europeBerlin (daysFromCivil 2024 3 25) "weekly") = 0 := by
  decide

/-- C16 (the code at the failing input): a server at UTC-7 all year, `calculateNextDate` of
2024-03-01 and `'monthly'`.  The 1st exists in April, yet the result is
2024-03-30 and not 2024-04-01: the local calendar fields read 29 February,
`setMonth` moves to 29 March local, and the UTC date of that instant is 30
March.  On a server at UTC the same call gives 2024-04-01. -/
theorem monthly_first_of_month_west_of_utc :
    ValidDate 2024 3 1 ∧ (1 : Int) ≤ daysInMonth 2024 4 ∧
      civilFromDays (calculateNextDate phoenix (daysFromCivil 2024 3 1) "monthly") = (2024, 3, 30) ∧
      civilFromDays (calculateNextDate utc (daysFromCivil 2024 3 1) "monthly") = (2024, 4, 1) := by
  decide

/-- C17 (amended): for every valid calendar date `y-m-d` whose day of the month
does not exist in the following month, on a server whose local time is UTC or
ahead of it, `calculateNextDate(d, 'monthly')` is not clamped to the last day
of the following month: the surplus days carry over, and the result is day
`d - L` of the month after the following one, `L` being the length of the
following month. -/
theorem monthly_overflow_rolls_over (env : Env) (h0 : 0 ≤ env.tzOffset)
    (h1 : env.tzOffset < 1440) (y m d : Int) (hv : ValidDate y m d)
    (hd : daysInMonth (followingMonth y m).1 (followingMonth y m).2 < d) :
    civilFromDays (calculateNextDate env (daysFromCivil y m d) "monthly") =
      ((followingMonth (followingMonth y m).1 (followingMonth y m).2).1,
       (followingMonth (followingMonth y m).1 (followingMonth y m).2).2,
       d - daysInMonth (followingMonth y m).1 (followingMonth y m).2) := by
  obtain ⟨hm1, hm2, hd1, hd2⟩ := hv
  rw [calculateNextDate_monthly env _ h0 h1,
    civilFromDays_daysFromCivil y m d ⟨hm1, hm2, hd1, hd2⟩]
  simp only []
  rw [daysFromCivil_followingMonth y m d hm1 hm2]
  obtain ⟨hf1, hf2⟩ := followingMonth_range y m hm1 hm2
  generalize (followingMonth y m).1 = y2 at *
  generalize (followingMonth y m).2 = m2 at *
  obtain ⟨hg1, hg2⟩ := followingMonth_range y2 m2 hf1 hf2
  obtain ⟨hb1, hb2, _, _⟩ := daysInMonth_bounds y2 m2
  obtain ⟨hc1, hc2, _, _⟩ := daysInMonth_bounds y m
  obtain ⟨he1, he2, _, _⟩ :=
    daysInMonth_bounds (followingMonth y2 m2).1 (followingMonth y2 m2).2
  have e : daysFromCivil y2 m2 d =
      daysFromCivil (followingMonth y2 m2).1 (followingMonth y2 m2).2
        (d - daysInMonth y2 m2) := by
    rw [← daysFromCivil_followingMonth y2 m2 _ hf1 hf2]
    have a1 := daysFromCivil_add y2 m2 1 (d - 1)
    have a2 := daysFromCivil_add y2 (m2 + 1) 1 (d - daysInMonth y2 m2 - 1)
    have a3 := month_length y2 m2 hf1 hf2
    rw [show (1 : Int) + (d - 1) = d by omega] at a1
    rw [show (1 : Int) + (d - daysInMonth y2 m2 - 1) = d - daysInMonth y2 m2 by omega] at a2
    omega
  rw [e]
  exact civilFromDays_daysFromCivil _ _ _ ⟨hg1, hg2, by omega, by omega⟩

/-- Witness of `monthly_overflow_rolls_over`: 2024-01-31 on a UTC server. -/
theorem monthly_overflow_rolls_over_witness :
    (0 : Int) ≤ utc.tzOffset ∧ utc.tzOffset < 1440 ∧ ValidDate 2024 1 31 ∧
      daysInMonth (followingMonth 2024 1).1 (followingMonth 2024 1).2 < 31 ∧
      civilFromDays (calculateNextDate utc (daysFromCivil 2024 1 31) "monthly") =
        ((followingMonth (followingMonth 2024 1).1 (followingMonth 2024 1).2).1,
         (followingMonth (followingMonth 2024 1).1 (followingMonth 2024 1).2).2,
         31 - daysInMonth (followingMonth 2024 1).1 (followingMonth 2024 1).2) :=
  ⟨by decide, by decide, by decide, by decide,
    monthly_overflow_rolls_over utc (by decide) (by decide) 2024 1 31 (by decide) (by decide)⟩

/-- C17 (counterexample): on a server at UTC, `calculateNextDate` of 2024-01-31
and `'monthly'`.  The 31st does not exist in February 2024, whose last day is
the 29th; the result is 2024-03-02, a date of March, not 2024-02-29. -/
theorem monthly_overflow_not_clamped :
    ValidDate 2024 1 31 ∧ daysInMonth 2024 2 = 29 ∧
      civilFromDays (calculateNextDate utc (daysFromCivil 2024 1 31) "monthly") = (2024, 3, 2) ∧
      civilFromDays (calculateNextDate utc (daysFromCivil 2024 1 31) "monthly") ≠ (2024, 2, 29) := by
  decide

/-! ## Regeneration of recurring tasks -/

theorem foldl_add_subtasks_eq (l : List Subtask) (newId : Nat) (s : Store) :
    (l.foldl (fun acc subtask => subtaskDB.add acc newId subtask.text) s).subtasks =
      s.subtasks ++ clonedSubtasks newId l s.subtask_seq := by
  induction l generalizing s with
  | nil => simp [clonedSubtasks]
  | cons a l ih =>
    simp only [List.foldl_cons]
    rw [ih]
    simp [subtaskDB.add, clonedSubtasks]

theorem clonedSubtasks_text (taskId : Nat) (l : List Subtask) (seq : Nat) :
    (clonedSubtasks taskId l seq).map (fun x => x.text) = l.map fun x => x.text := by
  induction l generalizing seq with
  | nil => rfl
  | cons a l ih => simp [clonedSubtasks, ih]

theorem mem_clonedSubtasks {taskId : Nat} {l : List Subtask} {seq : Nat} {c : Subtask}
    (h : c ∈ clonedSubtasks taskId l seq) : c.task_id = taskId ∧ c.completed = false := by
  induction l generalizing seq with
  | nil => simp [clonedSubtasks] at h
  | cons a l ih =>
    simp only [clonedSubtasks, List.mem_cons] at h
    rcases h with rfl | h
    · exact ⟨rfl, rfl⟩
    · exact ih h

theorem regenerate_subtasks_eq (env : Env) (now : Int) (r : DueRow) (s : Store) :
    (regenerate env now r s).subtasks =
      s.subtasks ++ clonedSubtasks (s.task_seq + 1) r.subtasks s.subtask_seq := by
  unfold regenerate
  simp only []
  rw [foldl_add_subtasks_eq]
  rfl

theorem processTask_subtasks_eq (env : Env) (now : Int) (r : DueRow) (st : TickState) :
    (processTask env now r st).store.subtasks =
      st.store.subtasks ++
        (if regenerates env now r.task then
          clonedSubtasks (st.store.task_seq + 1) r.subtasks st.store.subtask_seq
          else []) := by
  unfold processTask escalationPhase duePhase reminderPhase snoozePhase regenerates
  by_cases h1 : r.task.completed = true <;> by_cases h2 : snoozed now r.task = true <;>
    by_cases h3 : snoozeExpired now r.task = true <;>
    by_cases h4 : reminderDue env now r.task = true <;>
    by_cases h5 : alertDue env now r.task = true <;>
    by_cases h6 : escalationDue now r.task = true <;>
    by_cases h7 : r.task.recurring = some "none" <;>
    simp [h1, h2, h3, h4, h5, h6, h7, taskDB.update, regenerate_subtasks_eq]

theorem filter_eq_nil_of_forall {α : Type} (p : α → Bool) (l : List α)
    (h : ∀ x ∈ l, p x = false) : l.filter p = [] := by
  induction l with
  | nil => rfl
  | cons a l ih =>
    rw [List.filter_cons, h a (List.mem_cons_self _ _)]
    exact ih fun x hx => h x (List.mem_cons_of_mem _ hx)

theorem filter_eq_self_of_forall {α : Type} (p : α → Bool) (l : List α)
    (h : ∀ x ∈ l, p x = true) : l.filter p = l := by
  induction l with
  | nil => rfl
  | cons a l ih =>
    rw [List.filter_cons, h a (List.mem_cons_self _ _)]
    simp only [if_true]
    rw [ih fun x hx => h x (List.mem_cons_of_mem _ hx)]

theorem runRows_regenerated (env : Env) (now : Int) (rows : List DueRow) (st : TickState)
    (hb : ∀ r ∈ rows, r.task.id ≤ st.store.task_seq)
    (hfk : ∀ x ∈ st.store.subtasks, x.task_id ≤ st.store.task_seq)
    (r : DueRow) (hr : r ∈ rows) (hreg : regenerates env now r.task = true) :
    ∃ q seq, st.store.task_seq ≤ q ∧
      nextInstance env now r.task q ∈ (runRows env now rows st).store.tasks ∧
      (runRows env now rows st).store.subtasks.filter (fun x => x.task_id = q + 1) =
        clonedSubtasks (q + 1) r.subtasks seq := by
  induction rows generalizing st with
  | nil => cases hr
  | cons a rs ih =>
    have hseq := processTask_task_seq env now a st
    have hsub := processTask_subtasks_eq env now a st
    have hle : st.store.task_seq ≤ (processTask env now a st).store.task_seq := by
      rw [hseq]; exact Nat.le_add_right _ _
    have hb1 : ∀ r ∈ rs, r.task.id ≤ (processTask env now a st).store.task_seq :=
      fun x hx => le_trans (hb x (List.mem_cons_of_mem _ hx)) hle
    have hfk1 : ∀ x ∈ (processTask env now a st).store.subtasks,
        x.task_id ≤ (processTask env now a st).store.task_seq := by
      intro x hx
      rw [hsub] at hx
      rcases List.mem_append.1 hx with hx | hx
      · exact le_trans (hfk x hx) hle
      · by_cases hra : regenerates env now a.task = true
        · rw [if_pos hra] at hx
          rw [hseq, if_pos hra, (mem_clonedSubtasks hx).1]
        · rw [if_neg hra] at hx
          cases hx
    have hrun : runRows env now (a :: rs) st = runRows env now rs (processTask env now a st) :=
      rfl
    rw [hrun]
    rcases List.mem_cons.1 hr with rfl | hr
    · refine ⟨st.store.task_seq, st.store.subtask_seq, le_refl _, ?_, ?_⟩
      · obtain ⟨extra, h1, _, _⟩ := runRows_tasks env now rs (processTask env now r st) hb1
        rw [h1]
        apply List.mem_append_left
        refine List.mem_map.2 ⟨nextInstance env now r.task st.store.task_seq, ?_, ?_⟩
        · rw [processTask_tasks, if_pos hreg]
          exact List.mem_append_right _ (List.mem_singleton_self _)
        · apply foldEffect_of_ne
          intro x hx
          have := hb x (List.mem_cons_of_mem _ hx)
          show x.task.id ≠ st.store.task_seq + 1
          omega
      · obtain ⟨e2, h3, h4⟩ := runRows_subtasks env now rs (processTask env now r st)
        rw [h3, hsub, if_pos hreg, List.filter_append, List.filter_append]
        rw [filter_eq_nil_of_forall _ st.store.subtasks, filter_eq_nil_of_forall _ e2,
          filter_eq_self_of_forall]
        · simp
        · intro x hx
          simp [(mem_clonedSubtasks hx).1]
        · intro x hx
          have := h4 x hx
          rw [hseq, if_pos hreg] at this
          simp only [decide_eq_false_iff_not]
          omega
        · intro x hx
          have := hfk x hx
          simp only [decide_eq_false_iff_not]
          omega
    · obtain ⟨q, seq, hq, hm, hs⟩ := ih (processTask env now a st) hb1 hfk1 hr
      exact ⟨q, seq, le_trans hle hq, hm, hs⟩

theorem runRows_tasks_length (env : Env) (now : Int) (rows : List DueRow) (st : TickState) :
    (runRows env now rows st).store.tasks.length =
      st.store.tasks.length + (rows.filter fun r => regenerates env now r.task).length := by
  induction rows generalizing st with
  | nil => rfl
  | cons a rs ih =>
    have hrun : runRows env now (a :: rs) st = runRows env now rs (processTask env now a st) :=
      rfl
    rw [hrun, ih, processTask_tasks, List.filter_cons]
    by_cases h : regenerates env now a.task = true
    · simp [h]
      omega
    · simp [h]

theorem joinRow_subtasks {s : Store} {t : Task} {r : DueRow} (h : joinRow s t = some r) :
    r.subtasks = s.subtasks.filter fun x => x.task_id = t.id := by
  unfold joinRow at h
  cases hu : s.users.find? (fun u => u.id = t.user_id) with
  | none => simp [hu] at h
  | some u => simp [hu] at h; rw [← h]

theorem strOr_self (x : Option String) (d : String) :
    strOr (some (strOr x d)) d = strOr x d := by
  cases x with
  | none => simp [strOr]
  | some v =>
    by_cases h : v = ""
    · simp [strOr, h]
    · simp [strOr, h]

theorem strOr_empty (x : Option String) : strOr x "" = x.getD "" := by
  cases x with
  | none => rfl
  | some v =>
    by_cases h : v = ""
    · simp [strOr, h]
    · simp [strOr, h]

theorem strOr_of_ne {v : String} (d : String) (h : v ≠ "") : strOr (some v) d = v := by
  simp [strOr, h]

theorem strOr_none (d : String) : strOr none d = d := rfl

theorem strOr_some_empty (d : String) : strOr (some "") d = d := rfl

theorem regenerates_of_due {env : Env} {now : Int} {s : Store} {t : Task}
    (hf : fetched env now s t = true) (hsn : snoozed now t = false)
    (hdue : alertDue env now t = true) (hrec : t.recurring ≠ some "none") :
    regenerates env now t = true := by
  have hcomp := not_completed_of_dueQuery (fetched_iff.1 hf).1
  simp [regenerates, hcomp, hsn, hdue, hrec]

theorem runRows_nextInstance (env : Env) (now : Int) (rows : List DueRow) (st : TickState)
    (hb : ∀ r ∈ rows, r.task.id ≤ st.store.task_seq) (r : DueRow) (hr : r ∈ rows)
    (hreg : regenerates env now r.task = true) :
    ∃ q, st.store.task_seq ≤ q ∧
      nextInstance env now r.task q ∈ (runRows env now rows st).store.tasks := by
  induction rows generalizing st with
  | nil => cases hr
  | cons a rs ih =>
    have hle : st.store.task_seq ≤ (processTask env now a st).store.task_seq := by
      rw [processTask_task_seq]; exact Nat.le_add_right _ _
    have hb1 : ∀ x ∈ rs, x.task.id ≤ (processTask env now a st).store.task_seq :=
      fun x hx => le_trans (hb x (List.mem_cons_of_mem _ hx)) hle
    have hrun : runRows env now (a :: rs) st =
        runRows env now rs (processTask env now a st) := rfl
    rw [hrun]
    rcases List.mem_cons.1 hr with rfl | hr
    · refine ⟨st.store.task_seq, le_refl _, ?_⟩
      obtain ⟨extra, e1, _, _⟩ := runRows_tasks env now rs (processTask env now r st) hb1
      rw [e1]
      apply List.mem_append_left
      refine List.mem_map.2 ⟨nextInstance env now r.task st.store.task_seq, ?_, ?_⟩
      · rw [processTask_tasks, if_pos hreg]
        exact List.mem_append_right _ (List.mem_singleton_self _)
      · apply foldEffect_of_ne
        intro x hx
        have := hb x (List.mem_cons_of_mem _ hx)
        show x.task.id ≠ st.store.task_seq + 1
        omega
    · obtain ⟨q, hq, hm⟩ := ih (processTask env now a st) hb1 hr
      exact ⟨q, le_trans hle hq, hm⟩

theorem runTick_regenerated (env : Env) (now : Int) (s : Store) (hwf : s.WF)
    (hfk : ∀ x ∈ s.subtasks, x.task_id ≤ s.task_seq) (t : Task) (ht : t ∈ s.tasks)
    (hf : fetched env now s t = true) (hsn : snoozed now t = false)
    (hdue : alertDue env now t = true) (hrec : t.recurring ≠ some "none") :
    ∃ q seq, s.task_seq ≤ q ∧
      nextInstance env now t q ∈ (runTick env now s).store.tasks ∧
      (runTick env now s).store.subtasks.filter (fun x => x.task_id = q + 1) =
        clonedSubtasks (q + 1) (s.subtasks.filter fun x => x.task_id = t.id) seq := by
  obtain ⟨hfq, r, hj⟩ := fetched_iff.1 hf
  have hrt := joinRow_task hj
  have hrs := joinRow_subtasks hj
  have hmem : r ∈ taskDB.getDueTasks env now s :=
    mem_getDueTasks.2 ⟨by rw [hrt]; exact ht, by rw [hrt]; exact hfq, by rw [hrt]; exact hj⟩
  have hreg := regenerates_of_due hf hsn hdue hrec
  obtain ⟨q, seq, h1, h2, h3⟩ := runRows_regenerated env now (taskDB.getDueTasks env now s)
    ⟨s, []⟩ (fun x hx => hwf.bound _ (mem_getDueTasks.1 hx).1) hfk r hmem (by rw [hrt]; exact hreg)
  rw [hrt] at h2
  rw [hrs] at h3
  exact ⟨q, seq, h1, h2, h3⟩

/-- C18 (amended): for a task that the tick fetches, that is not snoozed and on
which the due branch fires, with recurrence kind daily, weekly or monthly, the
run inserts a new task of the same owner whose due date is
`calculateNextDate(due_date, recurring)`, whose due time, title and recurrence
are the ones of the original, whose description and notes are the ones of the
original when these are present and the empty string when they are `NULL`,
whose priority and category are the ones of the original when these are present
and not empty and `'medium'` and `'general'` when they are `NULL` or empty,
whose `reminder_minutes` is the one of the original (0 for `NULL`), and whose
alerting state is fresh.  The run adds one row to `tasks` for each fetched task
on which the due branch fires with a kind other than `'none'` and no other row;
the due branch adds exactly one row for such a task and no row when the kind is
`'none'`. -/
theorem regeneration_inserts_next_instance (env : Env) (now : Int) (s : Store) (hwf : s.WF)
    (t : Task) (ht : t ∈ s.tasks) (hf : fetched env now s t = true)
    (hsn : snoozed now t = false) (hdue : alertDue env now t = true) :
    (∀ k, t.recurring = some k → (k = "daily" ∨ k = "weekly" ∨ k = "monthly") →
      ∃ c ∈ (runTick env now s).store.tasks,
        s.task_seq < c.id ∧ c.user_id = t.user_id ∧
        c.due_date = calculateNextDate env t.due_date k ∧
        c.due_time = t.due_time ∧ c.title = t.title ∧ c.recurring = t.recurring ∧
        (∀ v, t.description = some v → c.description = some v) ∧
        (t.description = none → c.description = some "") ∧
        (∀ v, t.notes = some v → c.notes = some v) ∧
        (t.notes = none → c.notes = some "") ∧
        c.priority = some (strOr t.priority "medium") ∧
        c.category = some (strOr t.category "general") ∧
        (∀ v, t.priority = some v → v ≠ "" → c.priority = some v) ∧
        (t.priority = none ∨ t.priority = some "" → c.priority = some "medium") ∧
        (∀ v, t.category = some v → v ≠ "" → c.category = some v) ∧
        (t.category = none ∨ t.category = some "" → c.category = some "general") ∧
        c.reminder_minutes = some (t.reminder_minutes.getD 0) ∧
        c.notified = false ∧ c.reminder_sent = false ∧ c.completed = false ∧
        c.alert_count = some 0 ∧ c.last_alert_sent = none ∧ c.snoozed_until = none) ∧
      (runTick env now s).store.tasks.length =
        s.tasks.length +
          ((taskDB.getDueTasks env now s).filter fun r =>
            !snoozed now r.task && alertDue env now r.task &&
              decide (r.task.recurring ≠ some "none")).length ∧
      (∀ (r : DueRow) (st : TickState), r.task = t →
        (duePhase env now r st).store.tasks.length =
          st.store.tasks.length + (if t.recurring = some "none" then 0 else 1)) := by
  refine ⟨?_, ?_, ?_⟩
  · intro k hk hkind
    have hrec : t.recurring ≠ some "none" := by
      rcases hkind with h | h | h <;> rw [hk, h] <;> decide
    have hne : k ≠ "" := by
      rcases hkind with h | h | h <;> rw [h] <;> decide
    obtain ⟨hfq, r, hj⟩ := fetched_iff.1 hf
    have hrt := joinRow_task hj
    have hmem : r ∈ taskDB.getDueTasks env now s :=
      mem_getDueTasks.2 ⟨by rw [hrt]; exact ht, by rw [hrt]; exact hfq, by rw [hrt]; exact hj⟩
    have hreg := regenerates_of_due hf hsn hdue hrec
    obtain ⟨q, h1, h2⟩ := runRows_nextInstance env now (taskDB.getDueTasks env now s) ⟨s, []⟩
      (fun x hx => hwf.bound _ (mem_getDueTasks.1 hx).1) r hmem (by rw [hrt]; exact hreg)
    rw [hrt] at h2
    refine ⟨nextInstance env now t q, h2, ?_⟩
    have h3 : s.task_seq < q + 1 := Nat.lt_succ_of_le h1
    refine ⟨h3, rfl, ?_, rfl, rfl, ?_, ?_, ?_, ?_, ?_, ?_, ?_, ?_, ?_, ?_, ?_, rfl, rfl, rfl,
      rfl, rfl, rfl, rfl⟩
    · simp [nextInstance, hk]
    · simp [nextInstance, hk, strOr_of_ne "none" hne]
    · intro v hv
      simp [nextInstance, hv, strOr_empty]
    · intro hv
      simp [nextInstance, hv, strOr_none]
    · intro v hv
      simp [nextInstance, hv, strOr_self, strOr_empty]
    · intro hv
      simp [nextInstance, hv, strOr_none, strOr_some_empty]
    · simp [nextInstance, strOr_self]
    · simp [nextInstance, strOr_self]
    · intro v hv hvne
      simp [nextInstance, hv, strOr_self, strOr_of_ne "medium" hvne]
    · intro hv
      rcases hv with hv | hv <;> simp [nextInstance, hv, strOr]
    · intro v hv hvne
      simp [nextInstance, hv, strOr_self, strOr_of_ne "general" hvne]
    · intro hv
      rcases hv with hv | hv <;> simp [nextInstance, hv, strOr]
  · show (runRows env now (taskDB.getDueTasks env now s) ⟨s, []⟩).store.tasks.length = _
    rw [runRows_tasks_length]
    congr 2
    apply List.filter_congr
    intro x hx
    have hc := not_completed_of_dueQuery (mem_getDueTasks.1 hx).2.1
    simp [regenerates, hc]
  · intro r st hrt
    unfold duePhase
    rw [hrt]
    by_cases hrec : t.recurring = some "none"
    · simp [hdue, hrec, taskDB.update]
    · simp [hdue, hrec, taskDB.update, regenerate_tasks]

/-- Witness of `regeneration_inserts_next_instance`: the daily task due
2024-01-15 09:00 at its due time. -/
theorem regeneration_inserts_next_instance_witness :
    fetched utc (utcInstant 2024 1 15 9 0) (storeOf overdueDaily) overdueDaily = true ∧
      alertDue utc (utcInstant 2024 1 15 9 0) overdueDaily = true ∧
      (runTick utc (utcInstant 2024 1 15 9 0) (storeOf overdueDaily)).store.tasks.length =
        (storeOf overdueDaily).tasks.length +
          ((taskDB.getDueTasks utc (utcInstant 2024 1 15 9 0) (storeOf overdueDaily)).filter
            fun r =>
              !snoozed (utcInstant 2024 1 15 9 0) r.task &&
                alertDue utc (utcInstant 2024 1 15 9 0) r.task &&
                decide (r.task.recurring ≠ some "none")).length :=
  ⟨by decide, by decide,
    (regeneration_inserts_next_instance utc (utcInstant 2024 1 15 9 0) (storeOf overdueDaily)
      ⟨by decide, by decide⟩ overdueDaily (by decide) (by decide) (by decide) (by decide)).2.1⟩

/-- C18 (counterexample): two daily tasks due 2024-01-15 09:00, tick at that
instant on a UTC server.  The first has the empty string as category: the run
inserts task 2 for 2024-01-16 with category `'general'`, not the (empty)
category of the original.  The second has `NULL` in description, notes and
priority: the run inserts task 2 with the empty string as description and notes
and `'medium'` as priority. -/
theorem regeneration_defaults_category :
    alertDue utc (utcInstant 2024 1 15 9 0) uncategorised = true ∧
      (runTick utc (utcInstant 2024 1 15 9 0) (storeOf uncategorised)).store.tasks.map
          (fun c => (c.id, c.recurring, c.due_date, c.category)) =
        [(1, some "daily", daysFromCivil 2024 1 15, some ""),
         (2, some "daily", daysFromCivil 2024 1 16, some "general")] ∧
      alertDue utc (utcInstant 2024 1 15 9 0) undescribed = true ∧
      (runTick utc (utcInstant 2024 1 15 9 0) (storeOf undescribed)).store.tasks.map
          (fun c => (c.id, c.due_date, c.description, c.notes, c.priority)) =
        [(1, daysFromCivil 2024 1 15, none, none, none),
         (2, daysFromCivil 2024 1 16, some "", some "", some "medium")] := by
  decide

/-- C19: in a store whose subtasks belong to tasks that exist (no `task_id`
exceeds the counter of `tasks`), for a task with recurrence other than `'none'`
that the tick fetches, that is not snoozed and on which the due branch fires,
the run inserts a new task (the next instance), and the subtasks stored for it
after the run are copies of the subtasks the original had before the run: as
many, with the same texts in the same order, every one with `completed = false`
whatever the original says; the subtasks of the original are what they were. -/
theorem regeneration_clones_subtasks (env : Env) (now : Int) (s : Store) (hwf : s.WF)
    (hfk : ∀ x ∈ s.subtasks, x.task_id ≤ s.task_seq) (t : Task) (ht : t ∈ s.tasks)
    (hf : fetched env now s t = true) (hsn : snoozed now t = false)
    (hdue : alertDue env now t = true) (hrec : t.recurring ≠ some "none") :
    ∃ c ∈ (runTick env now s).store.tasks,
      s.task_seq < c.id ∧ c.user_id = t.user_id ∧ c.title = t.title ∧
      c.due_date = calculateNextDate env t.due_date (t.recurring.getD "") ∧
      ((runTick env now s).store.subtasks.filter fun x => x.task_id = c.id).map
          (fun x => x.text) =
        (s.subtasks.filter fun x => x.task_id = t.id).map (fun x => x.text) ∧
      ((runTick env now s).store.subtasks.filter fun x => x.task_id = c.id).length =
        (s.subtasks.filter fun x => x.task_id = t.id).length ∧
      (∀ x ∈ (runTick env now s).store.subtasks, x.task_id = c.id → x.completed = false) ∧
      ((runTick env now s).store.subtasks.filter fun x => x.task_id = t.id) =
        s.subtasks.filter fun x => x.task_id = t.id := by
  obtain ⟨q, seq, h1, h2, h3⟩ := runTick_regenerated env now s hwf hfk t ht hf hsn hdue hrec
  have hid : (nextInstance env now t q).id = q + 1 := rfl
  have htext := clonedSubtasks_text (q + 1) (s.subtasks.filter fun x => x.task_id = t.id) seq
  refine ⟨nextInstance env now t q, h2, by rw [hid]; omega, rfl, rfl, rfl, ?_, ?_, ?_, ?_⟩
  · rw [hid, h3, htext]
  · rw [hid, h3]
    have := congrArg List.length htext
    simpa using this
  · intro x hx hxid
    rw [hid] at hxid
    have hmem : x ∈ (runTick env now s).store.subtasks.filter fun x => x.task_id = q + 1 :=
      List.mem_filter.2 ⟨hx, by simpa using hxid⟩
    rw [h3] at hmem
    exact (mem_clonedSubtasks hmem).2
  · obtain ⟨extra, e1, e2⟩ := runTick_subtasks env now s
    rw [e1, List.filter_append, filter_eq_nil_of_forall _ extra, List.append_nil]
    intro x hx
    have := e2 x hx
    have hb := hwf.bound t ht
    simp only [decide_eq_false_iff_not]
    omega

/-- Witness of `regeneration_clones_subtasks`: the daily task with the subtasks
"buy milk" (ticked off) and "call home", at its due time. -/
theorem regeneration_clones_subtasks_witness :
    fetched utc (utcInstant 2024 1 15 9 0) chores overdueDaily = true ∧
      alertDue utc (utcInstant 2024 1 15 9 0) overdueDaily = true ∧
      overdueDaily.recurring ≠ some "none" ∧
      ∃ c ∈ (runTick utc (utcInstant 2024 1 15 9 0) chores).store.tasks,
        chores.task_seq < c.id ∧ c.user_id = overdueDaily.user_id ∧
        c.title = overdueDaily.title ∧
        c.due_date = calculateNextDate utc overdueDaily.due_date (overdueDaily.recurring.getD "") ∧
        ((runTick utc (utcInstant 2024 1 15 9 0) chores).store.subtasks.filter
            fun x => x.task_id = c.id).map (fun x => x.text) =
          (chores.subtasks.filter fun x => x.task_id = overdueDaily.id).map (fun x => x.text) ∧
        ((runTick utc (utcInstant 2024 1 15 9 0) chores).store.subtasks.filter
            fun x => x.task_id = c.id).length =
          (chores.subtasks.filter fun x => x.task_id = overdueDaily.id).length ∧
        (∀ x ∈ (runTick utc (utcInstant 2024 1 15 9 0) chores).store.subtasks,
          x.task_id = c.id → x.completed = false) ∧
        ((runTick utc (utcInstant 2024 1 15 9 0) chores).store.subtasks.filter
            fun x => x.task_id = overdueDaily.id) =
          chores.subtasks.filter fun x => x.task_id = overdueDaily.id :=
  ⟨by decide, by decide, by decide,
    regeneration_clones_subtasks utc (utcInstant 2024 1 15 9 0) chores ⟨by decide, by decide⟩
      (by decide) overdueDaily (by decide) (by decide) (by decide) (by decide) (by decide)⟩

/-! ## Channel outcomes -/

theorem sendAlert_eq (env : Env) (o : Outcomes) (r : DueRow) (ch : Channel) (isReminder : Bool)
    (ph : Phase) :
    sendAlert env o r ch isReminder ph =
      Except.ok ({ channel := ch, task_id := r.task.id, isReminder := isReminder, phase := ph,
                   contacted := contactsClient env r.user ch }, adapterReturns env o r ph ch) := by
  unfold sendAlert clientRequest adapterReturns
  by_cases h : contactsClient env r.user ch = true
  · rw [if_pos h, h]
    cases ho : o ch r.task.id ph <;> rfl
  · rw [if_neg h]
    simp only [Bool.not_eq_true] at h
    rw [h]
    rfl

theorem awaitAlerts_eq (env : Env) (o : Outcomes) (r : DueRow) (isReminder : Bool) (ph : Phase)
    (st : RunState) :
    awaitAlerts env o r isReminder ph st =
      Except.ok { tick := { st.tick with sent := st.tick.sent ++ alertAll env r isReminder ph }
                  returned := st.returned ++
                    [Channel.whatsapp, Channel.telegram, Channel.sms].map
                      (adapterReturns env o r ph) } := by
  unfold awaitAlerts sendWhatsAppAlert sendTelegramAlert sendSMSAlert
  rw [sendAlert_eq, sendAlert_eq, sendAlert_eq]
  rfl

theorem processTaskAwait_eq (env : Env) (o : Outcomes) (now : Int) (r : DueRow) (st : RunState) :
    processTaskAwait env o now r st =
      Except.ok { tick := processTask env now r st.tick
                  returned := st.returned ++ rowReturns env o now r } := by
  unfold processTaskAwait processTask escalationPhase duePhase reminderPhase rowReturns
  by_cases h1 : r.task.completed = true <;> by_cases h2 : snoozed now r.task = true <;>
    by_cases h4 : reminderDue env now r.task = true <;>
    by_cases h5 : alertDue env now r.task = true <;>
    by_cases h6 : escalationDue now r.task = true <;>
    simp [h1, h2, h4, h5, h6, awaitAlerts_eq, bind, Except.bind, pure, Except.pure]

theorem runRowsAwait_eq (env : Env) (o : Outcomes) (now : Int) (rows : List DueRow)
    (st : RunState) :
    rows.foldlM (fun st r => processTaskAwait env o now r st) st =
      Except.ok { tick := runRows env now rows st.tick
                  returned := st.returned ++ (rows.map (rowReturns env o now)).flatten } := by
  induction rows generalizing st with
  | nil => simp [runRows, pure, Except.pure]
  | cons r rs ih =>
    rw [List.foldlM_cons, processTaskAwait_eq]
    simp only [bind, Except.bind]
    rw [ih]
    simp [runRows]

theorem runTickAwait_eq (env : Env) (o : Outcomes) (now : Int) (s : Store) :
    runTickAwait env o now s =
      Except.ok { tick := runTick env now s
                  returned := ((taskDB.getDueTasks env now s).map (rowReturns env o now)).flatten } := by
  unfold runTickAwait
  rw [runRowsAwait_eq]
  simp [runRows, runTick]

/-- C20: two runs of the tick from the same store at the same `now` that differ
only in how the client requests end (message delivered, request returned
without delivery, or client throwing) both run to their end, and they end in
the same database and with the same adapter calls made, the ones of the run
that does not look at outcomes at all.  So the run in which every client throws
writes `reminder_sent`, `notified`, `alert_count` and `last_alert_sent` as the
run in which every message is delivered does, and a client that throws on one
channel does not keep the adapters of the other channels from being called. -/
theorem delivery_independence (env : Env) (now : Int) (s : Store) (o1 o2 : Outcomes) :
    (∃ st1 st2, runTickAwait env o1 now s = Except.ok st1 ∧
        runTickAwait env o2 now s = Except.ok st2 ∧
        st1.tick.store = st2.tick.store ∧ st1.tick.sent = st2.tick.sent ∧
        st1.tick = runTick env now s) ∧
      (∃ st, runTickAwait env allRejected now s = Except.ok st ∧
        st.tick = runTick env now s ∧ ∀ b ∈ st.returned, b = false) ∧
      (∀ (r : DueRow) (st : RunState) (isReminder : Bool) (ph : Phase),
        ∃ st2, awaitAlerts env o1 r isReminder ph st = Except.ok st2 ∧
          st2.tick.store = st.tick.store ∧
          st2.tick.sent = st.tick.sent ++ alertAll env r isReminder ph) := by
  refine ⟨⟨_, _, runTickAwait_eq env o1 now s, runTickAwait_eq env o2 now s, rfl, rfl, rfl⟩,
    ⟨_, runTickAwait_eq env allRejected now s, rfl, ?_⟩, ?_⟩
  · intro b hb
    simp only [List.mem_flatten, List.mem_map] at hb
    obtain ⟨l, ⟨r, _, rfl⟩, hb⟩ := hb
    unfold rowReturns at hb
    have key : ∀ ph, ∀ x ∈ [Channel.whatsapp, Channel.telegram, Channel.sms].map
        (adapterReturns env allRejected r ph), x = false := by
      intro ph x hx
      simp only [List.mem_map] at hx
      obtain ⟨ch, _, rfl⟩ := hx
      simp [adapterReturns, allRejected]
    split at hb
    · cases hb
    · rcases List.mem_append.1 hb with hb | hb
      · rcases List.mem_append.1 hb with hb | hb
        · split at hb
          · exact key _ b hb
          · cases hb
        · split at hb
          · exact key _ b hb
          · cases hb
      · split at hb
        · exact key _ b hb
        · cases hb
  · intro r st isReminder ph
    exact ⟨_, awaitAlerts_eq env o1 r isReminder ph st, rfl, rfl⟩

/-! ## Channel gating and the due query -/

/-- C22: each of the three adapters contacts its channel client only for a user
whose flag for that channel is set and whose destination for that channel is
present (not `NULL`, not empty); when the flag is not set or the destination is
missing, the adapter returns `false` and does not contact the client, whatever
the client would have answered. -/
theorem channel_gating (env : Env) (o : Outcomes) (r : DueRow) (isReminder : Bool) (ph : Phase) :
    (∀ c b, sendWhatsAppAlert env o r isReminder ph = Except.ok (c, b) →
        (c.contacted = true →
          r.user.whatsapp_enabled = true ∧ ∃ v, r.user.whatsapp_number = some v ∧ v ≠ "") ∧
        (r.user.whatsapp_enabled = false ∨ r.user.whatsapp_number = none →
          c.contacted = false ∧ b = false)) ∧
      (∀ c b, sendTelegramAlert env o r isReminder ph = Except.ok (c, b) →
        (c.contacted = true →
          r.user.telegram_enabled = true ∧ ∃ v, r.user.telegram_chat_id = some v ∧ v ≠ "") ∧
        (r.user.telegram_enabled = false ∨ r.user.telegram_chat_id = none →
          c.contacted = false ∧ b = false)) ∧
      (∀ c b, sendSMSAlert env o r isReminder ph = Except.ok (c, b) →
        (c.contacted = true →
          r.user.sms_enabled = true ∧ ∃ v, r.user.sms_number = some v ∧ v ≠ "") ∧
        (r.user.sms_enabled = false ∨ r.user.sms_number = none →
          c.contacted = false ∧ b = false)) ∧
      (∃ c b, sendWhatsAppAlert env o r isReminder ph = Except.ok (c, b)) ∧
      (∃ c b, sendTelegramAlert env o r isReminder ph = Except.ok (c, b)) ∧
      (∃ c b, sendSMSAlert env o r isReminder ph = Except.ok (c, b)) := by
  have key : ∀ (x : Option String), truthy x = true → ∃ v, x = some v ∧ v ≠ "" := by
    intro x hx
    cases x with
    | none => simp [truthy] at hx
    | some v => exact ⟨v, rfl, by simpa [truthy] using hx⟩
  refine ⟨?_, ?_, ?_, ⟨_, _, sendAlert_eq env o r .whatsapp isReminder ph⟩,
    ⟨_, _, sendAlert_eq env o r .telegram isReminder ph⟩,
    ⟨_, _, sendAlert_eq env o r .sms isReminder ph⟩⟩
  · intro c b h
    unfold sendWhatsAppAlert at h
    rw [sendAlert_eq] at h
    simp only [Except.ok.injEq, Prod.mk.injEq] at h
    obtain ⟨rfl, rfl⟩ := h
    refine ⟨?_, ?_⟩
    · intro hc
      simp only [contactsClient, Bool.and_eq_true] at hc
      exact ⟨hc.1.2, key _ hc.2⟩
    · rintro (h | h) <;> simp [adapterReturns, contactsClient, h, truthy]
  · intro c b h
    unfold sendTelegramAlert at h
    rw [sendAlert_eq] at h
    simp only [Except.ok.injEq, Prod.mk.injEq] at h
    obtain ⟨rfl, rfl⟩ := h
    refine ⟨?_, ?_⟩
    · intro hc
      simp only [contactsClient, Bool.and_eq_true] at hc
      exact ⟨hc.1.2, key _ hc.2⟩
    · rintro (h | h) <;> simp [adapterReturns, contactsClient, h, truthy]
  · intro c b h
    unfold sendSMSAlert at h
    rw [sendAlert_eq] at h
    simp only [Except.ok.injEq, Prod.mk.injEq] at h
    obtain ⟨rfl, rfl⟩ := h
    refine ⟨?_, ?_⟩
    · intro hc
      simp only [contactsClient, Bool.and_eq_true] at hc
      exact ⟨hc.1.2, key _ hc.2⟩
    · rintro (h | h) <;> simp [adapterReturns, contactsClient, h, truthy]

theorem joinRow_user {s : Store} {t : Task} {r : DueRow} (h : joinRow s t = some r) :
    r.user ∈ s.users ∧ r.user.id = t.user_id := by
  unfold joinRow at h
  cases hu : s.users.find? (fun u => u.id = t.user_id) with
  | none => simp [hu] at h
  | some u =>
    simp only [hu, Option.map_some', Option.some.injEq] at h
    rw [← h]
    exact ⟨List.mem_of_find?_eq_some hu, by simpa using List.find?_some hu⟩

theorem joinRow_isSome_of_owner {s : Store} {t : Task}
    (h : ∃ u ∈ s.users, u.id = t.user_id) : (joinRow s t).isSome = true := by
  obtain ⟨u, hu, hid⟩ := h
  unfold joinRow
  rw [Option.isSome_map', List.find?_isSome]
  exact ⟨u, hu, by simpa using hid⟩

/-- The due query against the date and the time of day that it computes itself
(the UTC date, the local time of day): at instant `now`, with `currentDate` and
`currentTime` these two values, `taskDB.getDueTasks` returns a row exactly
for the stored tasks that have `completed = 0` and a due date before
`currentDate`, or equal to it with a due time not later than `currentTime`.
Each row carries the task, the columns of its owner from `users` and the
subtasks of the task; where every task has an owner row (the foreign key of
`tasks`), the tasks of the rows are exactly the qualifying tasks, each once and
in table order: none that is completed or due later is returned and none that
qualifies is left out. -/
theorem due_query_exact (env : Env) (now : Int) (s : Store)
    (howner : ∀ t ∈ s.tasks, ∃ u ∈ s.users, u.id = t.user_id) :
    (∀ r ∈ taskDB.getDueTasks env now s,
        r.task ∈ s.tasks ∧ r.task.completed = false ∧
        (r.task.due_date < currentDate now ∨
          (r.task.due_date = currentDate now ∧ r.task.due_time ≤ currentTime env now)) ∧
        r.user ∈ s.users ∧ r.user.id = r.task.user_id ∧
        r.subtasks = s.subtasks.filter fun x => x.task_id = r.task.id) ∧
      (taskDB.getDueTasks env now s).map (fun r => r.task) =
        s.tasks.filter (fun t =>
          !t.completed &&
            (decide (t.due_date < currentDate now) ||
              (decide (t.due_date = currentDate now) &&
                decide (t.due_time ≤ currentTime env now)))) := by
  refine ⟨?_, ?_⟩
  · intro r hr
    obtain ⟨h1, h2, h3⟩ := mem_getDueTasks.1 hr
    have hq := h2
    simp only [dueQuery, Bool.and_eq_true, Bool.not_eq_true', Bool.or_eq_true,
      decide_eq_true_eq] at hq
    exact ⟨h1, hq.1, hq.2, (joinRow_user h3).1, (joinRow_user h3).2, joinRow_subtasks h3⟩
  · unfold taskDB.getDueTasks
    have hgen : ∀ l : List Task, (∀ t ∈ l, ∃ u ∈ s.users, u.id = t.user_id) →
        (l.filterMap fun t => if dueQuery env now t then joinRow s t else none).map
            (fun r => r.task) =
          l.filter (fun t => dueQuery env now t) := by
      intro l
      induction l with
      | nil => intro _; rfl
      | cons a l ih =>
        intro h
        have hl := ih (fun t ht => h t (List.mem_cons_of_mem _ ht))
        obtain ⟨r, hr⟩ := Option.isSome_iff_exists.1
          (joinRow_isSome_of_owner (h a (List.mem_cons_self _ _)))
        by_cases hq : dueQuery env now a = true
        · rw [List.filterMap_cons, List.filter_cons]
          simp only [hq, if_true, hr, List.map_cons]
          rw [hl, joinRow_task hr]
        · rw [List.filterMap_cons, List.filter_cons]
          simp only [hq, if_false, Bool.false_eq_true]
          exact hl
    exact hgen s.tasks howner

/-- Witness of `due_query_exact`: the store with the sample task at its due
time. -/
theorem due_query_exact_witness :
    (∀ t ∈ (storeOf sampleTask).tasks, ∃ u ∈ (storeOf sampleTask).users, u.id = t.user_id) ∧
      (taskDB.getDueTasks utc (utcInstant 2024 6 1 10 0) (storeOf sampleTask)).map
          (fun r => r.task) =
        (storeOf sampleTask).tasks.filter (fun t =>
          !t.completed &&
            (decide (t.due_date < currentDate (utcInstant 2024 6 1 10 0)) ||
              (decide (t.due_date = currentDate (utcInstant 2024 6 1 10 0)) &&
                decide (t.due_time ≤ currentTime utc (utcInstant 2024 6 1 10 0))))) :=
  ⟨by decide, (due_query_exact utc (utcInstant 2024 6 1 10 0) (storeOf sampleTask)
    (by decide)).2⟩

/-- Where the local date is the UTC date, the due query is the filter of the
specification at the local date and time: the tasks of the rows are exactly the
stored tasks that the filter selects. -/
theorem due_query_local_of_same_date (env : Env) (now : Int) (s : Store)
    (howner : ∀ t ∈ s.tasks, ∃ u ∈ s.users, u.id = t.user_id)
    (hdate : localDate env now = currentDate now) :
    (taskDB.getDueTasks env now s).map (fun r => r.task) =
      s.tasks.filter (dueAt (localDate env now) (currentTime env now)) := by
  rw [(due_query_exact env now s howner).2, hdate]
  rfl

/-- C24 (the code at two failing inputs).  Server at UTC-5, now
2024-06-02T01:00Z, which is 2024-06-01 20:00 local: the task due 2024-06-02
09:00 is due later than the current date and time, read in local time or in
UTC, and the query returns it.  Server at UTC+2, now 2024-06-01T22:20Z, which
is 2024-06-02 00:20 local: the task due 2024-06-01 22:00 is not completed and
is due before the current date and time, read in local time or in UTC, and the
query leaves it out.  In both runs the query compares with the UTC date and the
local time of day. -/
theorem due_query_mixes_utc_date_and_local_time :
    (localDate bogota (utcInstant 2024 6 2 1 0) = daysFromCivil 2024 6 1 ∧
        currentTime bogota (utcInstant 2024 6 2 1 0) = hhmm 20 0 ∧
        currentDate (utcInstant 2024 6 2 1 0) = daysFromCivil 2024 6 2 ∧
        utcTime (utcInstant 2024 6 2 1 0) = hhmm 1 0 ∧
        nextMorningTask.due_date = daysFromCivil 2024 6 2 ∧
        nextMorningTask.due_time = hhmm 9 0 ∧
        dueAt (localDate bogota (utcInstant 2024 6 2 1 0))
          (currentTime bogota (utcInstant 2024 6 2 1 0)) nextMorningTask = false ∧
        dueAt (currentDate (utcInstant 2024 6 2 1 0)) (utcTime (utcInstant 2024 6 2 1 0))
          nextMorningTask = false ∧
        (taskDB.getDueTasks bogota (utcInstant 2024 6 2 1 0) (storeOf nextMorningTask)).map
          (fun r => r.task) = [nextMorningTask]) ∧
      (localDate berlin (utcInstant 2024 6 1 22 20) = daysFromCivil 2024 6 2 ∧
        currentTime berlin (utcInstant 2024 6 1 22 20) = hhmm 0 20 ∧
        currentDate (utcInstant 2024 6 1 22 20) = daysFromCivil 2024 6 1 ∧
        utcTime (utcInstant 2024 6 1 22 20) = hhmm 22 20 ∧
        eveningTask.completed = false ∧
        eveningTask.due_date = daysFromCivil 2024 6 1 ∧ eveningTask.due_time = hhmm 22 0 ∧
        dueAt (localDate berlin (utcInstant 2024 6 1 22 20))
          (currentTime berlin (utcInstant 2024 6 1 22 20)) eveningTask = true ∧
        dueAt (currentDate (utcInstant 2024 6 1 22 20)) (utcTime (utcInstant 2024 6 1 22 20))
          eveningTask = true ∧
        taskDB.getDueTasks berlin (utcInstant 2024 6 1 22 20) (storeOf eveningTask) = []) := by
  decide

/-! ## The tick on a server at UTC, and west of it -/

theorem taskDateTime_le_of_dueQuery_utc {env : Env} {now0 now : Int} {t : Task}
    (htz : env.tzOffset = 0) (hw : t.due_time < 1440) (hle : now0 ≤ now)
    (hq : dueQuery env now0 t = true) : taskDateTime env t ≤ now := by
  simp only [dueQuery, Bool.and_eq_true, Bool.not_eq_true', Bool.or_eq_true,
    decide_eq_true_eq, currentDate, currentTime, htz] at hq
  unfold taskDateTime
  rw [htz]
  omega

theorem reminderDue_false_of_dueQuery_utc {env : Env} {now0 now : Int} {t : Task}
    (htz : env.tzOffset = 0) (hw : t.due_time < 1440) (hle : now0 ≤ now)
    (hq : dueQuery env now0 t = true) : reminderDue env now t = false := by
  have := taskDateTime_le_of_dueQuery_utc htz hw hle hq
  simp only [reminderDue, Bool.and_eq_false_iff, decide_eq_false_iff_not]
  right
  omega

/-- C28: on a server whose local time is UTC, with due times that are minutes
of a day, a task that `taskDB.getDueTasks` returns at an instant `now0` has its
due instant at or before every `now` from `now0` on, so the reminder condition
is false for it; a run of the tick makes no adapter call with
`isReminder = true`, none from the reminder branch, and turns no
`reminder_sent` from false to true. -/
theorem reminder_unreachable_utc (env : Env) (htz : env.tzOffset = 0) (now : Int) (s : Store)
    (hwf : s.WF) (hw : ∀ t ∈ s.tasks, 0 ≤ t.due_time ∧ t.due_time < 1440) :
    (∀ now0 ≤ now, ∀ r ∈ taskDB.getDueTasks env now0 s,
        taskDateTime env r.task ≤ now ∧ reminderDue env now r.task = false) ∧
      (∀ e ∈ (runTick env now s).sent, e.isReminder = false ∧ e.phase ≠ Phase.reminder) ∧
      (∀ t ∈ s.tasks, ∀ y ∈ (runTick env now s).store.tasks, y.id = t.id →
        y.reminder_sent = true → t.reminder_sent = true) := by
  refine ⟨?_, ?_, ?_⟩
  · intro now0 hle r hr
    obtain ⟨h1, h2, _⟩ := mem_getDueTasks.1 hr
    exact ⟨taskDateTime_le_of_dueQuery_utc htz (hw _ h1).2 hle h2,
      reminderDue_false_of_dueQuery_utc htz (hw _ h1).2 hle h2⟩
  · intro e he
    rw [runTick_sent, List.mem_flatMap] at he
    obtain ⟨r, hr, her⟩ := he
    obtain ⟨h1, h2, _⟩ := mem_getDueTasks.1 hr
    have hrem := reminderDue_false_of_dueQuery_utc htz (hw _ h1).2 (le_refl now) h2
    obtain ⟨_, _, h | h | h⟩ := mem_rowSends her
    · rw [hrem] at h; cases h.2.2
    · exact ⟨h.2.1, by rw [h.1]; decide⟩
    · exact ⟨h.2.1, by rw [h.1]; decide⟩
  · intro t ht y hy hid
    rw [(runTick_row env now s hwf t ht).2 y hy hid]
    unfold tickTask
    by_cases hf : fetched env now s t = true
    · have hrem := reminderDue_false_of_dueQuery_utc htz (hw _ ht).2 (le_refl now)
        (fetched_iff.1 hf).1
      rw [if_pos hf]
      unfold netEffect rowWrites
      by_cases h1 : t.completed = true <;> by_cases h2 : snoozed now t = true <;>
        by_cases h3 : snoozeExpired now t = true <;>
        by_cases h5 : alertDue env now t = true <;>
        by_cases h6 : escalationDue now t = true <;>
        simp [h1, h2, h3, hrem, h5, h6, Updates.apply]
    · rw [if_neg hf]
      exact id

/-- Witness of `reminder_unreachable_utc`: task A of the reminder scenario
(reminder 30 minutes before 10:00) on a UTC server, tick at 10:00. -/
theorem reminder_unreachable_utc_witness :
    utc.tzOffset = 0 ∧
      (∀ t ∈ (storeOf reminderTask).tasks, 0 ≤ t.due_time ∧ t.due_time < 1440) ∧
      (∀ e ∈ (runTick utc (utcInstant 2024 6 1 10 0) (storeOf reminderTask)).sent,
        e.isReminder = false ∧ e.phase ≠ Phase.reminder) :=
  ⟨rfl, by decide,
    (reminder_unreachable_utc utc rfl (utcInstant 2024 6 1 10 0) (storeOf reminderTask)
      ⟨by decide, by decide⟩ (by decide)).2.1⟩

/-- C29: on a server whose local time is UTC, with due times that are minutes of
a day, one run of the tick fires at most one of the reminder, due and
escalation branches for a task: all its adapter calls for the task come from
one branch, and of the three conditions, which the run evaluates on the row as
fetched, at most one holds for a fetched task.  On every server the due and the
escalation condition exclude each other on the same fetched row. -/
theorem one_phase_per_tick (env : Env) (htz : env.tzOffset = 0) (now : Int) (s : Store)
    (hwf : s.WF) (t : Task) (ht : t ∈ s.tasks) (hw : 0 ≤ t.due_time ∧ t.due_time < 1440) :
    (∀ e1 ∈ (runTick env now s).sent, ∀ e2 ∈ (runTick env now s).sent,
        e1.task_id = t.id → e2.task_id = t.id → e1.phase = e2.phase) ∧
      (fetched env now s t = true →
        reminderDue env now t = false ∧
          ¬ (alertDue env now t = true ∧ escalationDue now t = true)) ∧
      (∀ (e : Env) (x : Task), ¬ (alertDue e now x = true ∧ escalationDue now x = true)) := by
  have hex : ∀ (e : Env) (x : Task), ¬ (alertDue e now x = true ∧ escalationDue now x = true) := by
    rintro e x ⟨h1, h2⟩
    rw [alertDue_not_escalationDue h1] at h2
    cases h2
  refine ⟨?_, ?_, hex⟩
  · intro e1 he1 e2 he2 hid1 hid2
    obtain ⟨r1, hq, hj1, hr1⟩ := (runTick_sent_task env now s hwf t ht e1).1 ⟨he1, hid1⟩
    obtain ⟨r2, _, hj2, hr2⟩ := (runTick_sent_task env now s hwf t ht e2).1 ⟨he2, hid2⟩
    rw [hj1] at hj2
    cases hj2
    have hrt := joinRow_task hj1
    have hrem := reminderDue_false_of_dueQuery_utc htz hw.2 (le_refl now) hq
    obtain ⟨_, _, a | a | a⟩ := mem_rowSends hr1 <;>
      obtain ⟨_, _, b | b | b⟩ := mem_rowSends hr2
    · rw [a.1, b.1]
    · rw [hrt, hrem] at a; cases a.2.2
    · rw [hrt, hrem] at a; cases a.2.2
    · rw [hrt, hrem] at b; cases b.2.2
    · rw [a.1, b.1]
    · exact absurd ⟨a.2.2, b.2.2⟩ (hex env r1.task)
    · rw [hrt, hrem] at b; cases b.2.2
    · exact absurd ⟨b.2.2, a.2.2⟩ (hex env r1.task)
    · rw [a.1, b.1]
  · intro hf
    exact ⟨reminderDue_false_of_dueQuery_utc htz hw.2 (le_refl now) (fetched_iff.1 hf).1,
      hex env t⟩

/-- Witness of `one_phase_per_tick`: the high-priority task alerted at 10:00, on
a UTC server at 10:30. -/
theorem one_phase_per_tick_witness :
    utc.tzOffset = 0 ∧ (0 ≤ escalatingTask.due_time ∧ escalatingTask.due_time < 1440) ∧
      (∀ e1 ∈ (runTick utc (utcInstant 2024 6 1 10 30) (storeOf escalatingTask)).sent,
        ∀ e2 ∈ (runTick utc (utcInstant 2024 6 1 10 30) (storeOf escalatingTask)).sent,
          e1.task_id = escalatingTask.id → e2.task_id = escalatingTask.id →
            e1.phase = e2.phase) :=
  ⟨rfl, by decide,
    (one_phase_per_tick utc rfl (utcInstant 2024 6 1 10 30) (storeOf escalatingTask)
      ⟨by decide, by decide⟩ escalatingTask (by decide) (by decide)).1⟩

theorem alertDue_le_utc {env : Env} {now : Int} {t : Task} (htz : env.tzOffset = 0)
    (h : alertDue env now t = true) : taskDateTime env t ≤ now := by
  simp only [alertDue, Bool.and_eq_true, Bool.not_eq_true', decide_eq_true_eq, currentDate,
    currentTime, htz] at h
  unfold taskDateTime
  rw [htz]
  omega

/-- C23 (the code at the failing input): a server at UTC-5, local time
2024-06-01 20:00 (01:00 UTC on 2 June), a task due 2024-06-02 09:00 local, 13
hours ahead.  The tick takes the date from `toISOString` (2024-06-02, the UTC
date) and the time from `toTimeString` (20:00, local): the query returns the
task, the due condition holds, the due alert is sent and the row is stored
with `notified = 1` and `alert_count = 1`. -/
theorem due_alert_fires_early_west_of_utc :
    civilFromDays ((utcInstant 2024 6 2 1 0 + bogota.tzOffset * 60000) / 86400000) =
        (2024, 6, 1) ∧
      currentTime bogota (utcInstant 2024 6 2 1 0) = hhmm 20 0 ∧
      utcInstant 2024 6 2 1 0 + 13 * 3600000 = taskDateTime bogota nextMorningTask ∧
      alertDue bogota (utcInstant 2024 6 2 1 0) nextMorningTask = true ∧
      runTick bogota (utcInstant 2024 6 2 1 0) (storeOf nextMorningTask) =
        ⟨storeOf { nextMorningTask with
                   notified := true, alert_count := some 1,
                   last_alert_sent := some (utcInstant 2024 6 2 1 0) },
         [⟨Channel.whatsapp, 1, false, Phase.due, true⟩,
          ⟨Channel.telegram, 1, false, Phase.due, false⟩,
          ⟨Channel.sms, 1, false, Phase.due, false⟩]⟩ := by
  decide

/-! ## Snooze and successive ticks -/

theorem runTicks_cons (env : Env) (now : Int) (nows : List Int) (st : TickState) :
    runTicks env (now :: nows) st =
      runTicks env nows
        { store := (runTick env now st.store).store
          sent := st.sent ++ (runTick env now st.store).sent } := rfl

theorem runTick_of_snoozed (env : Env) (now : Int) (s : Store) (hwf : s.WF) (t : Task)
    (ht : t ∈ s.tasks) (hsn : snoozed now t = true) :
    (∀ e ∈ (runTick env now s).sent, e.task_id ≠ t.id) ∧ t ∈ (runTick env now s).store.tasks := by
  have htick : tickTask env now s t = t := by
    unfold tickTask netEffect rowWrites
    simp [hsn]
  obtain ⟨h1, _⟩ := runTick_row env now s hwf t ht
  rw [htick] at h1
  refine ⟨?_, h1⟩
  intro e he hid
  obtain ⟨r, _, hj, hr⟩ := (runTick_sent_task env now s hwf t ht e).1 ⟨he, hid⟩
  have hrt := joinRow_task hj
  simp [rowSends, hrt, hsn] at hr

theorem runTicks_of_snoozed (env : Env) (nows : List Int) (st : TickState) (hwf : st.store.WF)
    (t : Task) (ht : t ∈ st.store.tasks) (u : Int) (hs : t.snoozed_until = some u)
    (hu : ∀ n ∈ nows, n < u) :
    (runTicks env nows st).store.WF ∧ t ∈ (runTicks env nows st).store.tasks ∧
      ∀ e ∈ (runTicks env nows st).sent, e.task_id = t.id → e ∈ st.sent := by
  induction nows generalizing st with
  | nil => exact ⟨hwf, ht, fun e he _ => he⟩
  | cons now nows ih =>
    rw [runTicks_cons]
    obtain ⟨h1, h2⟩ := runTick_of_snoozed env now st.store hwf t ht
      (snoozed_of_some hs (hu now (List.mem_cons_self _ _)))
    obtain ⟨i1, i2, i3⟩ := ih
      { store := (runTick env now st.store).store
        sent := st.sent ++ (runTick env now st.store).sent }
      (runTick_wf env now st.store hwf) h2 (fun n hn => hu n (List.mem_cons_of_mem _ hn))
    refine ⟨i1, i2, ?_⟩
    intro e he hid
    rcases List.mem_append.1 (i3 e he hid) with h | h
    · exact h
    · exact absurd hid (h1 e h)

theorem mem_unique_of_wf {s : Store} (hwf : s.WF) {x y : Task} (hx : x ∈ s.tasks)
    (hy : y ∈ s.tasks) (hid : x.id = y.id) : x = y :=
  List.inj_on_of_nodup_map hwf.nodup hx hy hid

theorem snooze_ok (s : Store) (taskId userId : Nat) (m now : Int)
    (hv : validTime (now + m * 60000) = true) :
    taskDB.snooze s taskId userId m now =
      Except.ok ({ s with
                   tasks := s.tasks.map (onRow taskId userId fun x =>
                     { x with snoozed_until := some (now + m * 60000) }) },
                 (s.tasks.filter fun x => x.id = taskId ∧ x.user_id = userId).length) := by
  unfold taskDB.snooze
  rw [if_pos hv]
  rfl

theorem snooze_tasks (s : Store) (hwf : s.WF) (t : Task) (ht : t ∈ s.tasks) (u : Int) :
    s.tasks.map (onRow t.id t.user_id fun x => { x with snoozed_until := some u }) =
      s.tasks.map (fun x => if x.id = t.id then { x with snoozed_until := some u } else x) := by
  apply List.map_congr_left
  intro x hx
  unfold onRow
  by_cases h : x.id = t.id
  · have hxt := mem_unique_of_wf hwf hx ht h
    subst hxt
    simp
  · simp [h]

theorem snooze_wf (s : Store) (hwf : s.WF) (taskId userId : Nat) (u : Int) :
    ({ s with
       tasks := s.tasks.map (onRow taskId userId fun x =>
         { x with snoozed_until := some u }) } : Store).WF := by
  have hids : ((s.tasks.map (onRow taskId userId fun x =>
      { x with snoozed_until := some u })).map fun t => t.id) = s.tasks.map fun t => t.id := by
    simp only [List.map_map]
    apply List.map_congr_left
    intro x _
    simp only [Function.comp]
    unfold onRow
    split <;> rfl
  constructor
  · show ((s.tasks.map (onRow taskId userId fun x =>
      { x with snoozed_until := some u })).map fun t => t.id).Nodup
    rw [hids]; exact hwf.nodup
  · intro x hx
    have : x.id ∈ (s.tasks.map (onRow taskId userId fun x =>
        { x with snoozed_until := some u })).map fun t => t.id :=
      List.mem_map_of_mem _ hx
    rw [hids] at this
    obtain ⟨y, hy, hid⟩ := List.mem_map.1 this
    have := hwf.bound y hy
    show x.id ≤ s.task_seq
    omega

/-- C25: snoozing a task for `m > 0` minutes at instant `τ` (the handler of
`POST /api/tasks/:id/snooze` in the session of the owner).  When `τ + m` minutes
is not a time value that a `Date` can hold, the handler answers 500 and stores
nothing: the task is not snoozed.  Otherwise the handler answers 200 and stores
`snoozed_until = τ + m` minutes on that task; no other column of the task and no
other task, user or subtask changes; whatever ticks then run at instants
strictly before `τ + m` minutes, none makes an adapter call for the task, and
the stored task stays as the snooze left it. -/
theorem snooze_suppresses_alerts (env : Env) (s : Store) (hwf : s.WF) (t : Task)
    (ht : t ∈ s.tasks) (m : Int) (hm : 0 < m) (τ : Int) (nows : List Int)
    (hn : ∀ n ∈ nows, n < τ + m * 60000) :
    (validTime (τ + m * 60000) = false → postSnooze s t.user_id t.id m τ = (s, 500)) ∧
      (validTime (τ + m * 60000) = true →
        (postSnooze s t.user_id t.id m τ).2 = 200 ∧
        (postSnooze s t.user_id t.id m τ).1.tasks =
          s.tasks.map (fun x =>
            if x.id = t.id then { x with snoozed_until := some (τ + m * 60000) } else x) ∧
        (postSnooze s t.user_id t.id m τ).1.users = s.users ∧
        (postSnooze s t.user_id t.id m τ).1.subtasks = s.subtasks ∧
        (∀ e ∈ (runTicks env nows ⟨(postSnooze s t.user_id t.id m τ).1, []⟩).sent,
          e.task_id ≠ t.id) ∧
        (∀ y ∈ (runTicks env nows ⟨(postSnooze s t.user_id t.id m τ).1, []⟩).store.tasks,
          y.id = t.id → y = { t with snoozed_until := some (τ + m * 60000) })) := by
  constructor
  · intro hv
    unfold postSnooze taskDB.snooze
    rw [if_neg (by omega), if_neg (by simp [hv])]
  · intro hv
    have hpos : (s.tasks.filter fun x => x.id = t.id ∧ x.user_id = t.user_id).length > 0 := by
      apply List.length_pos_of_mem (a := t)
      exact List.mem_filter.2 ⟨ht, by simp⟩
    have hpost : postSnooze s t.user_id t.id m τ =
        ({ s with
           tasks := s.tasks.map (onRow t.id t.user_id fun x =>
             { x with snoozed_until := some (τ + m * 60000) }) }, 200) := by
      unfold postSnooze
      rw [if_neg (by omega), snooze_ok s t.id t.user_id m τ hv]
      simp only []
      exact if_pos hpos
    have htasks := snooze_tasks s hwf t ht (τ + m * 60000)
    have hwf2 := snooze_wf s hwf t.id t.user_id (τ + m * 60000)
    have hmem : ({ t with snoozed_until := some (τ + m * 60000) } : Task) ∈
        s.tasks.map (onRow t.id t.user_id fun x =>
          { x with snoozed_until := some (τ + m * 60000) }) := by
      rw [htasks]
      refine List.mem_map.2 ⟨t, ht, ?_⟩
      simp
    rw [hpost]
    obtain ⟨r1, r2, r3⟩ := runTicks_of_snoozed env nows
      ⟨{ s with
         tasks := s.tasks.map (onRow t.id t.user_id fun x =>
           { x with snoozed_until := some (τ + m * 60000) }) }, []⟩
      hwf2 _ hmem (τ + m * 60000) rfl hn
    refine ⟨rfl, htasks, rfl, rfl, ?_, ?_⟩
    · intro e he hid
      have := r3 e he hid
      cases this
    · intro y hy hid
      exact mem_unique_of_wf r1 hy r2 hid

/-- Witness of `snooze_suppresses_alerts`: the escalating task, snoozed at 10:10
for 30 minutes, ticks at 10:30 and 10:39; and the same task snoozed for
200000000000 minutes, which the handler refuses with 500. -/
theorem snooze_suppresses_alerts_witness :
    (0 : Int) < 30 ∧
      validTime (utcInstant 2024 6 1 10 10 + 30 * 60000) = true ∧
      (postSnooze (storeOf escalatingTask) escalatingTask.user_id escalatingTask.id 30
        (utcInstant 2024 6 1 10 10)).2 = 200 ∧
      (∀ e ∈ (runTicks utc [utcInstant 2024 6 1 10 30, utcInstant 2024 6 1 10 39]
          ⟨(postSnooze (storeOf escalatingTask) escalatingTask.user_id escalatingTask.id 30
            (utcInstant 2024 6 1 10 10)).1, []⟩).sent,
        e.task_id ≠ escalatingTask.id) ∧
      postSnooze (storeOf escalatingTask) escalatingTask.user_id escalatingTask.id 200000000000
        (utcInstant 2024 6 1 10 10) = (storeOf escalatingTask, 500) :=
  ⟨by decide, by decide,
    ((snooze_suppresses_alerts utc (storeOf escalatingTask) ⟨by decide, by decide⟩ escalatingTask
      (by decide) 30 (by decide) (utcInstant 2024 6 1 10 10)
      [utcInstant 2024 6 1 10 30, utcInstant 2024 6 1 10 39] (by decide)).2 (by decide)).1,
    ((snooze_suppresses_alerts utc (storeOf escalatingTask) ⟨by decide, by decide⟩ escalatingTask
      (by decide) 30 (by decide) (utcInstant 2024 6 1 10 10)
      [utcInstant 2024 6 1 10 30, utcInstant 2024 6 1 10 39] (by decide)).2 (by decide)).2.2.2.2.1,
    (snooze_suppresses_alerts utc (storeOf escalatingTask) ⟨by decide, by decide⟩ escalatingTask
      (by decide) 200000000000 (by decide) (utcInstant 2024 6 1 10 10) [] (by simp)).1
      (by decide)⟩

/-- C26 (the code at the failing input): UTC server, a high-priority task
alerted once at 10:00 (`alert_count = 1`) and snoozed until 11:00.  The tick at
11:00 finds the snooze expired and resets `notified`, and in the same run the
escalation branch, which still reads `notified = 1` from the fetched row, sends
an alert and stores `alert_count = 2`.  The tick at 11:01 re-fires the due alert
and stores `alert_count = 3`, which is `c + 2`, not `c + 1`. -/
theorem snooze_cycle_counts_twice :
    snoozedTask.notified = true ∧ snoozedTask.alert_count = some 1 ∧
      snoozedTask.snoozed_until = some (utcInstant 2024 6 1 11 0) ∧
      (runTick utc (utcInstant 2024 6 1 11 0) (storeOf snoozedTask)).store =
        storeOf { snoozedTask with
                  snoozed_until := none, notified := false, alert_count := some 2,
                  last_alert_sent := some (utcInstant 2024 6 1 11 0) } ∧
      (runTicks utc [utcInstant 2024 6 1 11 0, utcInstant 2024 6 1 11 1]
          ⟨storeOf snoozedTask, []⟩).store =
        storeOf { snoozedTask with
                  snoozed_until := none, notified := true, alert_count := some 3,
                  last_alert_sent := some (utcInstant 2024 6 1 11 1) } ∧
      (runTicks utc [utcInstant 2024 6 1 11 0, utcInstant 2024 6 1 11 1]
          ⟨storeOf snoozedTask, []⟩).sent.map (fun e => e.phase) =
        [Phase.escalation, Phase.escalation, Phase.escalation, Phase.due, Phase.due,
          Phase.due] := by
  decide

/-- The snooze cycle when the escalation branch does not fire in the run that
finds the snooze expired (as with five alerts or more): that run leaves the
task not notified with its `alert_count` as it was, the later run in which the
due alert fires again stores the count plus one, and with a count of five or
more the escalation condition is false at every instant. -/
theorem snooze_cycle_count (env : Env) (now1 now2 : Int) (s : Store) (hwf : s.WF) (t : Task)
    (ht : t ∈ s.tasks) (hf : fetched env now1 s t = true) (u : Int)
    (hs : t.snoozed_until = some u) (hu : u ≤ now1) (hnot : t.notified = true) (c : Int)
    (hc : t.alert_count = some c) (hesc : escalationDue now1 t = false) :
    ∃ y1 ∈ (runTick env now1 s).store.tasks,
      y1.id = t.id ∧ y1.notified = false ∧ y1.snoozed_until = none ∧
      y1.alert_count = some c ∧
      (fetched env now2 (runTick env now1 s).store y1 = true →
        alertDue env now2 y1 = true →
        ∀ y2 ∈ (runTick env now2 (runTick env now1 s).store).store.tasks, y2.id = t.id →
          y2.notified = true ∧ y2.alert_count = some (c + 1)) ∧
      (5 ≤ c → ∀ (now : Int) (y : Task), y.alert_count = some (c + 1) →
        escalationDue now y = false) := by
  have hexp : snoozeExpired now1 t = true := (snoozeExpired_iff now1 t).2 ⟨u, hs, hu⟩
  have hsn := not_snoozed_of_expired hexp
  have hcomp := not_completed_of_dueQuery (fetched_iff.1 hf).1
  have hdue : alertDue env now1 t = false := by simp [alertDue, hnot]
  have hwf1 := runTick_wf env now1 s hwf
  have hrow := (runTick_row env now1 s hwf t ht).1
  have e1 : (tickTask env now1 s t).notified = false ∧
      (tickTask env now1 s t).snoozed_until = none ∧
      (tickTask env now1 s t).alert_count = some c := by
    unfold tickTask netEffect rowWrites
    by_cases h4 : reminderDue env now1 t = true <;>
      simp [hf, hcomp, hsn, hexp, h4, hdue, hesc, Updates.apply, hc]
  refine ⟨tickTask env now1 s t, hrow, tickTask_id env now1 s t, e1.1, e1.2.1, e1.2.2, ?_, ?_⟩
  · intro hf2 hdue2 y2 hy2 hid
    rw [← tickTask_id env now1 s t] at hid
    rw [(runTick_row env now2 _ hwf1 _ hrow).2 y2 hy2 hid]
    have hcomp2 := not_completed_of_dueQuery (fetched_iff.1 hf2).1
    have hsn2 : snoozed now2 (tickTask env now1 s t) = false := snoozed_of_none e1.2.1
    have hse2 : snoozeExpired now2 (tickTask env now1 s t) = false :=
      snoozeExpired_of_none e1.2.1
    have hesc2 := alertDue_not_escalationDue hdue2
    generalize tickTask env now1 s t = y1 at *
    unfold tickTask netEffect rowWrites
    by_cases h4 : reminderDue env now2 y1 = true <;>
      simp [hf2, hcomp2, hsn2, hse2, h4, hdue2, hesc2, Updates.apply, e1.2.2]
  · intro h5 now y hy
    exact escalationDue_false_of_cap hy (by omega)

/-! ## The alert count over successive ticks -/

theorem flatMap_rowSends_filter_ne (env : Env) (now : Int) (s : Store) (l : List Task) (i : Nat)
    (h : ∀ x ∈ l, x.id ≠ i) (p : Send → Bool) :
    (((l.filterMap fun t => if dueQuery env now t then joinRow s t else none).flatMap
        (rowSends env now)).filter fun e => decide (e.task_id = i) && p e) = [] := by
  apply filter_eq_nil_of_forall
  intro e he
  obtain ⟨r, hr, her⟩ := List.mem_flatMap.1 he
  obtain ⟨x, hx, hxr⟩ := List.mem_filterMap.1 hr
  have hrt : r.task = x := by
    by_cases hq : dueQuery env now x = true
    · rw [if_pos hq] at hxr; exact joinRow_task hxr
    · rw [if_neg hq] at hxr; cases hxr
  have hid := rowSends_task_id env now r e her
  rw [hrt] at hid
  have := h x hx
  simp [hid, this]

theorem flatMap_rowSends_filter (env : Env) (now : Int) (s : Store) (l : List Task)
    (hnd : (l.map fun t => t.id).Nodup) (t : Task) (ht : t ∈ l) (p : Send → Bool) :
    (((l.filterMap fun t => if dueQuery env now t then joinRow s t else none).flatMap
        (rowSends env now)).filter fun e => decide (e.task_id = t.id) && p e) =
      match (if dueQuery env now t then joinRow s t else none) with
      | some r => (rowSends env now r).filter p
      | none => [] := by
  induction l with
  | nil => cases ht
  | cons a l ih =>
    rw [List.map_cons, List.nodup_cons] at hnd
    have hhead : ∀ (r : DueRow), (if dueQuery env now a then joinRow s a else none) = some r →
        r.task = a := by
      intro r hr
      by_cases hq : dueQuery env now a = true
      · rw [if_pos hq] at hr; exact joinRow_task hr
      · rw [if_neg hq] at hr; cases hr
    rcases List.mem_cons.1 ht with rfl | ht
    · have htail := flatMap_rowSends_filter_ne env now s l t.id (by
        intro x hx hid
        exact hnd.1 (List.mem_map.2 ⟨x, hx, hid⟩)) p
      rw [List.filterMap_cons]
      cases hg : (if dueQuery env now t then joinRow s t else none) with
      | none => simpa using htail
      | some r =>
        simp only [List.flatMap_cons, List.filter_append]
        rw [htail, List.append_nil]
        have hrt := hhead r hg
        apply List.filter_congr
        intro e he
        have := rowSends_task_id env now r e he
        rw [hrt] at this
        simp [this]
    · have hne : a.id ≠ t.id := by
        intro hid
        exact hnd.1 (List.mem_map.2 ⟨t, ht, hid.symm⟩)
      rw [List.filterMap_cons]
      cases hg : (if dueQuery env now a then joinRow s a else none) with
      | none => simpa using ih hnd.2 ht
      | some r =>
        simp only [List.flatMap_cons, List.filter_append]
        rw [ih hnd.2 ht]
        have hrt := hhead r hg
        have : (rowSends env now r).filter (fun e => decide (e.task_id = t.id) && p e) = [] := by
          apply filter_eq_nil_of_forall
          intro e he
          have := rowSends_task_id env now r e he
          rw [hrt] at this
          simp [this, hne]
        rw [this, List.nil_append]

theorem dispatchRounds_append (l1 l2 : List Send) (i : Nat) :
    dispatchRounds (l1 ++ l2) i = dispatchRounds l1 i + dispatchRounds l2 i := by
  simp [dispatchRounds, List.filter_append]

theorem dispatchRounds_runTick (env : Env) (now : Int) (s : Store) (hwf : s.WF) (t : Task)
    (ht : t ∈ s.tasks) :
    dispatchRounds (runTick env now s).sent t.id =
      if fetched env now s t = true ∧ snoozed now t = false then
        (if alertDue env now t then 1 else 0) + (if escalationDue now t then 1 else 0)
      else 0 := by
  unfold dispatchRounds
  rw [runTick_sent]
  unfold taskDB.getDueTasks
  have h := flatMap_rowSends_filter env now s s.tasks hwf.nodup t ht
    (fun e => decide (e.phase ≠ Phase.reminder) && decide (e.channel = Channel.whatsapp))
  have hfun : (fun e : Send => decide (e.task_id = t.id) && decide (e.phase ≠ Phase.reminder) &&
      decide (e.channel = Channel.whatsapp)) =
      fun e => decide (e.task_id = t.id) &&
        (decide (e.phase ≠ Phase.reminder) && decide (e.channel = Channel.whatsapp)) := by
    funext e
    rw [Bool.and_assoc]
  rw [hfun, h]
  by_cases hq : dueQuery env now t = true
  · rw [if_pos hq]
    cases hj : joinRow s t with
    | none => simp [fetched, hj]
    | some r =>
      have hrt := joinRow_task hj
      have hc := not_completed_of_dueQuery hq
      simp only [fetched, hq, hj, Option.isSome_some, Bool.and_self, true_and]
      unfold rowSends
      rw [hrt]
      by_cases h2 : snoozed now t = true
      · simp [h2]
      · by_cases h4 : reminderDue env now t = true <;>
          by_cases h5 : alertDue env now t = true <;>
          by_cases h6 : escalationDue now t = true <;>
          simp [hc, h2, h4, h5, h6, alertAll, List.filter_cons]
  · simp [fetched, hq]

theorem tick_count_step (env : Env) (now : Int) (s : Store) (y : Task) (k : Nat)
    (hsn : y.snoozed_until = none) (hk : y.alert_count = some (k : Int)) (h5 : k ≤ 5)
    (hn : y.notified = false → k = 0) (hp : y.priority ≠ some "high" → k ≤ 1) :
    ∃ d : Nat,
      (if fetched env now s y = true ∧ snoozed now y = false then
        (if alertDue env now y then 1 else 0) + (if escalationDue now y then 1 else 0)
      else 0) = d ∧
      (tickTask env now s y).snoozed_until = none ∧
      (tickTask env now s y).alert_count = some ((k + d : Nat) : Int) ∧ k + d ≤ 5 ∧
      ((tickTask env now s y).notified = false → k + d = 0) ∧
      ((tickTask env now s y).priority ≠ some "high" → k + d ≤ 1) ∧
      (tickTask env now s y).priority = y.priority := by
  have hs1 : snoozed now y = false := snoozed_of_none hsn
  have hs2 : snoozeExpired now y = false := snoozeExpired_of_none hsn
  unfold tickTask
  by_cases hf : fetched env now s y = true
  · have hc := not_completed_of_dueQuery (fetched_iff.1 hf).1
    by_cases ha : alertDue env now y = true
    · have he := alertDue_not_escalationDue ha
      have hnot : y.notified = false := by
        simp only [alertDue, Bool.and_eq_true, Bool.not_eq_true'] at ha
        exact ha.1.1
      have hk0 := hn hnot
      subst hk0
      refine ⟨1, by simp [hf, hs1, ha, he], ?_⟩
      unfold netEffect rowWrites
      by_cases h4 : reminderDue env now y = true <;>
        simp [hf, hc, hs1, hs2, h4, ha, he, Updates.apply, hsn, hk]
    · by_cases he : escalationDue now y = true
      · have hesc := (escalationDue_iff now y).1 he
        refine ⟨1, by simp [hf, hs1, ha, he], ?_⟩
        have hhigh : y.priority = some "high" := by
          simp only [escalationDue, Bool.and_eq_true, decide_eq_true_eq] at he
          exact he.1.1.2
        have hnotif : y.notified = true := by
          simp only [escalationDue, Bool.and_eq_true] at he
          exact he.1.1.1
        have hlt : k < 5 := by
          simp only [escalationDue, Bool.and_eq_true, decide_eq_true_eq, hk] at he
          obtain ⟨_, he2⟩ := he
          cases hl : y.last_alert_sent with
          | none => simp [hl] at he2
          | some L =>
            simp only [hl, Bool.and_eq_true, decide_eq_true_eq, Option.getD_some] at he2
            omega
        unfold netEffect rowWrites
        by_cases h4 : reminderDue env now y = true <;>
          simp [hf, hc, hs1, hs2, h4, ha, he, Updates.apply, hsn, hk, hhigh, hnotif] <;> omega
      · refine ⟨0, by simp [hf, hs1, ha, he], ?_⟩
        unfold netEffect rowWrites
        by_cases h4 : reminderDue env now y = true <;>
          simp [hf, hc, hs1, hs2, h4, ha, he, Updates.apply, hsn, hk] <;>
          exact ⟨h5, hn, hp⟩
  · refine ⟨0, by simp [hf], ?_⟩
    simp only [hf, if_false, Bool.false_eq_true, Nat.add_zero]
    exact ⟨hsn, hk, h5, hn, hp, trivial⟩

theorem runTicks_count (env : Env) (nows : List Int) (st : TickState) (hwf : st.store.WF)
    (y : Task) (hy : y ∈ st.store.tasks) (k : Nat) (hsn : y.snoozed_until = none)
    (hk : y.alert_count = some (k : Int)) (h5 : k ≤ 5) (hn : y.notified = false → k = 0)
    (hp : y.priority ≠ some "high" → k ≤ 1) :
    ∃ z ∈ (runTicks env nows st).store.tasks, ∃ d : Nat,
      z.id = y.id ∧ (runTicks env nows st).store.WF ∧
      z.alert_count = some ((k + d : Nat) : Int) ∧
      dispatchRounds (runTicks env nows st).sent y.id = dispatchRounds st.sent y.id + d ∧
      k + d ≤ 5 ∧ (y.priority ≠ some "high" → k + d ≤ 1) := by
  induction nows generalizing st y k with
  | nil => exact ⟨y, hy, 0, rfl, hwf, hk, rfl, h5, hp⟩
  | cons now nows ih =>
    rw [runTicks_cons]
    obtain ⟨d, hd, t1, t2, t3, t4, t5, t6⟩ := tick_count_step env now st.store y k hsn hk h5 hn hp
    have hrounds := dispatchRounds_runTick env now st.store hwf y hy
    rw [hd] at hrounds
    obtain ⟨z, hz, e, z1, z2, z3, z4, z5, z6⟩ := ih
      { store := (runTick env now st.store).store
        sent := st.sent ++ (runTick env now st.store).sent }
      (runTick_wf env now st.store hwf) (tickTask env now st.store y)
      (runTick_row env now st.store hwf y hy).1 (k + d) t1 t2 t3 t4 t5
    rw [tickTask_id] at z1 z4
    rw [t6] at z6
    refine ⟨z, hz, d + e, z1, z2, ?_, ?_, ?_, ?_⟩
    · rw [z3, Nat.add_assoc]
    · rw [z4, dispatchRounds_append, hrounds]
      omega
    · omega
    · intro h
      have := z6 h
      omega

/-- C30: a stored task that is fresh (`alert_count = 0` and no snooze, as
`taskDB.create` leaves it; `notified = 0` is not even needed), after any
sequence of ticks with nothing else touching the database (at non-decreasing
instants or in any other order): it is still stored, under its id, with an
`alert_count` that equals the number of alert rounds the due and escalation
branches made for it, is at most 5, and is at most 1 when the priority of the
task is not `'high'`. -/
theorem alert_count_invariant (env : Env) (nows : List Int) (s : Store) (hwf : s.WF) (t : Task)
    (ht : t ∈ s.tasks) (hcount : t.alert_count = some 0) (hsn : t.snoozed_until = none) :
    ∃ z ∈ (runTicks env nows ⟨s, []⟩).store.tasks,
      z.id = t.id ∧
      (∀ y ∈ (runTicks env nows ⟨s, []⟩).store.tasks, y.id = t.id → y = z) ∧
      ∃ k : Nat, z.alert_count = some (k : Int) ∧
        dispatchRounds (runTicks env nows ⟨s, []⟩).sent t.id = k ∧ k ≤ 5 ∧
        (t.priority ≠ some "high" → k ≤ 1) := by
  obtain ⟨z, hz, d, z1, z2, z3, z4, z5, z6⟩ := runTicks_count env nows ⟨s, []⟩ hwf t ht 0 hsn
    (by rw [hcount]; rfl) (by omega) (fun _ => rfl) (fun _ => by omega)
  refine ⟨z, hz, z1, ?_, d, ?_, ?_, by omega, fun h => by have := z6 h; omega⟩
  · intro y hy hid
    exact mem_unique_of_wf z2 hy hz (hid.trans z1.symm)
  · rw [z3]; simp
  · rw [z4]; simp [dispatchRounds]

/-- Witness of `alert_count_invariant`: the sample task, fresh, ticked on a UTC
server at 10:00, 10:30 and 11:00. -/
theorem alert_count_invariant_witness :
    sampleTask.alert_count = some 0 ∧ sampleTask.snoozed_until = none ∧
      ∃ z ∈ (runTicks utc
            [utcInstant 2024 6 1 10 0, utcInstant 2024 6 1 10 30, utcInstant 2024 6 1 11 0]
            ⟨storeOf sampleTask, []⟩).store.tasks,
        z.id = sampleTask.id ∧
        (∀ y ∈ (runTicks utc
              [utcInstant 2024 6 1 10 0, utcInstant 2024 6 1 10 30, utcInstant 2024 6 1 11 0]
              ⟨storeOf sampleTask, []⟩).store.tasks, y.id = sampleTask.id → y = z) ∧
        ∃ k : Nat, z.alert_count = some (k : Int) ∧
          dispatchRounds (runTicks utc
              [utcInstant 2024 6 1 10 0, utcInstant 2024 6 1 10 30, utcInstant 2024 6 1 11 0]
              ⟨storeOf sampleTask, []⟩).sent sampleTask.id = k ∧ k ≤ 5 ∧
          (sampleTask.priority ≠ some "high" → k ≤ 1) :=
  ⟨rfl, rfl,
    alert_count_invariant utc
      [utcInstant 2024 6 1 10 0, utcInstant 2024 6 1 10 30, utcInstant 2024 6 1 11 0]
      (storeOf sampleTask) ⟨by decide, by decide⟩ sampleTask (by decide) rfl rfl⟩

/-! ## Failing statements -/

theorem mutate_noFaults (taskId : Nat) (m : Mutation) (f : Store → Store) (st : TickState) :
    mutate noFaults taskId m f st = Except.ok { st with store := f st.store } := rfl

theorem foldlM_enumFrom_noFaults (taskId newId : Nat) (l : List Subtask) (n : Nat)
    (st : TickState) :
    (l.enumFrom n).foldlM
        (fun acc p =>
          mutate noFaults taskId (.insertSubtask p.1)
            (fun s => subtaskDB.add s newId p.2.text) acc) st =
      Except.ok
        { st with
          store := l.foldl (fun acc subtask => subtaskDB.add acc newId subtask.text) st.store } := by
  induction l generalizing n st with
  | nil => rfl
  | cons a l ih =>
    rw [List.enumFrom_cons, List.foldlM_cons, mutate_noFaults]
    simp only [bind, Except.bind]
    rw [ih]
    rfl

theorem regenerateFaulty_noFaults (env : Env) (now : Int) (r : DueRow) (st : TickState) :
    regenerateFaulty env noFaults now r st =
      Except.ok { st with store := regenerate env now r st.store } := by
  unfold regenerateFaulty regenerate
  simp only [noFaults, Bool.false_eq_true, if_false]
  exact foldlM_enumFrom_noFaults _ _ _ _ _

theorem processTaskFaulty_noFaults (env : Env) (now : Int) (r : DueRow) (st : TickState) :
    processTaskFaulty env noFaults now r st = Except.ok (processTask env now r st) := by
  unfold processTaskFaulty processTask escalationPhase duePhase reminderPhase snoozePhase
  by_cases h1 : r.task.completed = true <;> by_cases h2 : snoozed now r.task = true <;>
    by_cases h3 : snoozeExpired now r.task = true <;>
    by_cases h4 : reminderDue env now r.task = true <;>
    by_cases h5 : alertDue env now r.task = true <;>
    by_cases h6 : escalationDue now r.task = true <;>
    by_cases h7 : r.task.recurring = some "none" <;>
    simp [h1, h2, h3, h4, h5, h6, h7, mutate_noFaults, regenerateFaulty_noFaults, bind,
      Except.bind, pure, Except.pure]

theorem runRowsFaulty_noFaults (env : Env) (now : Int) (rows : List DueRow) (st : TickState) :
    runRowsFaulty env noFaults now rows st = Except.ok (runRows env now rows st) := by
  unfold runRowsFaulty
  induction rows generalizing st with
  | nil => rfl
  | cons r rs ih =>
    rw [List.foldlM_cons, processTaskFaulty_noFaults]
    simp only [bind, Except.bind]
    rw [ih]
    rfl

theorem runTickFaulty_noFaults (env : Env) (now : Int) (s : Store) :
    runTickFaulty env noFaults now s = (runTick env now s, false) := by
  unfold runTickFaulty
  rw [runRowsFaulty_noFaults]
  rfl

theorem Frame.refl (ids : List Nat) (st : TickState) : Frame ids st st :=
  ⟨⟨[], by simp, by simp⟩, fun _ hx _ => hx⟩

theorem Frame.trans {ids : List Nat} {a b c : TickState} (h1 : Frame ids a b)
    (h2 : Frame ids b c) : Frame ids a c := by
  obtain ⟨⟨e1, hs1, he1⟩, ht1⟩ := h1
  obtain ⟨⟨e2, hs2, he2⟩, ht2⟩ := h2
  refine ⟨⟨e1 ++ e2, by rw [hs2, hs1, List.append_assoc], ?_⟩, fun x hx hn => ht2 x (ht1 x hx hn) hn⟩
  intro e he
  rcases List.mem_append.1 he with h | h
  · exact he1 e h
  · exact he2 e h

theorem Frame.mono {ids ids2 : List Nat} {a b : TickState} (h : Frame ids a b)
    (hsub : ∀ i ∈ ids, i ∈ ids2) : Frame ids2 a b := by
  obtain ⟨⟨e1, hs1, he1⟩, ht1⟩ := h
  exact ⟨⟨e1, hs1, fun e he => hsub _ (he1 e he)⟩, fun x hx hn => ht1 x hx (fun hi => hn (hsub _ hi))⟩

theorem framed_pure (ids : List Nat) (st : TickState) : Framed ids st (pure st) :=
  Frame.refl ids st

theorem framed_bind {ids : List Nat} {st : TickState} {x : Except TickState TickState}
    {g : TickState → Except TickState TickState} (hx : Framed ids st x)
    (hg : ∀ st1, Frame ids st st1 → Framed ids st1 (g st1)) : Framed ids st (x >>= g) := by
  cases x with
  | error e => exact hx
  | ok a =>
    have h1 : Frame ids st a := hx
    have h2 := hg a h1
    show Framed ids st (g a)
    cases hga : g a with
    | error e =>
      rw [hga] at h2
      exact Frame.trans h1 h2
    | ok b =>
      rw [hga] at h2
      exact Frame.trans h1 h2

theorem framed_of_frame {ids : List Nat} {st st1 : TickState}
    {x : Except TickState TickState} (h1 : Frame ids st st1) (h2 : Framed ids st1 x) :
    Framed ids st x := by
  cases x with
  | error e => exact Frame.trans h1 h2
  | ok a => exact Frame.trans h1 h2

theorem framed_mutate (faults : StoreFaults) (i : Nat) (m : Mutation) (f : Store → Store)
    (st : TickState) (hf : ∀ s : Store, ∀ x ∈ s.tasks, x.id ≠ i → x ∈ (f s).tasks) :
    Framed [i] st (mutate faults i m f st) := by
  unfold mutate
  by_cases h : faults i m = true
  · rw [if_pos h]
    exact Frame.refl _ st
  · rw [if_neg h]
    refine ⟨⟨[], by simp, by simp⟩, ?_⟩
    intro x hx hn
    exact hf st.store x hx (by simpa using hn)

theorem update_keeps (s : Store) (i uid : Nat) (u : Updates) :
    ∀ x ∈ s.tasks, x.id ≠ i → x ∈ (taskDB.update s i uid u).tasks := by
  intro x hx hn
  unfold taskDB.update
  refine List.mem_map.2 ⟨x, hx, ?_⟩
  unfold onRow
  rw [if_neg (fun h => hn h.1)]

theorem frame_sends (env : Env) (r : DueRow) (b : Bool) (ph : Phase) (st : TickState) :
    Frame [r.task.id] st { st with sent := st.sent ++ alertAll env r b ph } := by
  refine ⟨⟨alertAll env r b ph, rfl, ?_⟩, fun _ hx _ => hx⟩
  intro e he
  have := (alertAll_task_id env r b ph e he).1
  simp [this]

theorem framed_foldlM_subtasks (faults : StoreFaults) (i newId : Nat) (l : List (Nat × Subtask))
    (st : TickState) :
    Framed [i] st
      (l.foldlM
        (fun acc p =>
          mutate faults i (.insertSubtask p.1) (fun s => subtaskDB.add s newId p.2.text) acc)
        st) := by
  induction l generalizing st with
  | nil => exact Frame.refl _ st
  | cons a l ih =>
    rw [List.foldlM_cons]
    apply framed_bind
    · apply framed_mutate
      intro s x hx _
      exact hx
    · intro st1 _
      exact ih st1

theorem framed_regenerate (env : Env) (faults : StoreFaults) (now : Int) (r : DueRow)
    (st : TickState) : Framed [r.task.id] st (regenerateFaulty env faults now r st) := by
  unfold regenerateFaulty
  simp only []
  by_cases h : faults r.task.id .insertTask = true
  · rw [if_pos h]
    exact Frame.refl _ st
  · rw [if_neg h]
    apply framed_of_frame _ (framed_foldlM_subtasks _ _ _ _ _)
    refine ⟨⟨[], by simp, by simp⟩, ?_⟩
    intro x hx _
    simp only [taskDB.create]
    exact List.mem_append_left _ hx

theorem framed_processTask (env : Env) (faults : StoreFaults) (now : Int) (r : DueRow)
    (st : TickState) : Framed [r.task.id] st (processTaskFaulty env faults now r st) := by
  unfold processTaskFaulty
  by_cases h1 : r.task.completed = true
  · rw [if_pos h1]; exact Frame.refl _ st
  rw [if_neg h1]
  by_cases h2 : snoozed now r.task = true
  · rw [if_pos h2]; exact Frame.refl _ st
  rw [if_neg h2]
  apply framed_bind
  · by_cases h3 : snoozeExpired now r.task = true
    · rw [if_pos h3]
      exact framed_mutate _ _ _ _ _ (fun s => update_keeps s _ _ _)
    · rw [if_neg h3]; exact Frame.refl _ st
  intro s1 _
  apply framed_bind
  · by_cases h4 : reminderDue env now r.task = true
    · rw [if_pos h4]
      exact framed_of_frame (frame_sends env r true .reminder s1)
        (framed_mutate _ _ _ _ _ (fun s => update_keeps s _ _ _))
    · rw [if_neg h4]; exact Frame.refl _ s1
  intro s2 _
  apply framed_bind
  · by_cases h5 : alertDue env now r.task = true
    · rw [if_pos h5]
      apply framed_bind
      · exact framed_of_frame (frame_sends env r false .due s2)
          (framed_mutate _ _ _ _ _ (fun s => update_keeps s _ _ _))
      · intro a _
        by_cases h7 : r.task.recurring ≠ some "none"
        · rw [if_pos h7]
          exact framed_regenerate env faults now r a
        · rw [if_neg h7]
          exact Frame.refl _ a
    · rw [if_neg h5]; exact Frame.refl _ s2
  intro s3 _
  by_cases h6 : escalationDue now r.task = true
  · rw [if_pos h6]
    exact framed_of_frame (frame_sends env r false .escalation s3)
      (framed_mutate _ _ _ _ _ (fun s => update_keeps s _ _ _))
  · rw [if_neg h6]; exact Frame.refl _ s3

theorem frame_runRows (env : Env) (faults : StoreFaults) (now : Int) (rows : List DueRow)
    (st st1 : TickState) (h : runRowsFaulty env faults now rows st = Except.ok st1) :
    Frame (rows.map fun r => r.task.id) st st1 := by
  induction rows generalizing st with
  | nil =>
    have : st1 = st := by
      simp only [runRowsFaulty, List.foldlM_nil, pure, Except.pure, Except.ok.injEq] at h
      exact h.symm
    rw [this]
    exact Frame.refl _ st
  | cons r rs ih =>
    unfold runRowsFaulty at h
    rw [List.foldlM_cons] at h
    have hf := framed_processTask env faults now r st
    cases hp : processTaskFaulty env faults now r st with
    | error e =>
      rw [hp] at h
      simp [bind, Except.bind] at h
    | ok a =>
      rw [hp] at h hf
      have h2 := ih a h
      have h1 : Frame [r.task.id] st a := hf
      exact Frame.trans (Frame.mono h1 (by intro i hi; simp at hi; simp [hi]))
        (Frame.mono h2 (by intro i hi; simp at hi ⊢; right; exact hi))

theorem runRowsFaulty_abort (env : Env) (faults : StoreFaults) (now : Int)
    (pre post : List DueRow) (r : DueRow) (st st1 st2 : TickState)
    (hpre : runRowsFaulty env faults now pre st = Except.ok st1)
    (hfail : processTaskFaulty env faults now r st1 = Except.error st2) :
    runRowsFaulty env faults now (pre ++ r :: post) st = Except.error st2 := by
  unfold runRowsFaulty at hpre ⊢
  rw [List.foldlM_append, hpre]
  simp only [bind, Except.bind]
  rw [List.foldlM_cons, hfail]
  rfl

theorem runSteps_append (faults : StoreFaults) (i : Nat) (a b : List Step) (st : TickState) :
    runSteps faults i (a ++ b) st = runSteps faults i a st >>= runSteps faults i b := by
  induction a generalizing st with
  | nil => rfl
  | cons x a ih =>
    simp only [List.cons_append, runSteps]
    by_cases h : x.throws faults i = true
    · simp [h]; rfl
    · simp [h, ih]

theorem runSteps_eq (faults : StoreFaults) (i : Nat) (steps : List Step) (st : TickState) :
    runSteps faults i steps st =
      if steps.any (Step.throws faults i) then
        Except.error ((stepsDone faults i steps).foldl (fun a x => x.run a) st)
      else Except.ok (steps.foldl (fun a x => x.run a) st) := by
  induction steps generalizing st with
  | nil => rfl
  | cons x rest ih =>
    unfold runSteps stepsDone
    by_cases h : x.throws faults i = true
    · simp [h]; rfl
    · simp only [h, if_false, List.any_cons, Bool.false_or, ih, List.foldl_cons]
      simp [List.takeWhile_cons, h, stepsDone]

theorem foldlM_enumFrom_steps (faults : StoreFaults) (i newId : Nat) (l : List Subtask) (n : Nat)
    (st : TickState) (h : st.store.task_seq = newId) :
    (l.enumFrom n).foldlM
        (fun acc p =>
          mutate faults i (.insertSubtask p.1) (fun s => subtaskDB.add s newId p.2.text) acc) st =
      runSteps faults i
        ((l.enumFrom n).map fun p =>
          Step.statement (.insertSubtask p.1) (fun s => subtaskDB.add s s.task_seq p.2.text)) st := by
  induction l generalizing n st with
  | nil => rfl
  | cons a l ih =>
    rw [List.enumFrom_cons, List.foldlM_cons, List.map_cons]
    unfold runSteps
    by_cases hf : faults i (.insertSubtask n) = true
    · simp [mutate, hf, Step.throws]
      rfl
    · have hm : mutate faults i (.insertSubtask n) (fun s => subtaskDB.add s newId a.text) st =
          pure { st with store := subtaskDB.add st.store newId a.text } := by
        simp [mutate, hf]
      have ht : (Step.statement (.insertSubtask n)
          (fun s => subtaskDB.add s s.task_seq a.text)).throws faults i = false := by
        simp [Step.throws, hf]
      simp only [hm, pure_bind, ht, Bool.false_eq_true, if_false]
      rw [ih (n + 1) { st with store := subtaskDB.add st.store newId a.text } h]
      simp only [Step.run, h]

theorem regenerateFaulty_steps (env : Env) (faults : StoreFaults) (now : Int) (r : DueRow)
    (st : TickState) :
    regenerateFaulty env faults now r st =
      runSteps faults r.task.id
        (Step.statement .insertTask (fun s =>
          (taskDB.create s r.task.user_id
            { title := r.task.title
              description := r.task.description
              dueDate := calculateNextDate env r.task.due_date (r.task.recurring.getD "")
              dueTime := r.task.due_time
              recurring := r.task.recurring
              priority := some (strOr r.task.priority "medium")
              category := some (strOr r.task.category "general")
              reminderMinutes := r.task.reminder_minutes.getD 0
              notes := some (strOr r.task.notes "") } now).1) ::
          r.subtasks.enum.map fun p =>
            Step.statement (.insertSubtask p.1) (fun s => subtaskDB.add s s.task_seq p.2.text))
        st := by
  unfold regenerateFaulty
  simp only [runSteps, Step.throws]
  by_cases hf : faults r.task.id .insertTask = true
  · simp [hf]
  · simp only [hf, if_false]
    unfold List.enum
    rw [foldlM_enumFrom_steps]
    · rfl
    · rfl

theorem mutate_step (faults : StoreFaults) (i : Nat) (m : Mutation) (f : Store → Store)
    (st : TickState) :
    mutate faults i m f st = runSteps faults i [Step.statement m f] st := by
  unfold mutate
  simp only [runSteps, Step.throws, Step.run]

theorem mutate_calls_step (faults : StoreFaults) (i : Nat) (l : List Send) (m : Mutation)
    (f : Store → Store) (st : TickState) :
    mutate faults i m f { st with sent := st.sent ++ l } =
      runSteps faults i [Step.calls l, Step.statement m f] st := by
  unfold mutate
  simp only [runSteps, Step.throws, Step.run]
  simp only [Bool.false_eq_true, if_false]

theorem processTaskFaulty_steps (env : Env) (faults : StoreFaults) (now : Int) (r : DueRow)
    (st : TickState) :
    processTaskFaulty env faults now r st = runSteps faults r.task.id (rowSteps env now r) st := by
  unfold processTaskFaulty rowSteps
  by_cases h1 : r.task.completed = true
  · simp [h1, runSteps]
  by_cases h2 : snoozed now r.task = true
  · simp [h1, h2, runSteps]
  simp only [h1, h2, Bool.false_eq_true, if_false, Bool.or_self]
  have hA : ∀ x : TickState,
      (if snoozeExpired now r.task = true then
        mutate faults r.task.id .snoozeReset
          (fun s => taskDB.update s r.task.id r.task.user_id
            ({ snoozed_until := some none, notified := some false, reminder_sent := some false }))
          x
      else pure x) =
      runSteps faults r.task.id
        (if snoozeExpired now r.task = true then
          [Step.statement .snoozeReset (fun s => taskDB.update s r.task.id r.task.user_id
            ({ snoozed_until := some none, notified := some false,
               reminder_sent := some false }))]
          else []) x := by
    intro x
    by_cases h3 : snoozeExpired now r.task = true
    · rw [if_pos h3, if_pos h3, mutate_step]
    · rw [if_neg h3, if_neg h3]; rfl
  have hB : ∀ x : TickState,
      (if reminderDue env now r.task = true then
        mutate faults r.task.id .reminderMark
          (fun s => taskDB.update s r.task.id r.task.user_id ({ reminder_sent := some true }))
          { x with sent := x.sent ++ alertAll env r true .reminder }
      else pure x) =
      runSteps faults r.task.id
        (if reminderDue env now r.task = true then
          [Step.calls (alertAll env r true .reminder),
           Step.statement .reminderMark
             (fun s => taskDB.update s r.task.id r.task.user_id ({ reminder_sent := some true }))]
          else []) x := by
    intro x
    by_cases h4 : reminderDue env now r.task = true
    · rw [if_pos h4, if_pos h4, mutate_calls_step]
    · rw [if_neg h4, if_neg h4]; rfl
  have hD : ∀ x : TickState,
      (if escalationDue now r.task = true then
        mutate faults r.task.id .escalationMark
          (fun s => taskDB.update s r.task.id r.task.user_id
            ({ alert_count := some (r.task.alert_count.getD 0 + 1),
               last_alert_sent := some now }))
          { x with sent := x.sent ++ alertAll env r false .escalation }
      else pure x) =
      runSteps faults r.task.id
        (if escalationDue now r.task = true then
          [Step.calls (alertAll env r false .escalation),
           Step.statement .escalationMark (fun s => taskDB.update s r.task.id r.task.user_id
             ({ alert_count := some (r.task.alert_count.getD 0 + 1),
                last_alert_sent := some now }))]
          else []) x := by
    intro x
    by_cases h6 : escalationDue now r.task = true
    · rw [if_pos h6, if_pos h6, mutate_calls_step]
    · rw [if_neg h6, if_neg h6]; rfl
  rw [runSteps_append, hA]
  congr 1
  funext s1
  rw [runSteps_append, hB]
  congr 1
  funext s2
  rw [runSteps_append]
  congr 1
  · by_cases h5 : alertDue env now r.task = true
    · rw [if_pos h5, if_pos h5, runSteps_append, mutate_calls_step]
      congr 1
      funext a
      by_cases h7 : r.task.recurring = some "none"
      · simp only [h7, ne_eq, not_true_eq_false, if_false]; rfl
      · simp only [h7, ne_eq, not_false_eq_true, if_true]
        exact regenerateFaulty_steps env faults now r a
    · rw [if_neg h5, if_neg h5]; rfl
  · funext s3
    exact hD s3


theorem throws_noFaults (i : Nat) (x : Step) : x.throws noFaults i = false := by
  cases x <;> rfl

theorem rowSteps_foldl (env : Env) (now : Int) (r : DueRow) (st : TickState) :
    (rowSteps env now r).foldl (fun a x => x.run a) st = processTask env now r st := by
  have h1 := processTaskFaulty_steps env noFaults now r st
  rw [processTaskFaulty_noFaults, runSteps_eq] at h1
  have hany : (rowSteps env now r).any (Step.throws noFaults r.task.id) = false := by
    rw [List.any_eq_false]
    intro x _
    simp [throws_noFaults]
  rw [hany] at h1
  simp only [Bool.false_eq_true, if_false, Except.ok.injEq] at h1
  exact h1.symm

theorem processTaskFaulty_ok (env : Env) (faults : StoreFaults) (now : Int) (r : DueRow)
    (st : TickState) (h : (rowSteps env now r).any (Step.throws faults r.task.id) = false) :
    processTaskFaulty env faults now r st = Except.ok (processTask env now r st) := by
  rw [processTaskFaulty_steps, runSteps_eq, h, rowSteps_foldl]
  rfl

theorem processTaskFaulty_error (env : Env) (faults : StoreFaults) (now : Int) (r : DueRow)
    (st : TickState) (h : (rowSteps env now r).any (Step.throws faults r.task.id) = true) :
    processTaskFaulty env faults now r st =
      Except.error ((stepsDone faults r.task.id (rowSteps env now r)).foldl
        (fun a x => x.run a) st) := by
  rw [processTaskFaulty_steps, runSteps_eq, h]
  rfl

theorem runRowsFaulty_ok (env : Env) (faults : StoreFaults) (now : Int) (rows : List DueRow)
    (st : TickState)
    (h : ∀ q ∈ rows, (rowSteps env now q).any (Step.throws faults q.task.id) = false) :
    runRowsFaulty env faults now rows st = Except.ok (runRows env now rows st) := by
  unfold runRowsFaulty
  induction rows generalizing st with
  | nil => rfl
  | cons r rs ih =>
    rw [List.foldlM_cons, processTaskFaulty_ok env faults now r st (h r (List.mem_cons_self _ _))]
    simp only [bind, Except.bind]
    rw [ih _ (fun q hq => h q (List.mem_cons_of_mem _ hq))]
    rfl

theorem stepsDone_length (faults : StoreFaults) (i : Nat) (steps : List Step)
    (h : steps.any (Step.throws faults i) = true) :
    (stepsDone faults i steps).length < steps.length := by
  induction steps with
  | nil => simp at h
  | cons x rest ih =>
    unfold stepsDone
    by_cases hx : x.throws faults i = true
    · simp [List.takeWhile_cons, hx]
    · simp only [List.any_cons, hx, Bool.false_or] at h
      have := ih h
      unfold stepsDone at this
      simp only [List.takeWhile_cons, hx, Bool.not_false, if_true, List.length_cons]
      simp only [Bool.not_eq_true] at hx
      simp [hx]
      exact this

theorem tame_update (i uid : Nat) (u : Updates) :
    Tame i (fun s => taskDB.update s i uid u) := by
  intro s
  refine ⟨le_refl _, ?_⟩
  intro y hy hne
  left
  unfold taskDB.update at hy
  obtain ⟨x, hx, rfl⟩ := List.mem_map.1 hy
  unfold onRow at hne ⊢
  by_cases h : x.id = i ∧ x.user_id = uid
  · rw [if_pos h] at hne
    exact absurd h.1 hne
  · rw [if_neg h]; exact hx

theorem tame_create (i uid : Nat) (d : TaskData) (now : Int) :
    Tame i (fun s => (taskDB.create s uid d now).1) := by
  intro s
  refine ⟨Nat.le_succ _, ?_⟩
  intro y hy _
  simp only [taskDB.create, List.mem_append, List.mem_singleton] at hy
  rcases hy with hy | hy
  · exact Or.inl hy
  · right; rw [hy]; exact Nat.lt_succ_self _

theorem tame_add (i : Nat) (text : String) :
    Tame i (fun s => subtaskDB.add s s.task_seq text) := by
  intro s
  exact ⟨le_refl _, fun y hy _ => Or.inl hy⟩

theorem rowSteps_tame (env : Env) (now : Int) (r : DueRow) :
    ∀ x ∈ rowSteps env now r, ∀ m f, x = Step.statement m f → Tame r.task.id f := by
  intro x hx m f hxe
  subst hxe
  unfold rowSteps at hx
  split at hx
  · cases hx
  · simp only [List.mem_append] at hx
    rcases hx with hx | hx | hx | hx
    · split at hx
      · simp only [List.mem_singleton, Step.statement.injEq] at hx
        rw [hx.2]; exact tame_update _ _ _
      · cases hx
    · split at hx
      · simp only [List.mem_cons, List.mem_singleton, Step.statement.injEq, List.not_mem_nil,
          or_false, false_or, reduceCtorEq] at hx
        rw [hx.2]; exact tame_update _ _ _
      · cases hx
    · split at hx
      · simp only [List.mem_append, List.mem_cons, List.mem_singleton, List.not_mem_nil,
          or_false, false_or, reduceCtorEq, Step.statement.injEq] at hx
        rcases hx with hx | hx
        · rw [hx.2]; exact tame_update _ _ _
        · split at hx
          · simp only [List.mem_cons, Step.statement.injEq, List.mem_map] at hx
            rcases hx with hx | ⟨p, _, hp⟩
            · rw [hx.2]; exact tame_create _ _ _ _
            · rw [← hp.2]; exact tame_add _ _
          · cases hx
      · cases hx
    · split at hx
      · simp only [List.mem_cons, List.mem_singleton, Step.statement.injEq, List.not_mem_nil,
          or_false, false_or, reduceCtorEq] at hx
        rw [hx.2]; exact tame_update _ _ _
      · cases hx

theorem foldl_tame (i : Nat) (steps : List Step)
    (h : ∀ x ∈ steps, ∀ m f, x = Step.statement m f → Tame i f) (st : TickState) :
    st.store.task_seq ≤ (steps.foldl (fun a x => x.run a) st).store.task_seq ∧
      ∀ y ∈ (steps.foldl (fun a x => x.run a) st).store.tasks, y.id ≠ i →
        y ∈ st.store.tasks ∨ st.store.task_seq < y.id := by
  induction steps generalizing st with
  | nil => exact ⟨le_refl _, fun y hy _ => Or.inl hy⟩
  | cons x rest ih =>
    simp only [List.foldl_cons]
    obtain ⟨h1, h2⟩ := ih (fun z hz => h z (List.mem_cons_of_mem _ hz)) (x.run st)
    have hx : st.store.task_seq ≤ (x.run st).store.task_seq ∧
        ∀ y ∈ (x.run st).store.tasks, y.id ≠ i →
          y ∈ st.store.tasks ∨ st.store.task_seq < y.id := by
      cases x with
      | calls l => exact ⟨le_refl _, fun y hy _ => Or.inl hy⟩
      | statement m f => exact h _ (List.mem_cons_self _ _) m f rfl st.store
    refine ⟨le_trans hx.1 h1, ?_⟩
    intro y hy hne
    rcases h2 y hy hne with h3 | h3
    · exact hx.2 y h3 hne
    · exact Or.inr (lt_of_le_of_lt hx.1 h3)

theorem foldEffect_id (env : Env) (now : Int) (rows : List DueRow) (x : Task) :
    (foldEffect env now rows x).id = x.id := by
  unfold foldEffect
  induction rows generalizing x with
  | nil => rfl
  | cons r rs ih =>
    simp only [List.foldl_cons]
    rw [ih]
    exact onRow_id _ _ _ (netEffect_id env now r.task) x

theorem foldEffect_initial (env : Env) (now : Int) (s : Store) (hwf : s.WF)
    (pre rest : List DueRow) (hrows : taskDB.getDueTasks env now s = pre ++ rest) (x : Task)
    (hx : x ∈ s.tasks) (hne : ∀ q ∈ rest, q.task.id ≠ x.id) :
    foldEffect env now pre x = tickTask env now s x := by
  rw [← foldEffect_getDueTasks env now s hwf.nodup x hx, hrows]
  unfold foldEffect
  rw [List.foldl_append]
  symm
  apply foldEffect_of_ne
  intro q hq
  have := foldEffect_id env now pre x
  unfold foldEffect at this
  rw [this]
  exact hne q hq

theorem filter_rowSends_ne (env : Env) (now : Int) (rows : List DueRow) (i : Nat)
    (h : ∀ q ∈ rows, q.task.id ≠ i) :
    ((rows.flatMap (rowSends env now)).filter fun e => e.task_id = i) = [] := by
  apply filter_eq_nil_of_forall
  intro e he
  obtain ⟨q, hq, heq⟩ := List.mem_flatMap.1 he
  have := rowSends_task_id env now q e heq
  simp [this, h q hq]


theorem mem_of_mem_stepsDone {faults : StoreFaults} {i : Nat} {steps : List Step} {z : Step}
    (h : z ∈ stepsDone faults i steps) : z ∈ steps := by
  unfold stepsDone at h
  induction steps with
  | nil => cases h
  | cons x rest ih =>
    rw [List.takeWhile_cons] at h
    split at h
    · rcases List.mem_cons.1 h with h | h
      · rw [h]; exact List.mem_cons_self _ _
      · exact List.mem_cons_of_mem _ (ih h)
    · cases h

theorem abort_state_row (env : Env) (faults : StoreFaults) (now : Int) (s : Store) (hwf : s.WF)
    (pre post : List DueRow) (r : DueRow)
    (hrows : taskDB.getDueTasks env now s = pre ++ r :: post) (x : Task) (hx : x ∈ s.tasks)
    (hne : x.id ≠ r.task.id) :
    foldEffect env now pre x ∈
        ((stepsDone faults r.task.id (rowSteps env now r)).foldl (fun a z => z.run a)
          (runRows env now pre ⟨s, []⟩)).store.tasks ∧
      ∀ y ∈ ((stepsDone faults r.task.id (rowSteps env now r)).foldl (fun a z => z.run a)
          (runRows env now pre ⟨s, []⟩)).store.tasks,
        y.id = x.id → y = foldEffect env now pre x := by
  have hmem : ∀ q ∈ pre, q ∈ taskDB.getDueTasks env now s := by
    intro q hq; rw [hrows]; exact List.mem_append_left _ hq
  obtain ⟨extra, e1, e2, _⟩ := runRows_tasks env now pre ⟨s, []⟩
    (fun q hq => hwf.bound _ (mem_getDueTasks.1 (hmem q hq)).1)
  have hin : foldEffect env now pre x ∈ (runRows env now pre ⟨s, []⟩).store.tasks := by
    rw [e1]
    exact List.mem_append_left _ (List.mem_map_of_mem _ hx)
  constructor
  · have hframe := framed_processTask env faults now r (runRows env now pre ⟨s, []⟩)
    rw [processTaskFaulty_steps, runSteps_eq] at hframe
    by_cases hany : (rowSteps env now r).any (Step.throws faults r.task.id) = true
    · rw [if_pos hany] at hframe
      exact hframe.2 _ hin (by rw [foldEffect_id]; simpa using hne)
    · have hall : stepsDone faults r.task.id (rowSteps env now r) = rowSteps env now r := by
        unfold stepsDone
        rw [List.takeWhile_eq_self_iff]
        intro z hz
        simp only [Bool.not_eq_true, List.any_eq_true, not_exists, not_and] at hany
        simp [hany z hz]
      rw [if_neg hany] at hframe
      rw [hall]
      exact hframe.2 _ hin (by rw [foldEffect_id]; simpa using hne)
  · intro y hy hid
    have htame : ∀ z ∈ stepsDone faults r.task.id (rowSteps env now r), ∀ m f,
        z = Step.statement m f → Tame r.task.id f := by
      intro z hz
      exact rowSteps_tame env now r z (mem_of_mem_stepsDone hz)
    have hb := hwf.bound x hx
    rcases (foldl_tame r.task.id _ htame (runRows env now pre ⟨s, []⟩)).2 y hy
        (by rw [hid]; exact hne) with h | h
    · rw [e1] at h
      rcases List.mem_append.1 h with h | h
      · obtain ⟨x2, hx2, rfl⟩ := List.mem_map.1 h
        rw [foldEffect_id] at hid
        rw [mem_unique_of_wf hwf hx2 hx hid]
      · have := (e2 y h).1
        have hs : (⟨s, []⟩ : TickState).store.task_seq = s.task_seq := rfl
        omega
    · have := runRows_task_seq_le env now pre ⟨s, []⟩
      have hs : (⟨s, []⟩ : TickState).store.task_seq = s.task_seq := rfl
      omega

/-- C21 (amended): the fetched rows are `pre`, then `r`, then `post`; no
statement that the loop body executes on a row of `pre` throws, and one that it
executes on `r` does.  Then the run ends in the `catch` block of the callback,
in the state that the rows of `pre`, worked through as in a run without
failure, and the steps of `r` before the first statement that throws leave: the
loop body throws on `r` in that state, and the statement that throws and the
steps of `r` after it are not run.  No row of `post` is evaluated: no adapter
call is made for its task and the stored task is the fetched one.  The tasks
of the rows of `pre` keep what they received: the adapter calls for them and
their stored rows are those of the run without failure. -/
theorem store_failure_ends_run (env : Env) (faults : StoreFaults) (now : Int) (s : Store)
    (hwf : s.WF) (pre post : List DueRow) (r : DueRow)
    (hrows : taskDB.getDueTasks env now s = pre ++ r :: post)
    (hpre : ∀ q ∈ pre, (rowSteps env now q).any (Step.throws faults q.task.id) = false)
    (hfail : (rowSteps env now r).any (Step.throws faults r.task.id) = true) :
    runTickFaulty env faults now s =
        ((stepsDone faults r.task.id (rowSteps env now r)).foldl (fun a x => x.run a)
          (runRows env now pre ⟨s, []⟩), true) ∧
      runRowsFaulty env faults now pre ⟨s, []⟩ = Except.ok (runRows env now pre ⟨s, []⟩) ∧
      processTaskFaulty env faults now r (runRows env now pre ⟨s, []⟩) =
        Except.error (runTickFaulty env faults now s).1 ∧
      (stepsDone faults r.task.id (rowSteps env now r)).length < (rowSteps env now r).length ∧
      (∀ q ∈ post,
        (∀ e ∈ (runTickFaulty env faults now s).1.sent, e.task_id ≠ q.task.id) ∧
        q.task ∈ (runTickFaulty env faults now s).1.store.tasks ∧
        ∀ y ∈ (runTickFaulty env faults now s).1.store.tasks, y.id = q.task.id → y = q.task) ∧
      (∀ q ∈ pre,
        ((runTickFaulty env faults now s).1.sent.filter fun e => e.task_id = q.task.id) =
          ((runTick env now s).sent.filter fun e => e.task_id = q.task.id) ∧
        ∀ y : Task, y.id = q.task.id →
          (y ∈ (runTickFaulty env faults now s).1.store.tasks ↔
            y ∈ (runTick env now s).store.tasks)) := by
  have hpreok := runRowsFaulty_ok env faults now pre ⟨s, []⟩ hpre
  have herr := processTaskFaulty_error env faults now r (runRows env now pre ⟨s, []⟩) hfail
  have hrun : runTickFaulty env faults now s =
      ((stepsDone faults r.task.id (rowSteps env now r)).foldl (fun a x => x.run a)
        (runRows env now pre ⟨s, []⟩), true) := by
    unfold runTickFaulty
    rw [hrows, runRowsFaulty_abort env faults now pre post r ⟨s, []⟩ _ _ hpreok herr]
  have hnd := getDueTasks_ids_nodup env now s hwf
  rw [hrows, List.map_append, List.map_cons, List.nodup_append] at hnd
  obtain ⟨_, hnd2, hnd3⟩ := hnd
  rw [List.nodup_cons] at hnd2
  have hpre_ne : ∀ q ∈ pre, q.task.id ≠ r.task.id := by
    intro q hq hid
    exact hnd3 (List.mem_map_of_mem (fun x => x.task.id) hq)
      (by rw [hid]; exact List.mem_cons_self _ _)
  have hpost_ne : ∀ q ∈ post, q.task.id ≠ r.task.id := by
    intro q hq hid
    exact hnd2.1 (by rw [← hid]; exact List.mem_map_of_mem (fun x => x.task.id) hq)
  have hpp : ∀ a ∈ pre, ∀ b ∈ post, a.task.id ≠ b.task.id := by
    intro a ha b hb hid
    exact hnd3 (List.mem_map_of_mem (fun x => x.task.id) ha)
      (by rw [hid]; exact List.mem_cons_of_mem _ (List.mem_map_of_mem (fun x => x.task.id) hb))
  have hmem_pre : ∀ q ∈ pre, q.task ∈ s.tasks := by
    intro q hq
    exact (mem_getDueTasks.1 (by rw [hrows]; exact List.mem_append_left _ hq)).1
  have hmem_post : ∀ q ∈ post, q.task ∈ s.tasks := by
    intro q hq
    exact (mem_getDueTasks.1 (by
      rw [hrows]; exact List.mem_append_right _ (List.mem_cons_of_mem _ hq))).1
  have f2 : Frame [r.task.id] (runRows env now pre ⟨s, []⟩)
      ((stepsDone faults r.task.id (rowSteps env now r)).foldl (fun a x => x.run a)
        (runRows env now pre ⟨s, []⟩)) := by
    have := framed_processTask env faults now r (runRows env now pre ⟨s, []⟩)
    rw [herr] at this
    exact this
  obtain ⟨⟨extra, hs, he⟩, _⟩ := f2
  have hsent : ∀ i : Nat, i ≠ r.task.id →
      (((stepsDone faults r.task.id (rowSteps env now r)).foldl (fun a x => x.run a)
        (runRows env now pre ⟨s, []⟩)).sent.filter fun e => e.task_id = i) =
        ((pre.flatMap (rowSends env now)).filter fun e => e.task_id = i) := by
    intro i hi
    rw [hs, runRows_sent, List.filter_append, List.nil_append,
      filter_eq_nil_of_forall _ extra, List.append_nil]
    intro e hmem
    have := he e hmem
    simp only [List.mem_singleton] at this
    simp [this, Ne.symm hi]
  refine ⟨hrun, hpreok, by rw [hrun]; exact herr,
    stepsDone_length faults r.task.id _ hfail, ?_, ?_⟩
  · intro q hq
    rw [hrun]
    have hrow := abort_state_row env faults now s hwf pre post r hrows q.task (hmem_post q hq)
      (hpost_ne q hq)
    have hfe : foldEffect env now pre q.task = q.task :=
      foldEffect_of_ne env now pre q.task (fun a ha => hpp a ha q hq)
    rw [hfe] at hrow
    refine ⟨?_, hrow.1, hrow.2⟩
    intro e hmem hid
    have h1 := hsent q.task.id (hpost_ne q hq)
    rw [filter_rowSends_ne env now pre q.task.id (fun a ha => hpp a ha q hq)] at h1
    have : e ∈ List.filter (fun e => decide (e.task_id = q.task.id))
        ((stepsDone faults r.task.id (rowSteps env now r)).foldl (fun a x => x.run a)
          (runRows env now pre ⟨s, []⟩)).sent :=
      List.mem_filter.2 ⟨hmem, by simpa using hid⟩
    rw [h1] at this
    cases this
  · intro q hq
    rw [hrun]
    have hrow := abort_state_row env faults now s hwf pre post r hrows q.task (hmem_pre q hq)
      (hpre_ne q hq)
    have hfe : foldEffect env now pre q.task = tickTask env now s q.task :=
      foldEffect_initial env now s hwf pre (r :: post) hrows q.task (hmem_pre q hq) (by
        intro a ha
        rcases List.mem_cons.1 ha with rfl | ha
        · exact Ne.symm (hpre_ne q hq)
        · exact Ne.symm (hpp q hq a ha))
    rw [hfe] at hrow
    have hfree := runTick_row env now s hwf q.task (hmem_pre q hq)
    constructor
    · rw [hsent q.task.id (hpre_ne q hq), runTick_sent, hrows, List.flatMap_append,
        List.flatMap_cons, List.filter_append, List.filter_append,
        filter_rowSends_ne env now post q.task.id (fun a ha => Ne.symm (hpp q hq a ha)),
        filter_eq_nil_of_forall _ (rowSends env now r), List.append_nil, List.append_nil]
      intro e hmem
      have := rowSends_task_id env now r e hmem
      simp [this, Ne.symm (hpre_ne q hq)]
    · intro y hid
      constructor
      · intro hy
        rw [hrow.2 y hy hid]
        exact hfree.1
      · intro hy
        rw [hfree.2 y hy hid]
        exact hrow.1

/-- Witness of `store_failure_ends_run`: three due tasks, the `notified` mark of
the second one throws.  The first task keeps its alert, the third gets none. -/
theorem store_failure_ends_run_witness :
    taskDB.getDueTasks utc (utcInstant 2024 6 1 10 0) threeTasks =
        [(⟨sampleTask, alice, []⟩ : DueRow)] ++
          (⟨secondTask, alice, []⟩ : DueRow) :: [⟨thirdTask, alice, []⟩] ∧
      (rowSteps utc (utcInstant 2024 6 1 10 0) ⟨secondTask, alice, []⟩).any
          (Step.throws dueMarkFailsSecond 2) = true ∧
      (runTickFaulty utc dueMarkFailsSecond (utcInstant 2024 6 1 10 0) threeTasks).2 = true ∧
      (runTickFaulty utc dueMarkFailsSecond (utcInstant 2024 6 1 10 0) threeTasks).1.sent.map
          (fun e => (e.task_id, e.phase)) =
        [(1, Phase.due), (1, Phase.due), (1, Phase.due), (2, Phase.due), (2, Phase.due),
          (2, Phase.due)] ∧
      (runTickFaulty utc dueMarkFailsSecond (utcInstant 2024 6 1 10 0) threeTasks).1.store.tasks.map
          (fun t => (t.id, t.notified)) = [(1, true), (2, false), (3, false)] ∧
      ((∀ q ∈ [(⟨thirdTask, alice, []⟩ : DueRow)],
        (∀ e ∈ (runTickFaulty utc dueMarkFailsSecond (utcInstant 2024 6 1 10 0)
            threeTasks).1.sent, e.task_id ≠ q.task.id) ∧
        q.task ∈ (runTickFaulty utc dueMarkFailsSecond (utcInstant 2024 6 1 10 0)
            threeTasks).1.store.tasks ∧
        ∀ y ∈ (runTickFaulty utc dueMarkFailsSecond (utcInstant 2024 6 1 10 0)
            threeTasks).1.store.tasks, y.id = q.task.id → y = q.task) ∧
      (∀ q ∈ [(⟨sampleTask, alice, []⟩ : DueRow)],
        ((runTickFaulty utc dueMarkFailsSecond (utcInstant 2024 6 1 10 0)
            threeTasks).1.sent.filter fun e => e.task_id = q.task.id) =
          ((runTick utc (utcInstant 2024 6 1 10 0) threeTasks).sent.filter
            fun e => e.task_id = q.task.id) ∧
        ∀ y : Task, y.id = q.task.id →
          (y ∈ (runTickFaulty utc dueMarkFailsSecond (utcInstant 2024 6 1 10 0)
              threeTasks).1.store.tasks ↔
            y ∈ (runTick utc (utcInstant 2024 6 1 10 0) threeTasks).store.tasks))) :=
  ⟨by decide, by decide, by decide, by decide, by decide,
    (store_failure_ends_run utc dueMarkFailsSecond (utcInstant 2024 6 1 10 0) threeTasks
      ⟨by decide, by decide⟩ [⟨sampleTask, alice, []⟩] [⟨thirdTask, alice, []⟩]
      ⟨secondTask, alice, []⟩ (by decide) (by decide) (by decide)).2.2.2.2⟩

/-- C21 (counterexample): two tasks of one user, both due 2024-06-01 10:00, tick
at that instant on a UTC server.  When no statement throws, the second task
gets its due alert and is stored with `notified = 1`.  When the `notified` mark
of the first task throws, the run ends in the `catch` block after the three
adapter calls for the first task: the second task gets no adapter call and is
stored unchanged, with `notified = 0`. -/
theorem store_failure_blocks_later_tasks :
    ((runTick utc (utcInstant 2024 6 1 10 0) twoTasks).sent.filter
        fun e => e.task_id = 2).length = 3 ∧
      (runTick utc (utcInstant 2024 6 1 10 0) twoTasks).store.tasks.map
          (fun t => (t.id, t.notified)) = [(1, true), (2, true)] ∧
      (runTickFaulty utc dueMarkFailsFirst (utcInstant 2024 6 1 10 0) twoTasks).2 = true ∧
      ((runTickFaulty utc dueMarkFailsFirst (utcInstant 2024 6 1 10 0) twoTasks).1.sent.filter
        fun e => e.task_id = 2) = [] ∧
      (runTickFaulty utc dueMarkFailsFirst (utcInstant 2024 6 1 10 0) twoTasks).1.store.tasks.map
          (fun t => (t.id, t.notified)) = [(1, false), (2, false)] := by
  decide

/-! ## The subtask handler -/

/-- What the handler keeps: without a task `taskId` of the session user nothing
changes, and in every case only the row of `subtasks` with id `subtaskId` can
change. -/
theorem patchSubtask_frame (s : Store) (sessionUser taskId subtaskId : Nat) :
    (taskDB.getById s taskId sessionUser = none →
        patchSubtask s sessionUser taskId subtaskId = (s, 404)) ∧
      (patchSubtask s sessionUser taskId subtaskId).1.tasks = s.tasks ∧
      (patchSubtask s sessionUser taskId subtaskId).1.users = s.users ∧
      ∀ x ∈ s.subtasks, x.id ≠ subtaskId →
        x ∈ (patchSubtask s sessionUser taskId subtaskId).1.subtasks := by
  unfold patchSubtask
  cases h : taskDB.getById s taskId sessionUser with
  | none => exact ⟨fun _ => rfl, rfl, rfl, fun x hx _ => hx⟩
  | some p =>
    refine ⟨fun h2 => Option.noConfusion h2, rfl, rfl, ?_⟩
    intro x hx hne
    simp only [subtaskDB.toggle]
    exact List.mem_map.2 ⟨x, hx, by rw [if_neg hne]⟩

/-- C27 (the code at the failing input): `alice` (user 1) owns task 1, `bob`
(user 2) owns task 2 with subtask 2.  In the session of `alice`,
`PATCH /api/tasks/1/subtasks/2` passes the ownership check on task 1 and then
toggles subtask 2, which is not a subtask of task 1 and belongs to a task of
`bob`: the answer is 200 and the subtask of `bob` is stored completed. -/
theorem subtask_patch_reaches_other_users :
    (taskDB.getById sharedStore 2 alice.id = none) ∧
      (sharedStore.subtasks.filter fun x => x.task_id = 1).map (fun x => x.id) = [1] ∧
      patchSubtask sharedStore alice.id 1 2 =
        ({ sharedStore with
           subtasks := [{ id := 1, task_id := 1, text := "mine", completed := false },
                        { id := 2, task_id := 2, text := "his", completed := true }] }, 200) := by
  decide

end TodoAlert
